import Mathlib

/-!
# Session registry of the signaling server (src/app.js)

A shallow embedding of the room / peer / transport / producer / consumer
bookkeeping of `src/app.js`.

* The five module-level variables `rooms`, `peers`, `transports`, `producers`,
  `consumers` are the fields of `State`.  The two JS objects used as
  dictionaries are association lists in insertion order (`dictGet`, `dictSet`,
  `dictDelete`); the three arrays are lists.
* Identifiers issued by socket.io and by the media engine are natural numbers;
  room names are strings, so that the JS truthiness test `peer.roomName && ...`
  of `cleanupPeer` can be expressed (`truthy`).
* Every socket handler is a function from the state before the request to the
  state after it together with the list of observable effects in program order:
  callbacks, socket.io emissions and calls into the media engine.
* The results of the awaited engine calls (`worker.createRouter`,
  `router.createWebRtcTransport`, `transport.produce`, `transport.consume`,
  `router.canConsume`) are arguments of the handler: `none` stands for a
  rejected promise or a thrown error.
* `step` handles one request to completion, and `run` is a sequence of such
  requests.
* `act` is one turn of the event loop: the part of a handler up to its next
  `await`, the disconnect handler, a producerclose listener, or the continuation
  of a handler suspended at `await createRoom(...)`, `worker.createRouter`,
  `createWebRtcTransport(router)`, `transport.produce` or `transport.consume`.
  `play` is a sequence of turns in any order, so that other requests and
  disconnects can be handled while a handler is suspended.  A request handled by
  `step` is the `play` of its turns one after the other (`step_is_a_play`).
* `asyncStep` is an earlier, coarser model of the joinRoom handler alone, in
  which two requests can both pass the `rooms[roomName]` test before either
  stores its router.
* The object `rooms = {}` inherits the properties of `Object.prototype`
  (`inheritedKeys`): for such a room name `rooms[roomName]` is truthy though
  nothing was stored, and `createRoom` throws.
-/

namespace Mediasoup

abbrev SocketId := Nat
abbrev RoomName := String
abbrev RouterId := Nat
abbrev TransportId := Nat
abbrev ProducerId := Nat
abbrev ConsumerId := Nat

/-- JS truthiness of a room name: the empty string is falsy. -/
def truthy (roomName : RoomName) : Bool := decide (roomName ≠ "")

/-- Property read `obj[k]` of a JS object used as a dictionary. -/
def dictGet {κ ν : Type} [DecidableEq κ] : List (κ × ν) → κ → Option ν
  | [], _ => none
  | (a, b) :: t, k => if a = k then some b else dictGet t k

/-- Property write `obj[k] = v`: an existing key keeps its position. -/
def dictSet {κ ν : Type} [DecidableEq κ] : List (κ × ν) → κ → ν → List (κ × ν)
  | [], k, v => [(k, v)]
  | (a, b) :: t, k, v => if a = k then (k, v) :: t else (a, b) :: dictSet t k v

/-- Property removal `delete obj[k]`. -/
def dictDelete {κ ν : Type} [DecidableEq κ] (d : List (κ × ν)) (k : κ) : List (κ × ν) :=
  d.filter (fun e => decide (e.1 ≠ k))

/-- Value of `rooms[roomName]`: `{ router, peers }`. -/
structure Room where
  router : RouterId
  peers : List SocketId
  deriving DecidableEq, Repr

/-- Value of `peers[socket.id]`; the `socket` field is the key itself and
`peerDetails` is the constant `{ name: '', isAdmin: false }`. -/
structure Peer where
  roomName : RoomName
  transports : List TransportId
  producers : List ProducerId
  consumers : List ConsumerId
  deriving DecidableEq, Repr

/-- Element of the `transports` array; `consumer` is the truthiness of the flag
sent by the client. -/
structure TransportData where
  socketId : SocketId
  transport : TransportId
  roomName : RoomName
  consumer : Bool
  deriving DecidableEq, Repr

/-- Element of the `producers` array. -/
structure ProducerData where
  socketId : SocketId
  producer : ProducerId
  roomName : RoomName
  deriving DecidableEq, Repr

/-- Element of the `consumers` array. -/
structure ConsumerData where
  socketId : SocketId
  consumer : ConsumerId
  roomName : RoomName
  deriving DecidableEq, Repr

/-- The closure registered by `consumer.on('producerclose', ...)` in the consume
handler, with the three variables it captures: `consumer`, `socket` and
`remoteProducerId`. -/
structure Listener where
  consumer : ConsumerId
  socketId : SocketId
  remoteProducerId : ProducerId
  deriving DecidableEq, Repr

/-- The module-level variables of app.js, and the producerclose listeners that
are attached to engine consumers. -/
structure State where
  rooms : List (RoomName × Room)
  peers : List (SocketId × Peer)
  transports : List TransportData
  producers : List ProducerData
  consumers : List ConsumerData
  listeners : List Listener
  deriving DecidableEq, Repr

/-- The `error.message` handed to a callback. -/
inductive ErrorMessage where
  | peerNotFound
  | transportNotFound
  | consumerTransportNotFound
  | cannotConsume
  | typeError
  | engineError
  deriving DecidableEq, Repr

/-- Argument of a request callback. -/
inductive Response where
  | error (message : ErrorMessage)
  | joined (rtpCapabilities : RouterId) (peers : List SocketId)
  | transportParams (id : TransportId)
  | produced (id : ProducerId) (producersExist : Bool)
  | consumed (id : ConsumerId) (producerId : ProducerId)
  | producerList (list : List (ProducerId × SocketId))
  deriving DecidableEq, Repr

/-- Server-to-client push messages. -/
inductive Notification where
  | peerJoined (socketId : SocketId)
  | newProducer (producerId : ProducerId) (socketId : SocketId)
  | producerClosed (remoteProducerId : ProducerId)
  deriving DecidableEq, Repr

/-- Calls into the media engine. -/
inductive EngineCall where
  | createRouter
  | createWebRtcTransport (router : RouterId)
  | connect (transport : TransportId)
  | produce (transport : TransportId)
  | canConsume (router : RouterId) (producerId : ProducerId)
  | consume (transport : TransportId) (producerId : ProducerId) (paused : Bool)
  | resume (consumer : ConsumerId)
  | closeConsumer (consumer : ConsumerId)
  | closeProducer (producer : ProducerId)
  | closeTransport (transport : TransportId)
  deriving DecidableEq, Repr

/-- Observable effects of a handler, in program order. -/
inductive Effect where
  | callback (socketId : SocketId) (response : Response)
  | emit (socketId : SocketId) (notification : Notification)
  | broadcast (roomName : RoomName) (sender : SocketId) (notification : Notification)
  | joinChannel (socketId : SocketId) (roomName : RoomName)
  | engine (call : EngineCall)
  deriving DecidableEq, Repr

/-- State at server start: `rooms = {}`, `peers = {}` and three empty arrays. -/
def initState : State := ⟨[], [], [], [], [], []⟩

/-- The tail of `createRoom`, from `rooms[roomName] = { router, peers: [...peers, socketId] }`
to `socket.join(roomName)`. -/
def createRoomStore (s : State) (roomName : RoomName) (socketId : SocketId)
    (router : RouterId) (peers : List SocketId) : State × List Effect :=
  ({ s with rooms := dictSet s.rooms roomName ⟨router, peers ++ [socketId]⟩ },
   [Effect.joinChannel socketId roomName])

/-- The property names that the plain object `rooms = {}` inherits from
`Object.prototype`.  For such a name `rooms[roomName]` is truthy although no room was
stored under it. -/
def inheritedKeys : List RoomName :=
  ["constructor", "__proto__", "hasOwnProperty", "isPrototypeOf", "propertyIsEnumerable",
   "toLocaleString", "toString", "valueOf", "__defineGetter__", "__defineSetter__",
   "__lookupGetter__", "__lookupSetter__"]

/-- The function `createRoom`, run without interruption; `created` is the outcome of
`await worker.createRouter` should it be called.  The third component is the returned
router, or the error that is thrown.  For an inherited name the test `if (rooms[roomName])`
succeeds, `peers = rooms[roomName].peers` is undefined and `[...peers, socketId]` throws a
TypeError before anything is stored. -/
def createRoom (s : State) (roomName : RoomName) (socketId : SocketId)
    (created : Option RouterId) : State × List Effect × Except ErrorMessage RouterId :=
  match dictGet s.rooms roomName with
  | some room =>
    let r := createRoomStore s roomName socketId room.router room.peers
    (r.1, r.2, Except.ok room.router)
  | none =>
    if roomName ∈ inheritedKeys then (s, [], Except.error ErrorMessage.typeError)
    else
      match created with
      | none =>
        (s, [Effect.engine EngineCall.createRouter], Except.error ErrorMessage.engineError)
      | some router =>
        let r := createRoomStore s roomName socketId router []
        (r.1, Effect.engine EngineCall.createRouter :: r.2, Except.ok router)

/-- The body of the joinRoom handler after `await createRoom` returned `router`. -/
def joinRoomRegister (s : State) (socketId : SocketId) (roomName : RoomName)
    (router : RouterId) : State × List Effect :=
  let s1 := { s with peers := dictSet s.peers socketId ⟨roomName, [], [], []⟩ }
  match dictGet s1.rooms roomName with
  | some room =>
    (s1, [Effect.broadcast roomName socketId (Notification.peerJoined socketId),
          Effect.callback socketId
            (Response.joined router (room.peers.filter (fun id => decide (id ≠ socketId))))])
  | none =>
    (s1, [Effect.broadcast roomName socketId (Notification.peerJoined socketId),
          Effect.callback socketId (Response.error ErrorMessage.typeError)])

/-- Handler `socket.on('joinRoom')`. -/
def joinRoom (s : State) (socketId : SocketId) (roomName : RoomName)
    (created : Option RouterId) : State × List Effect :=
  match createRoom s roomName socketId created with
  | (s1, effs, Except.ok router) =>
    let r := joinRoomRegister s1 socketId roomName router
    (r.1, effs ++ r.2)
  | (s1, effs, Except.error message) =>
    (s1, effs ++ [Effect.callback socketId (Response.error message)])

/-- One `forEach` loop of `cleanupPeer` over `peer.consumers`. -/
def closeConsumers (s : State) (ids : List ConsumerId) : List Effect :=
  ids.filterMap (fun id =>
    (s.consumers.find? (fun c => decide (c.consumer = id))).map
      (fun c => Effect.engine (EngineCall.closeConsumer c.consumer)))

/-- One `forEach` loop of `cleanupPeer` over `peer.producers`. -/
def closeProducers (s : State) (ids : List ProducerId) : List Effect :=
  ids.filterMap (fun id =>
    (s.producers.find? (fun p => decide (p.producer = id))).map
      (fun p => Effect.engine (EngineCall.closeProducer p.producer)))

/-- One `forEach` loop of `cleanupPeer` over `peer.transports`. -/
def closeTransports (s : State) (ids : List TransportId) : List Effect :=
  ids.filterMap (fun id =>
    (s.transports.find? (fun t => decide (t.transport = id))).map
      (fun t => Effect.engine (EngineCall.closeTransport t.transport)))

/-- The function `cleanupPeer`. -/
def cleanupPeer (s : State) (socketId : SocketId) : State × List Effect :=
  match dictGet s.peers socketId with
  | none => (s, [])
  | some peer =>
    let closes := closeConsumers s peer.consumers ++ closeProducers s peer.producers
      ++ closeTransports s peer.transports
    let rooms1 :=
      if truthy peer.roomName then
        match dictGet s.rooms peer.roomName with
        | some room =>
          dictSet s.rooms peer.roomName
            { room with peers := room.peers.filter (fun id => decide (id ≠ socketId)) }
        | none => s.rooms
      else s.rooms
    ({ s with
        consumers := s.consumers.filter (fun c => decide (c.socketId ≠ socketId))
        producers := s.producers.filter (fun p => decide (p.socketId ≠ socketId))
        transports := s.transports.filter (fun t => decide (t.socketId ≠ socketId))
        rooms := rooms1
        peers := dictDelete s.peers socketId },
     closes)

/-- The function `addTransport`: `Except.error` is the state in which
`peers[socket.id].transports` throws a TypeError after the push. -/
def addTransport (s : State) (socketId : SocketId) (transport : TransportId)
    (roomName : RoomName) (consumer : Bool) : Except State State :=
  let s1 := { s with transports := s.transports ++ [⟨socketId, transport, roomName, consumer⟩] }
  match dictGet s1.peers socketId with
  | none => Except.error s1
  | some peer =>
    Except.ok { s1 with
      peers := dictSet s1.peers socketId { peer with transports := peer.transports ++ [transport] } }

/-- The function `addProducer`. -/
def addProducer (s : State) (socketId : SocketId) (producer : ProducerId)
    (roomName : RoomName) : Except State State :=
  let s1 := { s with producers := s.producers ++ [⟨socketId, producer, roomName⟩] }
  match dictGet s1.peers socketId with
  | none => Except.error s1
  | some peer =>
    Except.ok { s1 with
      peers := dictSet s1.peers socketId { peer with producers := peer.producers ++ [producer] } }

/-- The function `addConsumer`. -/
def addConsumer (s : State) (socketId : SocketId) (consumer : ConsumerId)
    (roomName : RoomName) : Except State State :=
  let s1 := { s with consumers := s.consumers ++ [⟨socketId, consumer, roomName⟩] }
  match dictGet s1.peers socketId with
  | none => Except.error s1
  | some peer =>
    Except.ok { s1 with
      peers := dictSet s1.peers socketId { peer with consumers := peer.consumers ++ [consumer] } }

/-- Handler `socket.on('createWebRtcTransport')`; `created` is the outcome of the
module-level `createWebRtcTransport(router)`. -/
def createWebRtcTransport (s : State) (socketId : SocketId) (consumer : Bool)
    (created : Option TransportId) : State × List Effect :=
  match dictGet s.peers socketId with
  | none => (s, [Effect.callback socketId (Response.error ErrorMessage.peerNotFound)])
  | some peer =>
    match dictGet s.rooms peer.roomName with
    | none => (s, [Effect.callback socketId (Response.error ErrorMessage.typeError)])
    | some room =>
      match created with
      | none =>
        (s, [Effect.engine (EngineCall.createWebRtcTransport room.router),
             Effect.callback socketId (Response.error ErrorMessage.engineError)])
      | some transport =>
        match addTransport s socketId transport peer.roomName consumer with
        | Except.ok s1 =>
          (s1, [Effect.engine (EngineCall.createWebRtcTransport room.router),
                Effect.callback socketId (Response.transportParams transport)])
        | Except.error s1 =>
          (s1, [Effect.engine (EngineCall.createWebRtcTransport room.router),
                Effect.callback socketId (Response.error ErrorMessage.typeError)])

/-- Handler `socket.on('getProducers')`. -/
def getProducers (s : State) (socketId : SocketId) : State × List Effect :=
  match dictGet s.peers socketId with
  | none => (s, [Effect.callback socketId (Response.error ErrorMessage.peerNotFound)])
  | some peer =>
    (s, [Effect.callback socketId (Response.producerList
      ((s.producers.filter
          (fun p => decide (p.socketId ≠ socketId) && decide (p.roomName = peer.roomName))).map
        (fun p => (p.producer, p.socketId))))])

/-- The function `informConsumers`. -/
def informConsumers (roomName : RoomName) (socketId : SocketId) (producerId : ProducerId) :
    List Effect :=
  [Effect.broadcast roomName socketId (Notification.newProducer producerId socketId)]

/-- The function `getTransport`: the handle of the first entry with the given
socketId and a falsy consumer flag. -/
def getTransport (s : State) (socketId : SocketId) : Option TransportId :=
  ((s.transports.filter (fun t => decide (t.socketId = socketId) && !t.consumer)).head?).map
    (fun t => t.transport)

/-- Handler `socket.on('transport-connect')`: errors are only logged. -/
def transportConnect (s : State) (socketId : SocketId) : State × List Effect :=
  match getTransport s socketId with
  | none => (s, [])
  | some transport => (s, [Effect.engine (EngineCall.connect transport)])

/-- Handler `socket.on('transport-produce')`; `created` is the outcome of
`await transport.produce`. -/
def transportProduce (s : State) (socketId : SocketId) (created : Option ProducerId) :
    State × List Effect :=
  match getTransport s socketId with
  | none => (s, [Effect.callback socketId (Response.error ErrorMessage.transportNotFound)])
  | some transport =>
    match created with
    | none =>
      (s, [Effect.engine (EngineCall.produce transport),
           Effect.callback socketId (Response.error ErrorMessage.engineError)])
    | some producer =>
      match dictGet s.peers socketId with
      | none =>
        (s, [Effect.engine (EngineCall.produce transport),
             Effect.callback socketId (Response.error ErrorMessage.typeError)])
      | some peer =>
        match addProducer s socketId producer peer.roomName with
        | Except.error s1 =>
          (s1, [Effect.engine (EngineCall.produce transport),
                Effect.callback socketId (Response.error ErrorMessage.typeError)])
        | Except.ok s1 =>
          (s1, Effect.engine (EngineCall.produce transport)
                :: informConsumers peer.roomName socketId producer
                ++ [Effect.callback socketId
                      (Response.produced producer (decide (s1.producers.length > 1)))])

/-- Handler `socket.on('transport-recv-connect')`: errors are only logged. -/
def transportRecvConnect (s : State) (serverConsumerTransportId : TransportId) :
    State × List Effect :=
  match s.transports.find?
      (fun t => t.consumer && decide (t.transport = serverConsumerTransportId)) with
  | none => (s, [])
  | some transportData => (s, [Effect.engine (EngineCall.connect transportData.transport)])

/-- Handler `socket.on('consume')`; `canConsume` is the outcome of `router.canConsume`
(`none` when it throws) and `created` that of `await transport.consume`. -/
def consume (s : State) (socketId : SocketId) (remoteProducerId : ProducerId)
    (serverConsumerTransportId : TransportId) (canConsume : Option Bool)
    (created : Option ConsumerId) : State × List Effect :=
  match dictGet s.peers socketId with
  | none => (s, [Effect.callback socketId (Response.error ErrorMessage.peerNotFound)])
  | some peer =>
    match dictGet s.rooms peer.roomName with
    | none => (s, [Effect.callback socketId (Response.error ErrorMessage.typeError)])
    | some room =>
      match s.transports.find?
          (fun t => t.consumer && decide (t.transport = serverConsumerTransportId)) with
      | none =>
        (s, [Effect.callback socketId (Response.error ErrorMessage.consumerTransportNotFound)])
      | some transportData =>
        match canConsume with
        | none =>
          (s, [Effect.engine (EngineCall.canConsume room.router remoteProducerId),
               Effect.callback socketId (Response.error ErrorMessage.engineError)])
        | some false =>
          (s, [Effect.engine (EngineCall.canConsume room.router remoteProducerId),
               Effect.callback socketId (Response.error ErrorMessage.cannotConsume)])
        | some true =>
          match created with
          | none =>
            (s, [Effect.engine (EngineCall.canConsume room.router remoteProducerId),
                 Effect.engine (EngineCall.consume transportData.transport remoteProducerId true),
                 Effect.callback socketId (Response.error ErrorMessage.engineError)])
          | some consumer =>
            let s1 := { s with listeners := s.listeners ++ [⟨consumer, socketId, remoteProducerId⟩] }
            match addConsumer s1 socketId consumer peer.roomName with
            | Except.error s2 =>
              (s2, [Effect.engine (EngineCall.canConsume room.router remoteProducerId),
                    Effect.engine
                      (EngineCall.consume transportData.transport remoteProducerId true),
                    Effect.callback socketId (Response.error ErrorMessage.typeError)])
            | Except.ok s2 =>
              (s2, [Effect.engine (EngineCall.canConsume room.router remoteProducerId),
                    Effect.engine
                      (EngineCall.consume transportData.transport remoteProducerId true),
                    Effect.callback socketId (Response.consumed consumer remoteProducerId)])

/-- The closure `consumer.on('producerclose', ...)` of the consume handler. -/
def producercloseHandler (s : State) (l : Listener) : State × List Effect :=
  ({ s with consumers := s.consumers.filter (fun c => decide (c.consumer ≠ l.consumer)) },
   [Effect.emit l.socketId (Notification.producerClosed l.remoteProducerId),
    Effect.engine (EngineCall.closeConsumer l.consumer)])

/-- Handler `socket.on('consumer-resume')`: errors are only logged. -/
def consumerResume (s : State) (serverConsumerId : ConsumerId) : State × List Effect :=
  match s.consumers.find? (fun c => decide (c.consumer = serverConsumerId)) with
  | none => (s, [])
  | some consumerData => (s, [Effect.engine (EngineCall.resume consumerData.consumer)])

/-- What can happen to the server: a request of a connection, handled to completion,
or the media engine firing a registered producerclose listener. -/
inductive Event where
  | joinRoom (socketId : SocketId) (roomName : RoomName) (created : Option RouterId)
  | createWebRtcTransport (socketId : SocketId) (consumer : Bool) (created : Option TransportId)
  | transportConnect (socketId : SocketId)
  | transportProduce (socketId : SocketId) (created : Option ProducerId)
  | transportRecvConnect (socketId : SocketId) (serverConsumerTransportId : TransportId)
  | consume (socketId : SocketId) (remoteProducerId : ProducerId)
      (serverConsumerTransportId : TransportId) (canConsume : Option Bool)
      (created : Option ConsumerId)
  | consumerResume (socketId : SocketId) (serverConsumerId : ConsumerId)
  | getProducers (socketId : SocketId)
  | disconnect (socketId : SocketId)
  | producerclose (l : Listener)
  deriving DecidableEq, Repr

/-- One event: the new state and the effects of the handler. -/
def step (s : State) : Event → State × List Effect
  | Event.joinRoom p r created => joinRoom s p r created
  | Event.createWebRtcTransport p c created => createWebRtcTransport s p c created
  | Event.transportConnect p => transportConnect s p
  | Event.transportProduce p created => transportProduce s p created
  | Event.transportRecvConnect _ t => transportRecvConnect s t
  | Event.consume p pid t can created => consume s p pid t can created
  | Event.consumerResume _ c => consumerResume s c
  | Event.getProducers p => getProducers s p
  | Event.disconnect p => (cleanupPeer s p)
  | Event.producerclose l => if l ∈ s.listeners then producercloseHandler s l else (s, [])

/-- The state after a sequence of events. -/
def run (s : State) : List Event → State
  | [] => s
  | e :: es => run (step s e).1 es

/-- States the server can be in. -/
def Reachable (s : State) : Prop := ∃ evs, run initState evs = s


/-- The membership list `rooms[roomName].peers`, empty while the room does not exist. -/
def members (s : State) (roomName : RoomName) : List SocketId :=
  match dictGet s.rooms roomName with
  | some room => room.peers
  | none => []

/-- Every entry of the three arrays carries the id of a registered peer. -/
def Owned (s : State) : Prop :=
  (∀ t ∈ s.transports, (dictGet s.peers t.socketId).isSome) ∧
  (∀ x ∈ s.producers, (dictGet s.peers x.socketId).isSome) ∧
  (∀ c ∈ s.consumers, (dictGet s.peers c.socketId).isSome)

/-- Every entry of the three arrays carries the id of a registered peer whose
matching id list holds the id of the entry's handle. -/
def Linked (s : State) : Prop :=
  (∀ t ∈ s.transports, ∃ peer, dictGet s.peers t.socketId = some peer ∧
      t.transport ∈ peer.transports) ∧
  (∀ x ∈ s.producers, ∃ peer, dictGet s.peers x.socketId = some peer ∧
      x.producer ∈ peer.producers) ∧
  (∀ c ∈ s.consumers, ∃ peer, dictGet s.peers c.socketId = some peer ∧
      c.consumer ∈ peer.consumers)

/-- No entry of the three arrays carries `socketId`. -/
def ownsNothing (s : State) (socketId : SocketId) : Bool :=
  s.transports.all (fun t => decide (t.socketId ≠ socketId)) &&
  s.producers.all (fun x => decide (x.socketId ≠ socketId)) &&
  s.consumers.all (fun c => decide (c.socketId ≠ socketId))

/-- Number of entries that the filter of `getTransport(socketId)` matches. -/
def producingCount (s : State) (socketId : SocketId) : Nat :=
  (s.transports.filter (fun t => decide (t.socketId = socketId) && !t.consumer)).length

/-- The event is a createWebRtcTransport request of `socketId` with a falsy consumer flag. -/
def isProducingRequest (socketId : SocketId) : Event → Bool
  | Event.createWebRtcTransport p c _ => decide (p = socketId) && !c
  | _ => false

/-- The event neither joins room `r` nor disconnects `a` or `b`. -/
def leavesRoom (r : RoomName) (a b : SocketId) : Event → Bool
  | Event.joinRoom _ r1 _ => decide (r1 ≠ r)
  | Event.disconnect p => decide (p ≠ a) && decide (p ≠ b)
  | _ => true

/-- The `callback` responses among the effects. -/
def responses : List Effect → List (SocketId × Response)
  | [] => []
  | Effect.callback p r :: es => (p, r) :: responses es
  | _ :: es => responses es

/-- The socket.io pushes (`socket.emit` and `socket.to(room).emit`) among the effects. -/
def pushes : List Effect → List Effect
  | [] => []
  | Effect.emit p n :: es => Effect.emit p n :: pushes es
  | Effect.broadcast r p n :: es => Effect.broadcast r p n :: pushes es
  | _ :: es => pushes es

/-- The media engine calls among the effects. -/
def engineCalls : List Effect → List EngineCall
  | [] => []
  | Effect.engine c :: es => c :: engineCalls es
  | _ :: es => engineCalls es

/-- A joinRoom request suspended at `await worker.createRouter` inside `createRoom`,
with the local variables of the suspended call (`peers` is still `[]`). -/
structure PendingJoin where
  socketId : SocketId
  roomName : RoomName
  peers : List SocketId
  deriving DecidableEq, Repr

/-- The registry together with the joinRoom requests waiting for their router. -/
structure AsyncState where
  state : State
  pending : List PendingJoin
  deriving DecidableEq, Repr

/-- The two halves of a joinRoom request: its arrival, which runs the handler up to
the first await, and the settling of the awaited `worker.createRouter` promise. -/
inductive AsyncEvent where
  | joinRoomCalled (socketId : SocketId) (roomName : RoomName)
  | createRouterSettled (socketId : SocketId) (roomName : RoomName) (created : Option RouterId)
  deriving DecidableEq, Repr

/-- One scheduling step of joinRoom.  On arrival the `rooms[roomName]` test is made:
an existing room is joined without suspension (and an inherited name makes the handler
throw at once), otherwise the request is parked.  When the promise settles the parked
request runs the rest of `createRoom` and of the handler. -/
def asyncStep (a : AsyncState) : AsyncEvent → AsyncState × List Effect
  | AsyncEvent.joinRoomCalled p r =>
    match dictGet a.state.rooms r with
    | some _ =>
      let res := joinRoom a.state p r none
      ({ a with state := res.1 }, res.2)
    | none =>
      if r ∈ inheritedKeys then
        let res := joinRoom a.state p r none
        ({ a with state := res.1 }, res.2)
      else
        ({ a with pending := a.pending ++ [⟨p, r, []⟩] },
         [Effect.engine EngineCall.createRouter])
  | AsyncEvent.createRouterSettled p r created =>
    match a.pending.find? (fun j => decide (j.socketId = p) && decide (j.roomName = r)) with
    | none => (a, [])
    | some j =>
      match created with
      | none =>
        (⟨a.state, a.pending.erase j⟩,
         [Effect.callback j.socketId (Response.error ErrorMessage.engineError)])
      | some router =>
        let r1 := createRoomStore a.state j.roomName j.socketId router j.peers
        let r2 := joinRoomRegister r1.1 j.socketId j.roomName router
        (⟨r2.1, a.pending.erase j⟩, r1.2 ++ r2.2)

/-- The state and the effects after a sequence of scheduling steps. -/
def asyncRun (a : AsyncState) : List AsyncEvent → AsyncState × List Effect
  | [] => (a, [])
  | e :: es =>
    let r := asyncStep a e
    let rest := asyncRun r.1 es
    (rest.1, r.2 ++ rest.2)

/-- Every id that a room lists is a key of `peers` whose record names that room, and no
room lists an id twice. -/
def RoomsConsistent (s : State) : Prop :=
  ∀ r room, dictGet s.rooms r = some room →
    room.peers.Nodup ∧
    ∀ id ∈ room.peers, ∃ peer, dictGet s.peers id = some peer ∧ peer.roomName = r

/-- The consumer ids for which a producerclose event occurs in the run. -/
def closedConsumers : List Event → List ConsumerId
  | [] => []
  | Event.producerclose l :: es => l.consumer :: closedConsumers es
  | _ :: es => closedConsumers es

/-- Every id in a peer's `transports` and `producers` list is the handle id of an entry of
the matching array with that peer's socketId, and so is every id in its `consumers` list
unless it is one of `closed`. -/
def Backed (s : State) (closed : List ConsumerId) : Prop :=
  ∀ p peer, dictGet s.peers p = some peer →
    (∀ id ∈ peer.transports, ∃ t ∈ s.transports, t.socketId = p ∧ t.transport = id) ∧
    (∀ id ∈ peer.producers, ∃ x ∈ s.producers, x.socketId = p ∧ x.producer = id) ∧
    (∀ id ∈ peer.consumers,
      (∃ c ∈ s.consumers, c.socketId = p ∧ c.consumer = id) ∨ id ∈ closed)

/-! ## Handlers suspended at their awaits

`step` runs a handler to completion.  The definitions below split the four handlers that
use the result of an awaited engine call (joinRoom, createWebRtcTransport,
transport-produce, consume) at that await: the head runs when the request arrives, the
tail when the promise settles, and any other request, disconnect or tail may be handled
in between.  The joinRoom handler is split a second time at `await createRoom(...)`. -/

/-- A handler suspended at an `await`, with the local variables its continuation reads. -/
inductive Suspended where
  | createRouter (socketId : SocketId) (roomName : RoomName)
  | joinTail (socketId : SocketId) (roomName : RoomName) (router : RouterId)
  | createTransport (socketId : SocketId) (consumer : Bool) (roomName : RoomName)
  | produce (socketId : SocketId) (transport : TransportId)
  | consume (socketId : SocketId) (remoteProducerId : ProducerId) (transport : TransportId)
      (roomName : RoomName)
  deriving DecidableEq, Repr

/-- The createWebRtcTransport handler up to `await createWebRtcTransport(router)`. -/
def createTransportHead (s : State) (socketId : SocketId) (consumer : Bool) :
    Option Suspended × List Effect :=
  match dictGet s.peers socketId with
  | none => (none, [Effect.callback socketId (Response.error ErrorMessage.peerNotFound)])
  | some peer =>
    match dictGet s.rooms peer.roomName with
    | none => (none, [Effect.callback socketId (Response.error ErrorMessage.typeError)])
    | some room =>
      (some (Suspended.createTransport socketId consumer peer.roomName),
       [Effect.engine (EngineCall.createWebRtcTransport room.router)])

/-- The createWebRtcTransport handler after the await; `roomName` is read from the peer
record that was captured before the await, `peers[socket.id]` is read afresh. -/
def createTransportTail (s : State) (socketId : SocketId) (consumer : Bool)
    (roomName : RoomName) (created : Option TransportId) : State × List Effect :=
  match created with
  | none => (s, [Effect.callback socketId (Response.error ErrorMessage.engineError)])
  | some transport =>
    match addTransport s socketId transport roomName consumer with
    | Except.ok s1 => (s1, [Effect.callback socketId (Response.transportParams transport)])
    | Except.error s1 => (s1, [Effect.callback socketId (Response.error ErrorMessage.typeError)])

/-- The transport-produce handler up to `await transport.produce(...)`. -/
def produceHead (s : State) (socketId : SocketId) : Option Suspended × List Effect :=
  match getTransport s socketId with
  | none => (none, [Effect.callback socketId (Response.error ErrorMessage.transportNotFound)])
  | some transport =>
    (some (Suspended.produce socketId transport), [Effect.engine (EngineCall.produce transport)])

/-- The transport-produce handler after the await: `peers[socket.id]` is read here. -/
def produceTail (s : State) (socketId : SocketId) (created : Option ProducerId) :
    State × List Effect :=
  match created with
  | none => (s, [Effect.callback socketId (Response.error ErrorMessage.engineError)])
  | some producer =>
    match dictGet s.peers socketId with
    | none => (s, [Effect.callback socketId (Response.error ErrorMessage.typeError)])
    | some peer =>
      match addProducer s socketId producer peer.roomName with
      | Except.error s1 =>
        (s1, [Effect.callback socketId (Response.error ErrorMessage.typeError)])
      | Except.ok s1 =>
        (s1, informConsumers peer.roomName socketId producer
              ++ [Effect.callback socketId
                    (Response.produced producer (decide (s1.producers.length > 1)))])

/-- The consume handler up to `await transportData.transport.consume(...)`. -/
def consumeHead (s : State) (socketId : SocketId) (remoteProducerId : ProducerId)
    (serverConsumerTransportId : TransportId) (canConsume : Option Bool) :
    Option Suspended × List Effect :=
  match dictGet s.peers socketId with
  | none => (none, [Effect.callback socketId (Response.error ErrorMessage.peerNotFound)])
  | some peer =>
    match dictGet s.rooms peer.roomName with
    | none => (none, [Effect.callback socketId (Response.error ErrorMessage.typeError)])
    | some room =>
      match s.transports.find?
          (fun t => t.consumer && decide (t.transport = serverConsumerTransportId)) with
      | none =>
        (none,
         [Effect.callback socketId (Response.error ErrorMessage.consumerTransportNotFound)])
      | some transportData =>
        match canConsume with
        | none =>
          (none, [Effect.engine (EngineCall.canConsume room.router remoteProducerId),
                  Effect.callback socketId (Response.error ErrorMessage.engineError)])
        | some false =>
          (none, [Effect.engine (EngineCall.canConsume room.router remoteProducerId),
                  Effect.callback socketId (Response.error ErrorMessage.cannotConsume)])
        | some true =>
          (some (Suspended.consume socketId remoteProducerId transportData.transport
                  peer.roomName),
           [Effect.engine (EngineCall.canConsume room.router remoteProducerId),
            Effect.engine (EngineCall.consume transportData.transport remoteProducerId true)])

/-- The consume handler after the await; `roomName` is read from the captured peer
record, `peers[socket.id]` is read afresh by `addConsumer`. -/
def consumeTail (s : State) (socketId : SocketId) (remoteProducerId : ProducerId)
    (roomName : RoomName) (created : Option ConsumerId) : State × List Effect :=
  match created with
  | none => (s, [Effect.callback socketId (Response.error ErrorMessage.engineError)])
  | some consumer =>
    let s1 := { s with listeners := s.listeners ++ [⟨consumer, socketId, remoteProducerId⟩] }
    match addConsumer s1 socketId consumer roomName with
    | Except.error s2 =>
      (s2, [Effect.callback socketId (Response.error ErrorMessage.typeError)])
    | Except.ok s2 =>
      (s2, [Effect.callback socketId (Response.consumed consumer remoteProducerId)])

/-- The registry, the suspended handlers, and the connections whose disconnect event has
been handled.  `gone` is a history variable: no handler reads it. -/
structure Server where
  state : State
  pending : List Suspended
  gone : List SocketId
  deriving DecidableEq, Repr

/-- The server at start. -/
def initServer : Server := ⟨initState, [], []⟩

/-- What the event loop runs next: the head of a handler for an arriving request, the
disconnect handler, a producerclose listener, or the continuation of a suspended handler
whose awaited promise settles with `outcome` (`none` for a rejection). -/
inductive Action where
  | joinRoom (socketId : SocketId) (roomName : RoomName)
  | createWebRtcTransport (socketId : SocketId) (consumer : Bool)
  | transportConnect (socketId : SocketId)
  | transportProduce (socketId : SocketId)
  | transportRecvConnect (socketId : SocketId) (serverConsumerTransportId : TransportId)
  | consume (socketId : SocketId) (remoteProducerId : ProducerId)
      (serverConsumerTransportId : TransportId) (canConsume : Option Bool)
  | consumerResume (socketId : SocketId) (serverConsumerId : ConsumerId)
  | getProducers (socketId : SocketId)
  | disconnect (socketId : SocketId)
  | producerclose (l : Listener)
  | settle (task : Suspended) (outcome : Option Nat)
  deriving DecidableEq, Repr

/-- The continuation of a suspended handler. -/
def resume (a : Server) : Suspended → Option Nat → Server × List Effect
  | Suspended.createRouter p _, none =>
    (a, [Effect.callback p (Response.error ErrorMessage.engineError)])
  | Suspended.createRouter p r, some router =>
    let st := createRoomStore a.state r p router []
    ({ a with state := st.1, pending := a.pending ++ [Suspended.joinTail p r router] }, st.2)
  | Suspended.joinTail p r router, _ =>
    let res := joinRoomRegister a.state p r router
    ({ a with state := res.1 }, res.2)
  | Suspended.createTransport p c roomName, outcome =>
    let res := createTransportTail a.state p c roomName outcome
    ({ a with state := res.1 }, res.2)
  | Suspended.produce p _, outcome =>
    let res := produceTail a.state p outcome
    ({ a with state := res.1 }, res.2)
  | Suspended.consume p pid _ roomName, outcome =>
    let res := consumeTail a.state p pid roomName outcome
    ({ a with state := res.1 }, res.2)

/-- One turn of the event loop. -/
def act (a : Server) : Action → Server × List Effect
  | Action.joinRoom p r =>
    match dictGet a.state.rooms r with
    | some room =>
      let st := createRoomStore a.state r p room.router room.peers
      ({ a with state := st.1, pending := a.pending ++ [Suspended.joinTail p r room.router] },
       st.2)
    | none =>
      if r ∈ inheritedKeys then
        (a, [Effect.callback p (Response.error ErrorMessage.typeError)])
      else
        ({ a with pending := a.pending ++ [Suspended.createRouter p r] },
         [Effect.engine EngineCall.createRouter])
  | Action.createWebRtcTransport p c =>
    let h := createTransportHead a.state p c
    ({ a with pending := a.pending ++ h.1.toList }, h.2)
  | Action.transportConnect p => (a, (transportConnect a.state p).2)
  | Action.transportProduce p =>
    let h := produceHead a.state p
    ({ a with pending := a.pending ++ h.1.toList }, h.2)
  | Action.transportRecvConnect _ t => (a, (transportRecvConnect a.state t).2)
  | Action.consume p pid t can =>
    let h := consumeHead a.state p pid t can
    ({ a with pending := a.pending ++ h.1.toList }, h.2)
  | Action.consumerResume _ c => (a, (consumerResume a.state c).2)
  | Action.getProducers p => (a, (getProducers a.state p).2)
  | Action.disconnect p =>
    let res := cleanupPeer a.state p
    ({ a with state := res.1, gone := p :: a.gone }, res.2)
  | Action.producerclose l =>
    if l ∈ a.state.listeners then
      let res := producercloseHandler a.state l
      ({ a with state := res.1 }, res.2)
    else (a, [])
  | Action.settle task outcome =>
    if task ∈ a.pending then resume { a with pending := a.pending.erase task } task outcome
    else (a, [])

/-- The server and the effects after a sequence of turns. -/
def play (a : Server) : List Action → Server × List Effect
  | [] => (a, [])
  | x :: xs =>
    let r := act a x
    let rest := play r.1 xs
    (rest.1, r.2 ++ rest.2)

/-- The changes that one turn of the event loop can make to the server. -/
inductive Moves : Server → Action → Server → Prop where
  | same (a : Server) (x : Action) : Moves a x a
  | parkRouter (a : Server) (p : SocketId) (r : RoomName)
      (h : dictGet a.state.rooms r = none) (hk : r ∉ inheritedKeys) :
      Moves a (Action.joinRoom p r)
        { a with pending := a.pending ++ [Suspended.createRouter p r] }
  | storeExisting (a : Server) (p : SocketId) (r : RoomName) (room : Room)
      (h : dictGet a.state.rooms r = some room) :
      Moves a (Action.joinRoom p r)
        { a with
          state := { a.state with
            rooms := dictSet a.state.rooms r ⟨room.router, room.peers ++ [p]⟩ }
          pending := a.pending ++ [Suspended.joinTail p r room.router] }
  | parkTransport (a : Server) (p : SocketId) (c : Bool) (peer : Peer)
      (h : dictGet a.state.peers p = some peer) :
      Moves a (Action.createWebRtcTransport p c)
        { a with pending := a.pending ++ [Suspended.createTransport p c peer.roomName] }
  | parkProduce (a : Server) (p : SocketId) (tr : TransportId) :
      Moves a (Action.transportProduce p)
        { a with pending := a.pending ++ [Suspended.produce p tr] }
  | parkConsume (a : Server) (p : SocketId) (pid : ProducerId) (tid tr : TransportId)
      (can : Option Bool) (peer : Peer) (h : dictGet a.state.peers p = some peer) :
      Moves a (Action.consume p pid tid can)
        { a with pending := a.pending ++ [Suspended.consume p pid tr peer.roomName] }
  | absent (a : Server) (p : SocketId) (h : dictGet a.state.peers p = none) :
      Moves a (Action.disconnect p) { a with gone := p :: a.gone }
  | leave (a : Server) (p : SocketId) (peer : Peer)
      (h : dictGet a.state.peers p = some peer) :
      Moves a (Action.disconnect p)
        { a with
          state := { a.state with
            consumers := a.state.consumers.filter (fun c => decide (c.socketId ≠ p))
            producers := a.state.producers.filter (fun x => decide (x.socketId ≠ p))
            transports := a.state.transports.filter (fun t => decide (t.socketId ≠ p))
            rooms :=
              if truthy peer.roomName then
                match dictGet a.state.rooms peer.roomName with
                | some room =>
                  dictSet a.state.rooms peer.roomName
                    { room with peers := room.peers.filter (fun id => decide (id ≠ p)) }
                | none => a.state.rooms
              else a.state.rooms
            peers := dictDelete a.state.peers p }
          gone := p :: a.gone }
  | close (a : Server) (l : Listener) :
      Moves a (Action.producerclose l)
        { a with
          state := { a.state with
            consumers := a.state.consumers.filter (fun c => decide (c.consumer ≠ l.consumer)) } }
  | dropped (a : Server) (task : Suspended) (o : Option Nat) (hmem : task ∈ a.pending)
      (hnt : ∀ p r router, task ≠ Suspended.joinTail p r router) :
      Moves a (Action.settle task o) { a with pending := a.pending.erase task }
  | routerDone (a : Server) (p : SocketId) (r : RoomName) (router : RouterId)
      (hmem : Suspended.createRouter p r ∈ a.pending) :
      Moves a (Action.settle (Suspended.createRouter p r) (some router))
        { a with
          state := { a.state with rooms := dictSet a.state.rooms r ⟨router, [p]⟩ }
          pending := a.pending.erase (Suspended.createRouter p r)
            ++ [Suspended.joinTail p r router] }
  | registered (a : Server) (p : SocketId) (r : RoomName) (router : RouterId) (o : Option Nat)
      (hmem : Suspended.joinTail p r router ∈ a.pending) :
      Moves a (Action.settle (Suspended.joinTail p r router) o)
        { a with
          state := { a.state with peers := dictSet a.state.peers p ⟨r, [], [], []⟩ }
          pending := a.pending.erase (Suspended.joinTail p r router) }
  | transportAdded (a : Server) (p : SocketId) (c : Bool) (rn : RoomName) (t : TransportId)
      (peer : Peer) (hmem : Suspended.createTransport p c rn ∈ a.pending)
      (h : dictGet a.state.peers p = some peer) :
      Moves a (Action.settle (Suspended.createTransport p c rn) (some t))
        { a with
          state := { a.state with
            transports := a.state.transports ++ [⟨p, t, rn, c⟩]
            peers := dictSet a.state.peers p
              { peer with transports := peer.transports ++ [t] } }
          pending := a.pending.erase (Suspended.createTransport p c rn) }
  | transportOrphaned (a : Server) (p : SocketId) (c : Bool) (rn : RoomName)
      (t : TransportId) (hmem : Suspended.createTransport p c rn ∈ a.pending)
      (h : dictGet a.state.peers p = none) :
      Moves a (Action.settle (Suspended.createTransport p c rn) (some t))
        { a with
          state := { a.state with transports := a.state.transports ++ [⟨p, t, rn, c⟩] }
          pending := a.pending.erase (Suspended.createTransport p c rn) }
  | producerAdded (a : Server) (p : SocketId) (tr : TransportId) (x : ProducerId)
      (peer : Peer) (hmem : Suspended.produce p tr ∈ a.pending)
      (h : dictGet a.state.peers p = some peer) :
      Moves a (Action.settle (Suspended.produce p tr) (some x))
        { a with
          state := { a.state with
            producers := a.state.producers ++ [⟨p, x, peer.roomName⟩]
            peers := dictSet a.state.peers p
              { peer with producers := peer.producers ++ [x] } }
          pending := a.pending.erase (Suspended.produce p tr) }
  | consumerAdded (a : Server) (p : SocketId) (pid : ProducerId) (tr : TransportId)
      (rn : RoomName) (c : ConsumerId) (peer : Peer)
      (hmem : Suspended.consume p pid tr rn ∈ a.pending)
      (h : dictGet a.state.peers p = some peer) :
      Moves a (Action.settle (Suspended.consume p pid tr rn) (some c))
        { a with
          state := { a.state with
            listeners := a.state.listeners ++ [⟨c, p, pid⟩]
            consumers := a.state.consumers ++ [⟨p, c, rn⟩]
            peers := dictSet a.state.peers p
              { peer with consumers := peer.consumers ++ [c] } }
          pending := a.pending.erase (Suspended.consume p pid tr rn) }
  | consumerOrphaned (a : Server) (p : SocketId) (pid : ProducerId) (tr : TransportId)
      (rn : RoomName) (c : ConsumerId)
      (hmem : Suspended.consume p pid tr rn ∈ a.pending)
      (h : dictGet a.state.peers p = none) :
      Moves a (Action.settle (Suspended.consume p pid tr rn) (some c))
        { a with
          state := { a.state with
            listeners := a.state.listeners ++ [⟨c, p, pid⟩]
            consumers := a.state.consumers ++ [⟨p, c, rn⟩] }
          pending := a.pending.erase (Suspended.consume p pid tr rn) }

/-- The connection for which the tail of a suspended handler pushes an array entry before
it touches `peers[socket.id]`. -/
def pusher : Suspended → Option SocketId
  | Suspended.createTransport p _ _ => some p
  | Suspended.consume p _ _ _ => some p
  | _ => none

/-- Every array entry, and every suspended handler that is going to push one, belongs to a
connection that is a key of `peers` or has disconnected. -/
def OwnedLive (a : Server) : Prop :=
  (∀ t ∈ a.state.transports,
    t.socketId ∈ a.gone ∨ (dictGet a.state.peers t.socketId).isSome = true) ∧
  (∀ x ∈ a.state.producers,
    x.socketId ∈ a.gone ∨ (dictGet a.state.peers x.socketId).isSome = true) ∧
  (∀ c ∈ a.state.consumers,
    c.socketId ∈ a.gone ∨ (dictGet a.state.peers c.socketId).isSome = true) ∧
  (∀ task ∈ a.pending, ∀ p, pusher task = some p →
    p ∈ a.gone ∨ (dictGet a.state.peers p).isSome = true)

/-- The peer record of `socketId` names the handle of every array entry of `socketId`. -/
def LinkedOf (s : State) (socketId : SocketId) : Prop :=
  (∀ t ∈ s.transports, t.socketId = socketId →
    ∃ peer, dictGet s.peers socketId = some peer ∧ t.transport ∈ peer.transports) ∧
  (∀ x ∈ s.producers, x.socketId = socketId →
    ∃ peer, dictGet s.peers socketId = some peer ∧ x.producer ∈ peer.producers) ∧
  (∀ c ∈ s.consumers, c.socketId = socketId →
    ∃ peer, dictGet s.peers socketId = some peer ∧ c.consumer ∈ peer.consumers)

/-- The turn is the tail of a joinRoom handler of `socketId` (the assignment
`peers[socket.id] = {...}`) and runs while an array entry carries `socketId`. -/
def replacesRecord (a : Server) (socketId : SocketId) : Action → Bool
  | Action.settle (Suspended.joinTail p r router) _ =>
    decide (Suspended.joinTail p r router ∈ a.pending) && decide (p = socketId)
      && !ownsNothing a.state socketId
  | _ => false

/-- Along the turns from `a`, the joinRoom handler never replaces the peer record of
`socketId` while an array entry carries `socketId`. -/
def keepsRecord (socketId : SocketId) : Server → List Action → Bool
  | _, [] => true
  | a, x :: xs => !replacesRecord a socketId x && keepsRecord socketId (act a x).1 xs

/-- The suspended handler is a joinRoom handler of `socketId` whose `createRoom` has
returned: it has stored `socketId` in a member list and has yet to run
`peers[socket.id] = {...}`. -/
def isTailOf (socketId : SocketId) : Suspended → Bool
  | Suspended.joinTail p _ _ => decide (p = socketId)
  | _ => false

/-- Number of joinRoom handlers of `socketId` that are suspended after `createRoom`. -/
def waiting (a : Server) (socketId : SocketId) : Nat :=
  a.pending.countP (isTailOf socketId)

/-- Some member list holds `socketId`. -/
def listed (s : State) (socketId : SocketId) : Bool :=
  s.rooms.any (fun kv => decide (socketId ∈ kv.2.peers))

/-- The room for which this turn runs the store of `createRoom`,
`rooms[roomName] = { router, peers: [...peers, socketId] }`, on behalf of `socketId`:
a joinRoom request for an existing room, or the resumption after `worker.createRouter`
resolved. -/
def listsConnection (a : Server) (socketId : SocketId) : Action → Option RoomName
  | Action.joinRoom p r =>
    if p = socketId ∧ (dictGet a.state.rooms r).isSome = true then some r else none
  | Action.settle (Suspended.createRouter p r) (some _) =>
    if p = socketId ∧ Suspended.createRouter p r ∈ a.pending then some r else none
  | _ => none

/-- The turn treats `socketId` in an orderly way: if it stores `socketId` in a member list,
then no list holds `socketId` yet, no joinRoom handler of `socketId` is suspended after
`createRoom`, `socketId` has not disconnected and the room name is truthy; and if it is the
disconnect of `socketId`, no joinRoom handler of `socketId` is suspended after
`createRoom`. -/
def orderly (a : Server) (socketId : SocketId) (x : Action) : Bool :=
  (match listsConnection a socketId x with
   | some r =>
     !listed a.state socketId && decide (waiting a socketId = 0)
       && decide (socketId ∉ a.gone) && truthy r
   | none => true) &&
  (match x with
   | Action.disconnect p => decide (p ≠ socketId) || decide (waiting a socketId = 0)
   | _ => true)

/-- Every turn of the run from `a` treats `socketId` in an orderly way. -/
def joinsOrderly (socketId : SocketId) : Server → List Action → Bool
  | _, [] => true
  | a, x :: xs => orderly a socketId x && joinsOrderly socketId (act a x).1 xs

/-- What the membership lists say about `socketId`: at most one suspended joinRoom tail; a
list that holds `socketId` holds it once, under a truthy name, and either the peer record
of `socketId` names that room or the tail that will write the record is suspended; after
the disconnect of `socketId` nothing is suspended or listed. -/
def ListedOnce (a : Server) (socketId : SocketId) : Prop :=
  waiting a socketId ≤ 1 ∧
  (∀ r, socketId ∈ members a.state r →
    (members a.state r).count socketId = 1 ∧ truthy r = true ∧
    ((waiting a socketId = 0 ∧
        ∃ peer, dictGet a.state.peers socketId = some peer ∧ peer.roomName = r) ∨
      ∃ router, Suspended.joinTail socketId r router ∈ a.pending)) ∧
  (socketId ∈ a.gone → waiting a socketId = 0 ∧ ∀ r, socketId ∉ members a.state r)

/-- The turns of the event loop when the request of `e` is handled without any other turn
in between: the head of the handler, then each of its continuations. -/
def uninterrupted (s : State) : Event → List Action
  | Event.joinRoom p r created =>
    match dictGet s.rooms r with
    | some room => [Action.joinRoom p r, Action.settle (Suspended.joinTail p r room.router) none]
    | none =>
      if r ∈ inheritedKeys then [Action.joinRoom p r]
      else
        match created with
        | none => [Action.joinRoom p r, Action.settle (Suspended.createRouter p r) none]
        | some router =>
          [Action.joinRoom p r, Action.settle (Suspended.createRouter p r) (some router),
           Action.settle (Suspended.joinTail p r router) none]
  | Event.createWebRtcTransport p c created =>
    match (createTransportHead s p c).1 with
    | some task => [Action.createWebRtcTransport p c, Action.settle task created]
    | none => [Action.createWebRtcTransport p c]
  | Event.transportConnect p => [Action.transportConnect p]
  | Event.transportProduce p created =>
    match (produceHead s p).1 with
    | some task => [Action.transportProduce p, Action.settle task created]
    | none => [Action.transportProduce p]
  | Event.transportRecvConnect p t => [Action.transportRecvConnect p t]
  | Event.consume p pid t can created =>
    match (consumeHead s p pid t can).1 with
    | some task => [Action.consume p pid t can, Action.settle task created]
    | none => [Action.consume p pid t can]
  | Event.consumerResume p c => [Action.consumerResume p c]
  | Event.getProducers p => [Action.getProducers p]
  | Event.disconnect p => [Action.disconnect p]
  | Event.producerclose l => [Action.producerclose l]

/-! ## Dictionary lemmas -/

theorem dictGet_dictSet_self {κ ν : Type} [DecidableEq κ] (d : List (κ × ν)) (k : κ) (v : ν) :
    dictGet (dictSet d k v) k = some v := by
  induction d with
  | nil => simp [dictSet, dictGet]
  | cons hd tl ih =>
    obtain ⟨a, b⟩ := hd
    by_cases h : a = k
    · simp [dictSet, dictGet, h]
    · simp [dictSet, dictGet, h, ih]

theorem dictGet_dictSet_of_ne {κ ν : Type} [DecidableEq κ] (d : List (κ × ν)) (k k' : κ) (v : ν)
    (hne : k' ≠ k) : dictGet (dictSet d k v) k' = dictGet d k' := by
  induction d with
  | nil => simp [dictSet, dictGet, Ne.symm hne]
  | cons hd tl ih =>
    obtain ⟨a, b⟩ := hd
    by_cases h : a = k
    · subst h
      simp [dictSet, dictGet, Ne.symm hne]
    · by_cases h2 : a = k'
      · subst h2
        simp [dictSet, dictGet, h]
      · simp [dictSet, dictGet, h, h2, ih]

theorem dictGet_dictDelete_self {κ ν : Type} [DecidableEq κ] (d : List (κ × ν)) (k : κ) :
    dictGet (dictDelete d k) k = none := by
  induction d with
  | nil => simp [dictDelete, dictGet]
  | cons hd tl ih =>
    obtain ⟨a, b⟩ := hd
    by_cases h : a = k
    · simpa [dictDelete, List.filter_cons, h] using ih
    · simpa [dictDelete, List.filter_cons, h, dictGet] using ih

theorem dictGet_dictDelete_of_ne {κ ν : Type} [DecidableEq κ] (d : List (κ × ν)) (k k' : κ)
    (hne : k' ≠ k) : dictGet (dictDelete d k) k' = dictGet d k' := by
  induction d with
  | nil => simp [dictDelete, dictGet]
  | cons hd tl ih =>
    obtain ⟨a, b⟩ := hd
    have ih' : dictGet (dictDelete tl k) k' = dictGet tl k' := ih
    by_cases h : a = k
    · subst h
      simpa [dictDelete, List.filter_cons, dictGet, Ne.symm hne] using ih'
    · by_cases h2 : a = k'
      · subst h2
        simp [dictDelete, List.filter_cons, h, dictGet]
      · simpa [dictDelete, List.filter_cons, h, dictGet, h2] using ih'

/-! ## The state change of each handler -/

theorem joinRoom_fst (s : State) (p : SocketId) (r : RoomName) (created : Option RouterId) :
    (joinRoom s p r created).1 = s ∨
    ∃ router, (joinRoom s p r created).1 =
      { s with rooms := dictSet s.rooms r ⟨router, members s r ++ [p]⟩
               peers := dictSet s.peers p ⟨r, [], [], []⟩ } ∧
      (dictGet s.rooms r = none → created = some router) ∧
      (∀ room, dictGet s.rooms r = some room → room.router = router) := by
  cases h : dictGet s.rooms r with
  | none =>
    by_cases hk : r ∈ inheritedKeys
    · left; simp [joinRoom, createRoom, h, hk]
    · cases created with
      | none => left; simp [joinRoom, createRoom, h, hk]
      | some router =>
        right
        refine ⟨router, ?_, by simp, by simp⟩
        simp [joinRoom, createRoom, h, hk, createRoomStore, joinRoomRegister, members,
          dictGet_dictSet_self]
  | some room =>
    right
    refine ⟨room.router, ?_, by simp, by simp⟩
    simp [joinRoom, createRoom, h, createRoomStore, joinRoomRegister, members,
      dictGet_dictSet_self]

theorem cleanupPeer_of_none (s : State) (p : SocketId) (h : dictGet s.peers p = none) :
    cleanupPeer s p = (s, []) := by
  simp [cleanupPeer, h]

theorem cleanupPeer_fst_of_some (s : State) (p : SocketId) (peer : Peer)
    (h : dictGet s.peers p = some peer) :
    (cleanupPeer s p).1 =
      { s with
        consumers := s.consumers.filter (fun c => decide (c.socketId ≠ p))
        producers := s.producers.filter (fun x => decide (x.socketId ≠ p))
        transports := s.transports.filter (fun t => decide (t.socketId ≠ p))
        rooms :=
          if truthy peer.roomName then
            match dictGet s.rooms peer.roomName with
            | some room =>
              dictSet s.rooms peer.roomName
                { room with peers := room.peers.filter (fun id => decide (id ≠ p)) }
            | none => s.rooms
          else s.rooms
        peers := dictDelete s.peers p } := by
  simp [cleanupPeer, h]

theorem createWebRtcTransport_fst (s : State) (p : SocketId) (c : Bool)
    (created : Option TransportId) :
    (createWebRtcTransport s p c created).1 = s ∨
    ∃ peer t, dictGet s.peers p = some peer ∧ created = some t ∧
      (createWebRtcTransport s p c created).1 =
        { s with
          transports := s.transports ++ [⟨p, t, peer.roomName, c⟩]
          peers := dictSet s.peers p { peer with transports := peer.transports ++ [t] } } := by
  cases h : dictGet s.peers p with
  | none => left; simp [createWebRtcTransport, h]
  | some peer =>
    cases h2 : dictGet s.rooms peer.roomName with
    | none => left; simp [createWebRtcTransport, h, h2]
    | some room =>
      cases created with
      | none => left; simp [createWebRtcTransport, h, h2]
      | some t =>
        right
        exact ⟨peer, t, rfl, rfl, by simp [createWebRtcTransport, h, h2, addTransport]⟩

theorem transportProduce_fst (s : State) (p : SocketId) (created : Option ProducerId) :
    (transportProduce s p created).1 = s ∨
    ∃ peer x, dictGet s.peers p = some peer ∧ created = some x ∧
      (transportProduce s p created).1 =
        { s with
          producers := s.producers ++ [⟨p, x, peer.roomName⟩]
          peers := dictSet s.peers p { peer with producers := peer.producers ++ [x] } } := by
  cases h0 : getTransport s p with
  | none => left; simp [transportProduce, h0]
  | some tr =>
    cases created with
    | none => left; simp [transportProduce, h0]
    | some x =>
      cases h : dictGet s.peers p with
      | none => left; simp [transportProduce, h0, h]
      | some peer =>
        right
        exact ⟨peer, x, rfl, rfl, by simp [transportProduce, h0, h, addProducer]⟩

theorem consume_fst (s : State) (p : SocketId) (pid : ProducerId) (tid : TransportId)
    (can : Option Bool) (created : Option ConsumerId) :
    (consume s p pid tid can created).1 = s ∨
    ∃ peer c, dictGet s.peers p = some peer ∧ created = some c ∧
      (consume s p pid tid can created).1 =
        { s with
          listeners := s.listeners ++ [⟨c, p, pid⟩]
          consumers := s.consumers ++ [⟨p, c, peer.roomName⟩]
          peers := dictSet s.peers p { peer with consumers := peer.consumers ++ [c] } } := by
  cases h : dictGet s.peers p with
  | none => left; simp [consume, h]
  | some peer =>
    cases h2 : dictGet s.rooms peer.roomName with
    | none => left; simp [consume, h, h2]
    | some room =>
      cases h3 : s.transports.find? (fun t => t.consumer && decide (t.transport = tid)) with
      | none => left; simp [consume, h, h2, h3]
      | some td =>
        cases can with
        | none => left; simp [consume, h, h2, h3]
        | some b =>
          cases b with
          | false => left; simp [consume, h, h2, h3]
          | true =>
            cases created with
            | none => left; simp [consume, h, h2, h3]
            | some c =>
              right
              exact ⟨peer, c, rfl, rfl, by simp [consume, h, h2, h3, addConsumer]⟩

theorem step_fst (s : State) (e : Event) :
    (step s e).1 = s ∨
    (∃ p r created router, e = Event.joinRoom p r created ∧
      (step s e).1 =
        { s with rooms := dictSet s.rooms r ⟨router, members s r ++ [p]⟩
                 peers := dictSet s.peers p ⟨r, [], [], []⟩ }) ∨
    (∃ p peer, e = Event.disconnect p ∧ dictGet s.peers p = some peer ∧
      (step s e).1 =
        { s with
          consumers := s.consumers.filter (fun c => decide (c.socketId ≠ p))
          producers := s.producers.filter (fun x => decide (x.socketId ≠ p))
          transports := s.transports.filter (fun t => decide (t.socketId ≠ p))
          rooms :=
            if truthy peer.roomName then
              match dictGet s.rooms peer.roomName with
              | some room =>
                dictSet s.rooms peer.roomName
                  { room with peers := room.peers.filter (fun id => decide (id ≠ p)) }
              | none => s.rooms
            else s.rooms
          peers := dictDelete s.peers p }) ∨
    (∃ p c t peer, e = Event.createWebRtcTransport p c (some t) ∧
      dictGet s.peers p = some peer ∧
      (step s e).1 =
        { s with
          transports := s.transports ++ [⟨p, t, peer.roomName, c⟩]
          peers := dictSet s.peers p { peer with transports := peer.transports ++ [t] } }) ∨
    (∃ p x peer, e = Event.transportProduce p (some x) ∧ dictGet s.peers p = some peer ∧
      (step s e).1 =
        { s with
          producers := s.producers ++ [⟨p, x, peer.roomName⟩]
          peers := dictSet s.peers p { peer with producers := peer.producers ++ [x] } }) ∨
    (∃ p pid tid can c peer, e = Event.consume p pid tid can (some c) ∧
      dictGet s.peers p = some peer ∧
      (step s e).1 =
        { s with
          listeners := s.listeners ++ [⟨c, p, pid⟩]
          consumers := s.consumers ++ [⟨p, c, peer.roomName⟩]
          peers := dictSet s.peers p { peer with consumers := peer.consumers ++ [c] } }) ∨
    (∃ l, e = Event.producerclose l ∧
      (step s e).1 =
        { s with consumers := s.consumers.filter (fun c => decide (c.consumer ≠ l.consumer)) }) := by
  cases e with
  | joinRoom p r created =>
    rcases joinRoom_fst s p r created with h | ⟨router, h, -, -⟩
    · exact Or.inl h
    · exact Or.inr (Or.inl ⟨p, r, created, router, rfl, h⟩)
  | createWebRtcTransport p c created =>
    rcases createWebRtcTransport_fst s p c created with h | ⟨peer, t, h1, h2, h3⟩
    · exact Or.inl h
    · subst h2
      exact Or.inr (Or.inr (Or.inr (Or.inl ⟨p, c, t, peer, rfl, h1, h3⟩)))
  | transportConnect p =>
    left
    simp only [step, transportConnect]
    split <;> rfl
  | transportProduce p created =>
    rcases transportProduce_fst s p created with h | ⟨peer, x, h1, h2, h3⟩
    · exact Or.inl h
    · subst h2
      exact Or.inr (Or.inr (Or.inr (Or.inr (Or.inl ⟨p, x, peer, rfl, h1, h3⟩))))
  | transportRecvConnect p t =>
    left
    simp only [step, transportRecvConnect]
    split <;> rfl
  | consume p pid tid can created =>
    rcases consume_fst s p pid tid can created with h | ⟨peer, c, h1, h2, h3⟩
    · exact Or.inl h
    · subst h2
      exact Or.inr (Or.inr (Or.inr (Or.inr (Or.inr (Or.inl ⟨p, pid, tid, can, c, peer, rfl, h1, h3⟩)))))
  | consumerResume p c =>
    left
    simp only [step, consumerResume]
    split <;> rfl
  | getProducers p =>
    left
    simp only [step, getProducers]
    split <;> rfl
  | disconnect p =>
    cases h : dictGet s.peers p with
    | none => left; simp [step, cleanupPeer_of_none s p h]
    | some peer =>
      exact Or.inr (Or.inr (Or.inl ⟨p, peer, rfl, h, cleanupPeer_fst_of_some s p peer h⟩))
  | producerclose l =>
    by_cases h : l ∈ s.listeners
    · exact Or.inr (Or.inr (Or.inr (Or.inr (Or.inr (Or.inr
        ⟨l, rfl, by simp [step, h, producercloseHandler]⟩)))))
    · left; simp [step, h]

/-! ## Every array entry belongs to a registered peer -/

theorem isSome_dictGet_dictSet {ν : Type} (d : List (SocketId × ν)) (k k' : SocketId) (v : ν)
    (h : (dictGet d k').isSome) : (dictGet (dictSet d k v) k').isSome := by
  by_cases hk : k' = k
  · subst hk; simp [dictGet_dictSet_self]
  · rw [dictGet_dictSet_of_ne d k k' v hk]; exact h

theorem owned_init : Owned initState := by
  simp [Owned, initState]

theorem step_owned (s : State) (e : Event) (h : Owned s) : Owned (step s e).1 := by
  obtain ⟨h1, h2, h3⟩ := h
  rcases step_fst s e with hs | ⟨p, r, created, router, -, hs⟩ | ⟨p, peer, -, hp, hs⟩ |
    ⟨p, c, t, peer, -, hp, hs⟩ | ⟨p, x, peer, -, hp, hs⟩ |
    ⟨p, pid, tid, can, c, peer, -, hp, hs⟩ | ⟨l, -, hs⟩
  · rw [hs]; exact ⟨h1, h2, h3⟩
  · rw [hs]
    exact ⟨fun t ht => isSome_dictGet_dictSet _ _ _ _ (h1 t ht),
      fun t ht => isSome_dictGet_dictSet _ _ _ _ (h2 t ht),
      fun t ht => isSome_dictGet_dictSet _ _ _ _ (h3 t ht)⟩
  · rw [hs]
    refine ⟨fun t ht => ?_, fun t ht => ?_, fun t ht => ?_⟩
    · simp only [List.mem_filter, decide_eq_true_eq] at ht
      simpa [dictGet_dictDelete_of_ne _ _ _ ht.2] using h1 t ht.1
    · simp only [List.mem_filter, decide_eq_true_eq] at ht
      simpa [dictGet_dictDelete_of_ne _ _ _ ht.2] using h2 t ht.1
    · simp only [List.mem_filter, decide_eq_true_eq] at ht
      simpa [dictGet_dictDelete_of_ne _ _ _ ht.2] using h3 t ht.1
  · rw [hs]
    refine ⟨fun t ht => ?_, fun t ht => isSome_dictGet_dictSet _ _ _ _ (h2 t ht),
      fun t ht => isSome_dictGet_dictSet _ _ _ _ (h3 t ht)⟩
    simp only [List.mem_append, List.mem_singleton] at ht
    rcases ht with ht | rfl
    · exact isSome_dictGet_dictSet _ _ _ _ (h1 t ht)
    · simp [dictGet_dictSet_self]
  · rw [hs]
    refine ⟨fun t ht => isSome_dictGet_dictSet _ _ _ _ (h1 t ht), fun t ht => ?_,
      fun t ht => isSome_dictGet_dictSet _ _ _ _ (h3 t ht)⟩
    simp only [List.mem_append, List.mem_singleton] at ht
    rcases ht with ht | rfl
    · exact isSome_dictGet_dictSet _ _ _ _ (h2 t ht)
    · simp [dictGet_dictSet_self]
  · rw [hs]
    refine ⟨fun t ht => isSome_dictGet_dictSet _ _ _ _ (h1 t ht),
      fun t ht => isSome_dictGet_dictSet _ _ _ _ (h2 t ht), fun t ht => ?_⟩
    simp only [List.mem_append, List.mem_singleton] at ht
    rcases ht with ht | rfl
    · exact isSome_dictGet_dictSet _ _ _ _ (h3 t ht)
    · simp [dictGet_dictSet_self]
  · rw [hs]
    refine ⟨h1, h2, fun t ht => ?_⟩
    simp only [List.mem_filter] at ht
    exact h3 t ht.1

theorem run_owned (evs : List Event) (s : State) (h : Owned s) : Owned (run s evs) := by
  induction evs generalizing s with
  | nil => exact h
  | cons e es ih => exact ih _ (step_owned s e h)

/-- C1: for every sequence of requests, immediately after the disconnect of a connection
`p` (that is, after `cleanupPeer(p)`), no entry of `transports`, `producers` or
`consumers` has socketId `p`. -/
theorem cleanupPeer_leaves_no_entry (evs : List Event) (p : SocketId) :
    (∀ t ∈ (step (run initState evs) (Event.disconnect p)).1.transports, t.socketId ≠ p) ∧
    (∀ x ∈ (step (run initState evs) (Event.disconnect p)).1.producers, x.socketId ≠ p) ∧
    (∀ c ∈ (step (run initState evs) (Event.disconnect p)).1.consumers, c.socketId ≠ p) := by
  have hown := run_owned evs initState owned_init
  obtain ⟨h1, h2, h3⟩ := hown
  cases h : dictGet (run initState evs).peers p with
  | none =>
    simp only [step, cleanupPeer_of_none _ p h]
    refine ⟨fun t ht hp => ?_, fun t ht hp => ?_, fun t ht hp => ?_⟩
    · have := h1 t ht; rw [hp, h] at this; simp at this
    · have := h2 t ht; rw [hp, h] at this; simp at this
    · have := h3 t ht; rw [hp, h] at this; simp at this
  | some peer =>
    simp only [step, cleanupPeer_fst_of_some _ p peer h]
    refine ⟨fun t ht => ?_, fun t ht => ?_, fun t ht => ?_⟩ <;>
      · simp only [List.mem_filter, decide_eq_true_eq] at ht
        exact ht.2

/-! ## Producer closure reaches the consumers created against it -/

theorem consume_of_consumed (s : State) (p : SocketId) (pid : ProducerId) (tid : TransportId)
    (can : Option Bool) (created : Option ConsumerId) (c : ConsumerId)
    (h : Effect.callback p (Response.consumed c pid) ∈ (consume s p pid tid can created).2) :
    ∃ peer, dictGet s.peers p = some peer ∧
      (consume s p pid tid can created).1 =
        { s with
          listeners := s.listeners ++ [⟨c, p, pid⟩]
          consumers := s.consumers ++ [⟨p, c, peer.roomName⟩]
          peers := dictSet s.peers p { peer with consumers := peer.consumers ++ [c] } } := by
  cases h1 : dictGet s.peers p with
  | none => simp [consume, h1] at h
  | some peer =>
    cases h2 : dictGet s.rooms peer.roomName with
    | none => simp [consume, h1, h2] at h
    | some room =>
      cases h3 : s.transports.find? (fun t => t.consumer && decide (t.transport = tid)) with
      | none => simp [consume, h1, h2, h3] at h
      | some td =>
        cases can with
        | none => simp [consume, h1, h2, h3] at h
        | some b =>
          cases b with
          | false => simp [consume, h1, h2, h3] at h
          | true =>
            cases created with
            | none => simp [consume, h1, h2, h3] at h
            | some c' =>
              simp [consume, h1, h2, h3, addConsumer] at h
              subst h
              exact ⟨peer, rfl, by simp [consume, h1, h2, h3, addConsumer]⟩

theorem step_listeners (s : State) (e : Event) (l : Listener) (h : l ∈ s.listeners) :
    l ∈ (step s e).1.listeners := by
  rcases step_fst s e with hs | ⟨p, r, created, router, -, hs⟩ | ⟨p, peer, -, hp, hs⟩ |
    ⟨p, c, t, peer, -, hp, hs⟩ | ⟨p, x, peer, -, hp, hs⟩ |
    ⟨p, pid, tid, can, c, peer, -, hp, hs⟩ | ⟨l', -, hs⟩ <;> rw [hs] <;> simp [h]

theorem run_listeners (evs : List Event) (s : State) (l : Listener) (h : l ∈ s.listeners) :
    l ∈ (run s evs).listeners := by
  induction evs generalizing s with
  | nil => exact h
  | cons e es ih => exact ih _ (step_listeners s e l h)

/-- C2: when peer `B` has created consumer `C` against producer `P` with a successful
consume request, then in every later state the delivery of the producerclose event to `C`
sends `B` exactly one producer-closed notification, carrying `P`, and leaves no entry for
`C` in `consumers`; the entry was recorded for `B` by the consume request. -/
theorem producerclose_removes_consumer_and_notifies (evs1 evs2 : List Event) (B : SocketId)
    (P : ProducerId) (T : TransportId) (can : Option Bool) (C : ConsumerId)
    (hok : Effect.callback B (Response.consumed C P) ∈
      (consume (run initState evs1) B P T can (some C)).2) :
    (∃ r, (⟨B, C, r⟩ : ConsumerData) ∈
      (consume (run initState evs1) B P T can (some C)).1.consumers) ∧
    pushes (step (run (consume (run initState evs1) B P T can (some C)).1 evs2)
        (Event.producerclose ⟨C, B, P⟩)).2 =
      [Effect.emit B (Notification.producerClosed P)] ∧
    (∀ c ∈ (step (run (consume (run initState evs1) B P T can (some C)).1 evs2)
        (Event.producerclose ⟨C, B, P⟩)).1.consumers, c.consumer ≠ C) := by
  obtain ⟨peer, -, hs⟩ := consume_of_consumed _ B P T can (some C) C hok
  have hl : (⟨C, B, P⟩ : Listener) ∈
      (run (consume (run initState evs1) B P T can (some C)).1 evs2).listeners := by
    apply run_listeners
    rw [hs]
    simp
  refine ⟨⟨peer.roomName, by rw [hs]; simp⟩, ?_, ?_⟩
  · simp [step, hl, producercloseHandler, pushes]
  · intro c hc
    simp only [step, hl, producercloseHandler, if_true, List.mem_filter,
      decide_eq_true_eq] at hc
    exact hc.2

/-- C2 at a concrete run: peer 1 produces 7 in room "r", peer 2 consumes it as consumer 9,
peer 1 disconnects, and the engine then reports the closure to consumer 9. -/
theorem producerclose_removes_consumer_and_notifies_witness :
    Effect.callback 2 (Response.consumed 9 7) ∈
      (consume (run initState
        [Event.joinRoom 1 "r" (some 10), Event.joinRoom 2 "r" none,
         Event.createWebRtcTransport 1 false (some 4), Event.transportProduce 1 (some 7),
         Event.createWebRtcTransport 2 true (some 5)]) 2 7 5 (some true) (some 9)).2 ∧
    ((∃ r, (⟨2, 9, r⟩ : ConsumerData) ∈
      (consume (run initState
        [Event.joinRoom 1 "r" (some 10), Event.joinRoom 2 "r" none,
         Event.createWebRtcTransport 1 false (some 4), Event.transportProduce 1 (some 7),
         Event.createWebRtcTransport 2 true (some 5)]) 2 7 5 (some true) (some 9)).1.consumers) ∧
    pushes (step (run (consume (run initState
        [Event.joinRoom 1 "r" (some 10), Event.joinRoom 2 "r" none,
         Event.createWebRtcTransport 1 false (some 4), Event.transportProduce 1 (some 7),
         Event.createWebRtcTransport 2 true (some 5)]) 2 7 5 (some true) (some 9)).1
        [Event.disconnect 1]) (Event.producerclose ⟨9, 2, 7⟩)).2 =
      [Effect.emit 2 (Notification.producerClosed 7)] ∧
    (∀ c ∈ (step (run (consume (run initState
        [Event.joinRoom 1 "r" (some 10), Event.joinRoom 2 "r" none,
         Event.createWebRtcTransport 1 false (some 4), Event.transportProduce 1 (some 7),
         Event.createWebRtcTransport 2 true (some 5)]) 2 7 5 (some true) (some 9)).1
        [Event.disconnect 1]) (Event.producerclose ⟨9, 2, 7⟩)).1.consumers, c.consumer ≠ 9)) :=
  ⟨by decide,
   producerclose_removes_consumer_and_notifies
    [Event.joinRoom 1 "r" (some 10), Event.joinRoom 2 "r" none,
     Event.createWebRtcTransport 1 false (some 4), Event.transportProduce 1 (some 7),
     Event.createWebRtcTransport 2 true (some 5)]
    [Event.disconnect 1] 2 7 5 (some true) 9 (by decide)⟩

/-! ## Link consistency between the arrays and the peers' id lists -/

/-- C3 as stated fails: connection 1 joins room "r", creates transport 4 and sends joinRoom
again; the second joinRoom replaces `peers[1]` by a record with empty id lists, so the
`transports` entry of transport 4 is no longer named in `peers[1].transports`. -/
theorem rejoin_breaks_link :
    ¬ Linked (run initState
      [Event.joinRoom 1 "r" (some 10), Event.createWebRtcTransport 1 false (some 4),
       Event.joinRoom 1 "r" none]) := by
  intro h
  obtain ⟨peer, hp, hm⟩ := h.1 ⟨1, 4, "r", false⟩ (by decide)
  have e : dictGet (run initState
      [Event.joinRoom 1 "r" (some 10), Event.createWebRtcTransport 1 false (some 4),
       Event.joinRoom 1 "r" none]).peers 1 = some ⟨"r", [], [], []⟩ := by decide
  rw [e] at hp
  cases hp
  simp at hm

/-! ## The joinRoom handler -/

theorem joinRoom_of_room (s : State) (p : SocketId) (r : RoomName) (created : Option RouterId)
    (room : Room) (h : dictGet s.rooms r = some room) :
    joinRoom s p r created =
      ({ s with rooms := dictSet s.rooms r ⟨room.router, room.peers ++ [p]⟩
                peers := dictSet s.peers p ⟨r, [], [], []⟩ },
       [Effect.joinChannel p r,
        Effect.broadcast r p (Notification.peerJoined p),
        Effect.callback p
          (Response.joined room.router (room.peers.filter (fun id => decide (id ≠ p))))]) := by
  simp [joinRoom, createRoom, h, createRoomStore, joinRoomRegister, dictGet_dictSet_self,
    List.filter_append]

theorem joinRoom_of_created (s : State) (p : SocketId) (r : RoomName) (router : RouterId)
    (h : dictGet s.rooms r = none) (hk : r ∉ inheritedKeys) :
    joinRoom s p r (some router) =
      ({ s with rooms := dictSet s.rooms r ⟨router, [p]⟩
                peers := dictSet s.peers p ⟨r, [], [], []⟩ },
       [Effect.engine EngineCall.createRouter,
        Effect.joinChannel p r,
        Effect.broadcast r p (Notification.peerJoined p),
        Effect.callback p (Response.joined router [])]) := by
  simp [joinRoom, createRoom, h, hk, createRoomStore, joinRoomRegister, dictGet_dictSet_self]

theorem joinRoom_of_failed (s : State) (p : SocketId) (r : RoomName)
    (h : dictGet s.rooms r = none) (hk : r ∉ inheritedKeys) :
    joinRoom s p r none =
      (s, [Effect.engine EngineCall.createRouter,
           Effect.callback p (Response.error ErrorMessage.engineError)]) := by
  simp [joinRoom, createRoom, h, hk]

theorem joinRoom_of_inherited (s : State) (p : SocketId) (r : RoomName)
    (created : Option RouterId) (h : dictGet s.rooms r = none) (hk : r ∈ inheritedKeys) :
    joinRoom s p r created =
      (s, [Effect.callback p (Response.error ErrorMessage.typeError)]) := by
  simp [joinRoom, createRoom, h, hk]

/-- C4 as stated fails: connection 1 is a peer of room "a" and sends joinRoom for room "b".
The request is answered with router capabilities, `peers[1]` now names "b", and 1 is listed
in the membership of both rooms. -/
theorem joinRoom_second_room_accepted :
    (dictGet (run initState [Event.joinRoom 1 "a" (some 10)]).peers 1).map Peer.roomName
      = some "a" ∧
    responses (joinRoom (run initState [Event.joinRoom 1 "a" (some 10)]) 1 "b" (some 11)).2
      = [(1, Response.joined 11 [])] ∧
    (joinRoom (run initState [Event.joinRoom 1 "a" (some 10)]) 1 "b" (some 11)).1.rooms
      ≠ (run initState [Event.joinRoom 1 "a" (some 10)]).rooms ∧
    (joinRoom (run initState [Event.joinRoom 1 "a" (some 10)]) 1 "b" (some 11)).1.peers
      ≠ (run initState [Event.joinRoom 1 "a" (some 10)]).peers ∧
    1 ∈ members (joinRoom (run initState [Event.joinRoom 1 "a" (some 10)]) 1 "b" (some 11)).1 "a" ∧
    1 ∈ members (joinRoom (run initState [Event.joinRoom 1 "a" (some 10)]) 1 "b" (some 11)).1 "b" := by
  decide

/-! ## Producing transports of a peer -/

theorem step_producingCount (s : State) (e : Event) (q : SocketId) :
    producingCount (step s e).1 q ≤
      producingCount s q + (if isProducingRequest q e = true then 1 else 0) := by
  rcases step_fst s e with hs | ⟨p, r, created, router, -, hs⟩ | ⟨p, peer, -, hp, hs⟩ |
    ⟨p, c, t, peer, he, hp, hs⟩ | ⟨p, x, peer, -, hp, hs⟩ |
    ⟨p, pid, tid, can, c, peer, -, hp, hs⟩ | ⟨l, -, hs⟩
  · rw [hs]; exact Nat.le_add_right _ _
  · rw [hs]; exact Nat.le_add_right _ _
  · rw [hs]
    refine Nat.le_trans ?_ (Nat.le_add_right _ _)
    simp only [producingCount]
    rw [List.filter_filter]
    exact List.Sublist.length_le
      (List.monotone_filter_right _ (fun t ht => by simp at ht ⊢; exact ⟨ht.1.1, ht.1.2⟩))
  · subst he
    rw [hs]
    simp only [producingCount, isProducingRequest, List.filter_append, List.length_append]
    by_cases hc : (decide (p = q) && !c) = true
    · simp [hc]
    · simp [hc]
  · rw [hs]; exact Nat.le_add_right _ _
  · rw [hs]; exact Nat.le_add_right _ _
  · rw [hs]; exact Nat.le_add_right _ _

theorem run_producingCount (evs : List Event) (s : State) (q : SocketId) :
    producingCount (run s evs) q ≤
      producingCount s q + (evs.filter (isProducingRequest q)).length := by
  induction evs generalizing s with
  | nil => simp [run]
  | cons e es ih =>
    have h1 := ih (step s e).1
    have h2 := step_producingCount s e q
    simp only [run, List.filter_cons]
    by_cases he : isProducingRequest q e = true
    · simp only [he, if_true, List.length_cons] at h2 ⊢
      omega
    · simp only [he] at h2 ⊢
      simp only [Bool.false_eq_true, if_false] at h2 ⊢
      omega

theorem getTransport_of_first (s : State) (p : SocketId) (pre post : List TransportData)
    (t : TransportData) (h : s.transports = pre ++ t :: post)
    (hpre : ∀ u ∈ pre, ¬ (u.socketId = p ∧ u.consumer = false))
    (ht : t.socketId = p ∧ t.consumer = false) : getTransport s p = some t.transport := by
  have hnil : pre.filter (fun t => decide (t.socketId = p) && !t.consumer) = [] := by
    rw [List.filter_eq_nil_iff]
    intro u hu
    have := hpre u hu
    simpa using this
  simp [getTransport, h, List.filter_append, hnil, List.filter_cons, ht.1, ht.2]

/-- C5 as stated fails: connection 1 joins a room and sends createWebRtcTransport with a
falsy consumer flag twice; both transports are recorded, so the filter of `getTransport(1)`
matches two entries. -/
theorem two_producing_transports :
    ¬ (producingCount (run initState
        [Event.joinRoom 1 "r" (some 10), Event.createWebRtcTransport 1 false (some 4),
         Event.createWebRtcTransport 1 false (some 5)]) 1 ≤ 1) := by
  decide

/-- C5, amended: in every reachable state the number of `transports` entries with
socketId `p` and a falsy consumer flag is at most the number of createWebRtcTransport
requests with a falsy consumer flag that `p` has sent (hence at most one for a connection
that sent at most one), and `getTransport(p)` returns the handle of the earliest such
entry, however many there are. -/
theorem producing_transports_bounded_by_requests (evs : List Event) (p : SocketId) :
    producingCount (run initState evs) p ≤ (evs.filter (isProducingRequest p)).length ∧
    (∀ pre post t, (run initState evs).transports = pre ++ t :: post →
      (∀ u ∈ pre, ¬ (u.socketId = p ∧ u.consumer = false)) →
      t.socketId = p ∧ t.consumer = false →
      getTransport (run initState evs) p = some t.transport) := by
  refine ⟨?_, fun pre post t h hpre ht => getTransport_of_first _ p pre post t h hpre ht⟩
  have := run_producingCount evs initState p
  simpa [producingCount, initState] using this

/-- C5, amended, at the run with two producing transports of connection 1: the earlier
one, transport 4, is the one `getTransport(1)` returns. -/
theorem producing_transports_bounded_by_requests_witness :
    (run initState
        [Event.joinRoom 1 "r" (some 10), Event.createWebRtcTransport 1 false (some 4),
         Event.createWebRtcTransport 1 false (some 5)]).transports
      = [] ++ ⟨1, 4, "r", false⟩ :: [⟨1, 5, "r", false⟩] ∧
    getTransport (run initState
        [Event.joinRoom 1 "r" (some 10), Event.createWebRtcTransport 1 false (some 4),
         Event.createWebRtcTransport 1 false (some 5)]) 1 = some 4 :=
  ⟨by decide,
   (producing_transports_bounded_by_requests
      [Event.joinRoom 1 "r" (some 10), Event.createWebRtcTransport 1 false (some 4),
       Event.createWebRtcTransport 1 false (some 5)] 1).2
      [] [⟨1, 5, "r", false⟩] ⟨1, 4, "r", false⟩ (by decide) (by simp) ⟨rfl, rfl⟩⟩

/-! ## Rejected produce and consume requests -/

theorem getTransport_eq_none (s : State) (p : SocketId)
    (h : ∀ t ∈ s.transports, t.socketId = p → t.consumer = true) : getTransport s p = none := by
  have hnil : s.transports.filter (fun t => decide (t.socketId = p) && !t.consumer) = [] := by
    rw [List.filter_eq_nil_iff]
    intro t ht
    by_cases hp : t.socketId = p
    · simp [hp, h t ht hp]
    · simp [hp]
  simp [getTransport, hnil]

/-- C6: when the requesting connection has no `transports` entry with a falsy consumer flag,
a transport-produce request is answered with the error 'Transport not found', calls the
engine not at all, pushes no notification, and leaves the whole state unchanged. -/
theorem transportProduce_without_transport (s : State) (p : SocketId)
    (created : Option ProducerId)
    (h : ∀ t ∈ s.transports, t.socketId = p → t.consumer = true) :
    transportProduce s p created =
      (s, [Effect.callback p (Response.error ErrorMessage.transportNotFound)]) ∧
    engineCalls (transportProduce s p created).2 = [] ∧
    pushes (transportProduce s p created).2 = [] := by
  have hres : transportProduce s p created =
      (s, [Effect.callback p (Response.error ErrorMessage.transportNotFound)]) := by
    simp [transportProduce, getTransport_eq_none s p h]
  rw [hres]
  exact ⟨rfl, rfl, rfl⟩

/-- C6 at a concrete state: connection 1 owns only a consuming transport. -/
theorem transportProduce_without_transport_witness :
    (∀ t ∈ (run initState
        [Event.joinRoom 1 "r" (some 10), Event.createWebRtcTransport 1 true (some 4)]).transports,
      t.socketId = 1 → t.consumer = true) ∧
    (transportProduce (run initState
        [Event.joinRoom 1 "r" (some 10), Event.createWebRtcTransport 1 true (some 4)]) 1 (some 7) =
      (run initState
        [Event.joinRoom 1 "r" (some 10), Event.createWebRtcTransport 1 true (some 4)],
       [Effect.callback 1 (Response.error ErrorMessage.transportNotFound)]) ∧
    engineCalls (transportProduce (run initState
        [Event.joinRoom 1 "r" (some 10), Event.createWebRtcTransport 1 true (some 4)])
        1 (some 7)).2 = [] ∧
    pushes (transportProduce (run initState
        [Event.joinRoom 1 "r" (some 10), Event.createWebRtcTransport 1 true (some 4)])
        1 (some 7)).2 = []) :=
  ⟨by decide,
   transportProduce_without_transport (run initState
      [Event.joinRoom 1 "r" (some 10), Event.createWebRtcTransport 1 true (some 4)]) 1 (some 7)
      (by decide)⟩

/-- C7: a consume request of a registered peer that names an existing consuming transport
and for which `router.canConsume` returns false is answered with an error, never calls
`transport.consume`, and leaves the state unchanged, in particular `consumers` and every
peer's `consumers` list. -/
theorem consume_rejected_when_cannot_consume (s : State) (p : SocketId) (pid : ProducerId)
    (tid : TransportId) (created : Option ConsumerId) (peer : Peer) (td : TransportData)
    (hp : dictGet s.peers p = some peer) (htd : td ∈ s.transports)
    (hflag : td.consumer = true) (hid : td.transport = tid) :
    (∃ m, responses (consume s p pid tid (some false) created).2 = [(p, Response.error m)]) ∧
    (∀ t q b, EngineCall.consume t q b ∉
      engineCalls (consume s p pid tid (some false) created).2) ∧
    (consume s p pid tid (some false) created).1 = s := by
  cases h2 : dictGet s.rooms peer.roomName with
  | none =>
    simp [consume, hp, h2, responses, engineCalls]
  | some room =>
    cases h3 : s.transports.find? (fun t => t.consumer && decide (t.transport = tid)) with
    | none =>
      have := List.find?_eq_none.mp h3 td htd
      simp [hflag, hid] at this
    | some found =>
      simp [consume, hp, h2, h3, responses, engineCalls]

/-- C7 at a concrete state: connection 2 names its consuming transport 5 and the router
refuses producer 7. -/
theorem consume_rejected_when_cannot_consume_witness :
    (dictGet (run initState
        [Event.joinRoom 2 "r" (some 10), Event.createWebRtcTransport 2 true (some 5)]).peers 2
      = some ⟨"r", [5], [], []⟩ ∧
     (⟨2, 5, "r", true⟩ : TransportData) ∈ (run initState
        [Event.joinRoom 2 "r" (some 10), Event.createWebRtcTransport 2 true (some 5)]).transports) ∧
    ((∃ m, responses (consume (run initState
        [Event.joinRoom 2 "r" (some 10), Event.createWebRtcTransport 2 true (some 5)])
        2 7 5 (some false) (some 9)).2 = [(2, Response.error m)]) ∧
    (∀ t q b, EngineCall.consume t q b ∉
      engineCalls (consume (run initState
        [Event.joinRoom 2 "r" (some 10), Event.createWebRtcTransport 2 true (some 5)])
        2 7 5 (some false) (some 9)).2) ∧
    (consume (run initState
        [Event.joinRoom 2 "r" (some 10), Event.createWebRtcTransport 2 true (some 5)])
        2 7 5 (some false) (some 9)).1 =
      run initState
        [Event.joinRoom 2 "r" (some 10), Event.createWebRtcTransport 2 true (some 5)]) :=
  ⟨⟨by decide, by decide⟩,
   consume_rejected_when_cannot_consume (run initState
      [Event.joinRoom 2 "r" (some 10), Event.createWebRtcTransport 2 true (some 5)])
      2 7 5 (some 9) ⟨"r", [5], [], []⟩ ⟨2, 5, "r", true⟩ (by decide) (by decide) rfl rfl⟩

/-! ## The producersExist flag -/

/-- C8, the code at the failing input: room "a" holds producer 7 of connection 1, room "b"
holds no producer, and connection 2 of room "b" produces.  The response carries
`producersExist = true`, because `producers.length > 1` counts the entries of all rooms. -/
theorem producersExist_counts_other_rooms :
    (run initState
        [Event.joinRoom 1 "a" (some 10), Event.createWebRtcTransport 1 false (some 4),
         Event.transportProduce 1 (some 7), Event.joinRoom 2 "b" (some 11),
         Event.createWebRtcTransport 2 false (some 5)]).producers.filter
      (fun x => decide (x.roomName = "b")) = [] ∧
    (dictGet (run initState
        [Event.joinRoom 1 "a" (some 10), Event.createWebRtcTransport 1 false (some 4),
         Event.transportProduce 1 (some 7), Event.joinRoom 2 "b" (some 11),
         Event.createWebRtcTransport 2 false (some 5)]).peers 2).map Peer.roomName = some "b" ∧
    responses (transportProduce (run initState
        [Event.joinRoom 1 "a" (some 10), Event.createWebRtcTransport 1 false (some 4),
         Event.transportProduce 1 (some 7), Event.joinRoom 2 "b" (some 11),
         Event.createWebRtcTransport 2 false (some 5)]) 2 (some 8)).2 =
      [(2, Response.produced 8 true)] ∧
    (transportProduce (run initState
        [Event.joinRoom 1 "a" (some 10), Event.createWebRtcTransport 1 false (some 4),
         Event.transportProduce 1 (some 7), Event.joinRoom 2 "b" (some 11),
         Event.createWebRtcTransport 2 false (some 5)]) 2 (some 8)).1.producers.filter
      (fun x => decide (x.roomName = "b")) = [⟨2, 8, "b"⟩] := by
  decide

/-! ## Two joinRoom requests racing for a new room -/

theorem asyncRun_uninterrupted (s : State) (p : SocketId) (r : RoomName)
    (created : Option RouterId) :
    asyncRun ⟨s, []⟩
        (match dictGet s.rooms r with
         | some _ => [AsyncEvent.joinRoomCalled p r]
         | none =>
           if r ∈ inheritedKeys then [AsyncEvent.joinRoomCalled p r]
           else [AsyncEvent.joinRoomCalled p r, AsyncEvent.createRouterSettled p r created]) =
      (⟨(joinRoom s p r created).1, []⟩, (joinRoom s p r created).2) := by
  cases h : dictGet s.rooms r with
  | some room =>
    simp [asyncRun, asyncStep, h, joinRoom_of_room s p r _ room h]
  | none =>
    by_cases hk : r ∈ inheritedKeys
    · simp [asyncRun, asyncStep, h, hk, joinRoom_of_inherited s p r _ h hk]
    · cases created with
      | none =>
        simp [asyncRun, asyncStep, h, hk, joinRoom_of_failed s p r h hk]
      | some router =>
        simp [asyncRun, asyncStep, h, hk, joinRoom_of_created s p r router h hk,
          createRoomStore, joinRoomRegister, dictGet_dictSet_self]

/-- C9, the code at the failing input: connections 1 and 2 both send joinRoom for the new
room "r" and both reach `await worker.createRouter` before either resumes.  When the first
promise settles `rooms["r"].router` is router 10; when the second settles it is replaced
by router 20 (and the membership `[1]` by `[2]`), and the two connections are answered
with the capabilities of different routers. -/
theorem createRoom_race_replaces_router :
    (asyncRun ⟨initState, []⟩
      [AsyncEvent.joinRoomCalled 1 "r", AsyncEvent.joinRoomCalled 2 "r",
       AsyncEvent.createRouterSettled 1 "r" (some 10)]).1.state.rooms = [("r", ⟨10, [1]⟩)] ∧
    (asyncRun ⟨initState, []⟩
      [AsyncEvent.joinRoomCalled 1 "r", AsyncEvent.joinRoomCalled 2 "r",
       AsyncEvent.createRouterSettled 1 "r" (some 10),
       AsyncEvent.createRouterSettled 2 "r" (some 20)]).1.state.rooms = [("r", ⟨20, [2]⟩)] ∧
    responses (asyncRun ⟨initState, []⟩
      [AsyncEvent.joinRoomCalled 1 "r", AsyncEvent.joinRoomCalled 2 "r",
       AsyncEvent.createRouterSettled 1 "r" (some 10),
       AsyncEvent.createRouterSettled 2 "r" (some 20)]).2 =
      [(1, Response.joined 10 []), (2, Response.joined 20 [])] := by
  decide

/-! ## The peer list of a joinRoom response -/

theorem members_dictSet_self (s : State) (rooms : List (RoomName × Room)) (r : RoomName)
    (room : Room) (h : s.rooms = dictSet rooms r room) : members s r = room.peers := by
  simp [members, h, dictGet_dictSet_self]

theorem step_members (s : State) (e : Event) (r : RoomName) (L : List SocketId)
    (hm : members s r = L)
    (hj : ∀ p r1 c, e = Event.joinRoom p r1 c → r1 ≠ r)
    (hd : ∀ p, e = Event.disconnect p → p ∉ L) :
    members (step s e).1 r = L := by
  rcases step_fst s e with hs | ⟨p, r1, created, router, he, hs⟩ | ⟨p, peer, he, hp, hs⟩ |
    ⟨p, c, t, peer, -, hp, hs⟩ | ⟨p, x, peer, -, hp, hs⟩ |
    ⟨p, pid, tid, can, c, peer, -, hp, hs⟩ | ⟨l, -, hs⟩
  · rw [hs]; exact hm
  · have hne : r ≠ r1 := Ne.symm (hj p r1 created he)
    rw [hs]
    simpa [members, dictGet_dictSet_of_ne _ _ _ _ hne] using hm
  · have hpL : p ∉ L := hd p he
    rw [hs]
    by_cases htr : truthy peer.roomName = true
    · cases hroom : dictGet s.rooms peer.roomName with
      | none => simpa [members, htr, hroom] using hm
      | some room =>
        by_cases hr : r = peer.roomName
        · subst hr
          have hL : room.peers = L := by simpa [members, hroom] using hm
          have hfil : room.peers.filter (fun id => decide (id ≠ p)) = L := by
            rw [hL, List.filter_eq_self]
            intro a ha
            have : a ≠ p := fun hap => hpL (hap ▸ ha)
            simpa using this
          simp only [members, htr, hroom, dictGet_dictSet_self, if_true]
          exact hfil
        · simpa [members, htr, hroom, dictGet_dictSet_of_ne _ _ _ _ hr] using hm
    · simpa [members, htr] using hm
  · rw [hs]; exact hm
  · rw [hs]; exact hm
  · rw [hs]; exact hm
  · rw [hs]; exact hm

theorem run_members (evs : List Event) (s : State) (r : RoomName) (a b : SocketId)
    (L : List SocketId) (hm : members s r = L) (hL : ∀ x ∈ L, x = a ∨ x = b)
    (hevs : evs.all (leavesRoom r a b) = true) : members (run s evs) r = L := by
  induction evs generalizing s with
  | nil => exact hm
  | cons e es ih =>
    simp only [List.all_cons, Bool.and_eq_true] at hevs
    refine ih _ (step_members s e r L hm ?_ ?_) hevs.2
    · intro p r1 c he
      subst he
      simpa [leavesRoom] using hevs.1
    · intro p he hp
      subst he
      have h1 : p ≠ a ∧ p ≠ b := by simpa [leavesRoom] using hevs.1
      rcases hL p hp with h | h
      · exact h1.1 h
      · exact h1.2 h

theorem joinRoom_members (s : State) (p : SocketId) (r : RoomName) (created : Option RouterId)
    (h : (dictGet s.rooms r).isSome = true ∨ (r ∉ inheritedKeys ∧ created.isSome = true)) :
    members (joinRoom s p r created).1 r = members s r ++ [p] ∧
    ∃ router, responses (joinRoom s p r created).2 =
      [(p, Response.joined router ((members s r).filter (fun id => decide (id ≠ p))))] := by
  cases hr : dictGet s.rooms r with
  | some room =>
    rw [joinRoom_of_room s p r created room hr]
    exact ⟨by simp [members, hr, dictGet_dictSet_self], room.router,
      by simp [responses, members, hr]⟩
  | none =>
    have hk : r ∉ inheritedKeys := by
      rcases h with h | h
      · simp [hr] at h
      · exact h.1
    cases created with
    | none => simp [hr] at h
    | some router =>
      rw [joinRoom_of_created s p r router hr hk]
      exact ⟨by simp [members, hr, dictGet_dictSet_self], router,
        by simp [responses, members, hr]⟩

theorem joinRoom_joined (s : State) (p : SocketId) (r : RoomName) (created : Option RouterId)
    (q : SocketId) (router : RouterId) (l : List SocketId)
    (h : Effect.callback q (Response.joined router l) ∈ (joinRoom s p r created).2) :
    l = (members s r).filter (fun id => decide (id ≠ p)) ∧
    members (joinRoom s p r created).1 r = members s r ++ [p] := by
  cases hr : dictGet s.rooms r with
  | some room =>
    rw [joinRoom_of_room s p r created room hr] at h ⊢
    simp at h
    exact ⟨by simp [members, hr, h.2.2], by simp [members, hr, dictGet_dictSet_self]⟩
  | none =>
    by_cases hk : r ∈ inheritedKeys
    · rw [joinRoom_of_inherited s p r created hr hk] at h
      simp at h
    · cases created with
      | none =>
        rw [joinRoom_of_failed s p r hr hk] at h
        simp at h
      | some router' =>
        rw [joinRoom_of_created s p r router' hr hk] at h ⊢
        simp at h
        exact ⟨by simp [members, hr, h.2.2], by simp [members, hr, dictGet_dictSet_self]⟩

/-- Requests handled one at a time, each to completion: when room `r` has no members, `A`
joins it and then `B`, and the events in between and afterwards neither join `r` nor
disconnect `A` or `B`, then the response to the joinRoom of a third connection `C` lists
exactly `[A, B]`; and the peer list of every join response is the membership of the room
before that join with the joiner's own id filtered out. -/
theorem sequential_joins_list_prior_members (s0 : State) (r : RoomName) (A B C : SocketId)
    (cA cB cC : Option RouterId) (evs1 evs2 : List Event)
    (hempty : members s0 r = [])
    (hA : (dictGet s0.rooms r).isSome = true ∨ (r ∉ inheritedKeys ∧ cA.isSome = true))
    (hCA : C ≠ A) (hCB : C ≠ B)
    (h1 : evs1.all (leavesRoom r A B) = true) (h2 : evs2.all (leavesRoom r A B) = true) :
    (∃ router,
      responses (joinRoom (run (joinRoom (run (joinRoom s0 A r cA).1 evs1) B r cB).1 evs2)
        C r cC).2 = [(C, Response.joined router [A, B])]) ∧
    (∀ s p r1 created q router l,
      Effect.callback q (Response.joined router l) ∈ (joinRoom s p r1 created).2 →
      l = (members s r1).filter (fun id => decide (id ≠ p)) ∧
      members (joinRoom s p r1 created).1 r1 = members s r1 ++ [p]) := by
  refine ⟨?_, fun s p r1 created q router l h => joinRoom_joined s p r1 created q router l h⟩
  have hmA : members (joinRoom s0 A r cA).1 r = [A] := by
    rw [(joinRoom_members s0 A r cA hA).1, hempty]; rfl
  have hm1 : members (run (joinRoom s0 A r cA).1 evs1) r = [A] :=
    run_members evs1 _ r A B [A] hmA (by simp) h1
  have hex : ∀ (s : State) (L : List SocketId), members s r = L → L ≠ [] →
      (dictGet s.rooms r).isSome = true := by
    intro s L hm hne
    cases hr : dictGet s.rooms r with
    | none => simp [members, hr] at hm; exact absurd hm hne
    | some room => rfl
  have hmB : members (joinRoom (run (joinRoom s0 A r cA).1 evs1) B r cB).1 r = [A, B] := by
    rw [(joinRoom_members _ B r cB (Or.inl (hex _ _ hm1 (by simp)))).1, hm1]; rfl
  have hm2 : members (run (joinRoom (run (joinRoom s0 A r cA).1 evs1) B r cB).1 evs2) r
      = [A, B] :=
    run_members evs2 _ r A B [A, B] hmB (by simp) h2
  obtain ⟨router, hresp⟩ := (joinRoom_members _ C r cC (Or.inl (hex _ _ hm2 (by simp)))).2
  refine ⟨router, ?_⟩
  rw [hresp, hm2]
  simp [List.filter_cons, Ne.symm hCA, Ne.symm hCB]

/-! ## Requests handled one at a time keep the router of a room -/

theorem step_router_stable (s : State) (e : Event) (r : RoomName) (room : Room)
    (h : dictGet s.rooms r = some room) :
    ∃ room', dictGet (step s e).1.rooms r = some room' ∧ room'.router = room.router := by
  cases e with
  | joinRoom p r1 created =>
    rcases joinRoom_fst s p r1 created with hs | ⟨router, hs, -, hrt⟩
    · exact ⟨room, by simp only [step]; rw [hs]; exact h, rfl⟩
    · simp only [step]
      rw [hs]
      by_cases hr : r = r1
      · subst hr
        exact ⟨⟨router, members s r ++ [p]⟩, dictGet_dictSet_self _ _ _, (hrt room h).symm⟩
      · exact ⟨room, by simpa [dictGet_dictSet_of_ne _ _ _ _ hr] using h, rfl⟩
  | disconnect p =>
    cases hp : dictGet s.peers p with
    | none => exact ⟨room, by simp only [step, cleanupPeer_of_none s p hp]; exact h, rfl⟩
    | some peer =>
      simp only [step, cleanupPeer_fst_of_some s p peer hp]
      by_cases htr : truthy peer.roomName = true
      · cases hroom : dictGet s.rooms peer.roomName with
        | none => exact ⟨room, by simpa [htr, hroom] using h, rfl⟩
        | some room0 =>
          by_cases hr : r = peer.roomName
          · subst hr
            rw [h] at hroom
            cases hroom
            refine ⟨{ room with peers := room.peers.filter (fun id => decide (id ≠ p)) }, ?_, rfl⟩
            simp only [htr, h, if_true]
            exact dictGet_dictSet_self _ _ _
          · exact ⟨room, by simpa [htr, hroom, dictGet_dictSet_of_ne _ _ _ _ hr] using h, rfl⟩
      · exact ⟨room, by simpa [htr] using h, rfl⟩
  | _ =>
    rcases step_fst s _ with hs | ⟨p, r1, created, router, he, hs⟩ | ⟨p, peer, he, hp, hs⟩ |
      ⟨p, c, t, peer, -, hp, hs⟩ | ⟨p, x, peer, -, hp, hs⟩ |
      ⟨p, pid, tid, can, c, peer, -, hp, hs⟩ | ⟨l, -, hs⟩
    · exact ⟨room, by rw [hs]; exact h, rfl⟩
    · cases he
    · cases he
    · exact ⟨room, by rw [hs]; exact h, rfl⟩
    · exact ⟨room, by rw [hs]; exact h, rfl⟩
    · exact ⟨room, by rw [hs]; exact h, rfl⟩
    · exact ⟨room, by rw [hs]; exact h, rfl⟩

theorem run_router_stable (evs : List Event) (s : State) (r : RoomName) (room : Room)
    (h : dictGet s.rooms r = some room) :
    ∃ room', dictGet (run s evs).rooms r = some room' ∧ room'.router = room.router := by
  induction evs generalizing s room with
  | nil => exact ⟨room, h, rfl⟩
  | cons e es ih =>
    obtain ⟨room1, h1, hr1⟩ := step_router_stable s e r room h
    obtain ⟨room2, h2, hr2⟩ := ih (step s e).1 room1 h1
    exact ⟨room2, h2, hr2.trans hr1⟩

/-! ## What cleanupPeer leaves alone -/

theorem filter_ne_idem {α : Type} (l : List α) (f : α → SocketId) (p : SocketId) :
    (l.filter (fun a => decide (f a ≠ p))).filter (fun a => decide (f a ≠ p)) =
      l.filter (fun a => decide (f a ≠ p)) := by
  rw [List.filter_filter]
  simp

/-- C19: `cleanupPeer(p)` keeps, in their order, the entries of `transports`, `producers`
and `consumers` whose socketId differs from `p`, keeps every other entry of `peers`, keeps
every room and its router, and removes no id other than `p` from any membership list; when
`p` is not a key of `peers` it changes nothing and closes nothing. -/
theorem cleanupPeer_frame (s : State) (p : SocketId) :
    (cleanupPeer s p).1.transports.filter (fun t => decide (t.socketId ≠ p)) =
      s.transports.filter (fun t => decide (t.socketId ≠ p)) ∧
    (cleanupPeer s p).1.producers.filter (fun x => decide (x.socketId ≠ p)) =
      s.producers.filter (fun x => decide (x.socketId ≠ p)) ∧
    (cleanupPeer s p).1.consumers.filter (fun c => decide (c.socketId ≠ p)) =
      s.consumers.filter (fun c => decide (c.socketId ≠ p)) ∧
    (∀ q, q ≠ p → dictGet (cleanupPeer s p).1.peers q = dictGet s.peers q) ∧
    (∀ r, (dictGet (cleanupPeer s p).1.rooms r).map Room.router =
      (dictGet s.rooms r).map Room.router) ∧
    (∀ r, (members (cleanupPeer s p).1 r).filter (fun id => decide (id ≠ p)) =
      (members s r).filter (fun id => decide (id ≠ p))) ∧
    (dictGet s.peers p = none → cleanupPeer s p = (s, [])) := by
  cases hp : dictGet s.peers p with
  | none =>
    rw [cleanupPeer_of_none s p hp]
    exact ⟨rfl, rfl, rfl, fun _ _ => rfl, fun _ => rfl, fun _ => rfl, fun _ => rfl⟩
  | some peer =>
    rw [cleanupPeer_fst_of_some s p peer hp]
    refine ⟨filter_ne_idem _ _ p, filter_ne_idem _ _ p, filter_ne_idem _ _ p,
      fun q hq => dictGet_dictDelete_of_ne _ _ _ hq, ?_, ?_, fun h => by simp at h⟩
    · intro r
      by_cases htr : truthy peer.roomName = true
      · cases hroom : dictGet s.rooms peer.roomName with
        | none => simp [htr, hroom]
        | some room =>
          by_cases hr : r = peer.roomName
          · subst hr
            simp [htr, hroom, dictGet_dictSet_self]
          · simp [htr, hroom, dictGet_dictSet_of_ne _ _ _ _ hr]
      · simp [htr]
    · intro r
      by_cases htr : truthy peer.roomName = true
      · cases hroom : dictGet s.rooms peer.roomName with
        | none => simp [members, htr, hroom]
        | some room =>
          by_cases hr : r = peer.roomName
          · subst hr
            simp only [members, htr, hroom, dictGet_dictSet_self, if_true]
            exact filter_ne_idem _ (fun id => id) p
          · simp [members, htr, hroom, dictGet_dictSet_of_ne _ _ _ _ hr]
      · simp [members, htr]

/-- C19 at a concrete state: connection 3 never joined, so its disconnect is a no-op. -/
theorem cleanupPeer_frame_witness :
    dictGet (run initState
        [Event.joinRoom 1 "r" (some 10), Event.createWebRtcTransport 1 false (some 4)]).peers 3
      = none ∧
    cleanupPeer (run initState
        [Event.joinRoom 1 "r" (some 10), Event.createWebRtcTransport 1 false (some 4)]) 3 =
      (run initState
        [Event.joinRoom 1 "r" (some 10), Event.createWebRtcTransport 1 false (some 4)], []) :=
  ⟨by decide,
   (cleanupPeer_frame (run initState
      [Event.joinRoom 1 "r" (some 10), Event.createWebRtcTransport 1 false (some 4)]) 3).2.2.2.2.2.2
     (by decide)⟩

/-! ## A failed router creation -/

/-- C20: when `worker.createRouter` fails during a joinRoom request for a room name that is
not in `rooms`, the request is answered with an error and the state, in particular `rooms`
and `peers`, is exactly as before; the connection is not put into the socket.io room
either.  The same holds for a name that `rooms` does not store but inherits from
`Object.prototype`: there `createRouter` is not even called and the error is the TypeError
of `createRoom`. -/
theorem joinRoom_failed_router_changes_nothing (s : State) (p : SocketId) (r : RoomName)
    (h : dictGet s.rooms r = none) :
    responses (joinRoom s p r none).2
      = [(p, Response.error
          (if r ∈ inheritedKeys then ErrorMessage.typeError else ErrorMessage.engineError))] ∧
    (joinRoom s p r none).1 = s ∧
    (∀ q r1, Effect.joinChannel q r1 ∉ (joinRoom s p r none).2) ∧
    pushes (joinRoom s p r none).2 = [] := by
  by_cases hk : r ∈ inheritedKeys
  · rw [joinRoom_of_inherited s p r none h hk]
    simp [responses, pushes, hk]
  · rw [joinRoom_of_failed s p r h hk]
    simp [responses, pushes, hk]

/-- C20 at a concrete state: room "r" exists, room "new" does not. -/
theorem joinRoom_failed_router_changes_nothing_witness :
    dictGet (run initState [Event.joinRoom 1 "r" (some 10)]).rooms "new" = none ∧
    (responses (joinRoom (run initState [Event.joinRoom 1 "r" (some 10)]) 2 "new" none).2 =
      [(2, Response.error ErrorMessage.engineError)] ∧
    (joinRoom (run initState [Event.joinRoom 1 "r" (some 10)]) 2 "new" none).1 =
      run initState [Event.joinRoom 1 "r" (some 10)] ∧
    (∀ q r1, Effect.joinChannel q r1 ∉
      (joinRoom (run initState [Event.joinRoom 1 "r" (some 10)]) 2 "new" none).2) ∧
    pushes (joinRoom (run initState [Event.joinRoom 1 "r" (some 10)]) 2 "new" none).2 = []) :=
  ⟨by decide,
   joinRoom_failed_router_changes_nothing (run initState [Event.joinRoom 1 "r" (some 10)])
     2 "new" (by decide)⟩

/-! ## The getProducers handler -/

/-- C12: for a registered peer `p`, getProducers answers with the list that holds, in array
order, exactly one pair `(producerId, socketId)` for each `producers` entry whose roomName
is that of `p` and whose socketId differs from `p`: a pair occurs in the answer as often as
there are such entries carrying it, and nothing else occurs. -/
theorem getProducers_lists_room_mates (s : State) (p : SocketId) (peer : Peer)
    (h : dictGet s.peers p = some peer) :
    ∃ l, responses (getProducers s p).2 = [(p, Response.producerList l)] ∧
      l.length = (s.producers.filter
        (fun x => decide (x.roomName = peer.roomName) && decide (x.socketId ≠ p))).length ∧
      (∀ pr, pr ∈ l ↔ ∃ x ∈ s.producers, x.roomName = peer.roomName ∧ x.socketId ≠ p ∧
        pr = (x.producer, x.socketId)) ∧
      (∀ pr, l.count pr = (s.producers.filter
        (fun x => decide (x.roomName = peer.roomName) && decide (x.socketId ≠ p) &&
          decide ((x.producer, x.socketId) = pr))).length) := by
  have hcomm : (fun x : ProducerData =>
      decide (x.socketId ≠ p) && decide (x.roomName = peer.roomName)) =
      (fun x => decide (x.roomName = peer.roomName) && decide (x.socketId ≠ p)) := by
    funext x
    exact Bool.and_comm _ _
  refine ⟨(s.producers.filter
      (fun x => decide (x.roomName = peer.roomName) && decide (x.socketId ≠ p))).map
      (fun x => (x.producer, x.socketId)), ?_, by simp, ?_, ?_⟩
  · simp only [getProducers, h, responses, hcomm]
  · intro pr
    simp only [List.mem_map, List.mem_filter, Bool.and_eq_true, decide_eq_true_eq]
    constructor
    · rintro ⟨x, ⟨hx, h1, h2⟩, rfl⟩
      exact ⟨x, hx, h1, h2, rfl⟩
    · rintro ⟨x, hx, h1, h2, rfl⟩
      exact ⟨x, ⟨hx, h1, h2⟩, rfl⟩
  · intro pr
    rw [List.count, List.countP_eq_length_filter, List.filter_map, List.length_map,
      List.filter_filter]
    congr 1
    apply List.filter_congr
    intro x _
    by_cases hx : (x.producer, x.socketId) = pr
    · simp [hx]
    · have hx' : ¬ (x.producer = pr.1 ∧ x.socketId = pr.2) := by
        intro h2
        exact hx (Prod.ext h2.1 h2.2)
      simp [hx, Prod.ext_iff, hx']

/-- C12 at a concrete state: connection 2 shares room "r" with the producer 7 of
connection 1. -/
theorem getProducers_lists_room_mates_witness :
    dictGet (run initState
        [Event.joinRoom 1 "r" (some 10), Event.joinRoom 2 "r" none,
         Event.createWebRtcTransport 1 false (some 4), Event.transportProduce 1 (some 7)]).peers 2
      = some ⟨"r", [], [], []⟩ ∧
    ∃ l, responses (getProducers (run initState
        [Event.joinRoom 1 "r" (some 10), Event.joinRoom 2 "r" none,
         Event.createWebRtcTransport 1 false (some 4), Event.transportProduce 1 (some 7)]) 2).2
        = [(2, Response.producerList l)] ∧
      l.length = ((run initState
        [Event.joinRoom 1 "r" (some 10), Event.joinRoom 2 "r" none,
         Event.createWebRtcTransport 1 false (some 4),
         Event.transportProduce 1 (some 7)]).producers.filter
        (fun x => decide (x.roomName = "r") && decide (x.socketId ≠ 2))).length ∧
      (∀ pr, pr ∈ l ↔ ∃ x ∈ (run initState
        [Event.joinRoom 1 "r" (some 10), Event.joinRoom 2 "r" none,
         Event.createWebRtcTransport 1 false (some 4),
         Event.transportProduce 1 (some 7)]).producers,
        x.roomName = "r" ∧ x.socketId ≠ 2 ∧ pr = (x.producer, x.socketId)) ∧
      (∀ pr, l.count pr = ((run initState
        [Event.joinRoom 1 "r" (some 10), Event.joinRoom 2 "r" none,
         Event.createWebRtcTransport 1 false (some 4),
         Event.transportProduce 1 (some 7)]).producers.filter
        (fun x => decide (x.roomName = "r") && decide (x.socketId ≠ 2) &&
          decide ((x.producer, x.socketId) = pr))).length) :=
  ⟨by decide,
   getProducers_lists_room_mates (run initState
      [Event.joinRoom 1 "r" (some 10), Event.joinRoom 2 "r" none,
       Event.createWebRtcTransport 1 false (some 4), Event.transportProduce 1 (some 7)])
      2 ⟨"r", [], [], []⟩ (by decide)⟩

/-- C15: getProducers leaves the state unchanged, so a second getProducers request of the
same connection, with nothing in between, is answered exactly like the first. -/
theorem getProducers_idempotent (s : State) (p : SocketId) :
    (getProducers s p).1 = s ∧
    (getProducers (getProducers s p).1 p).2 = (getProducers s p).2 := by
  have h : (getProducers s p).1 = s := by
    simp only [getProducers]
    split <;> rfl
  exact ⟨h, by rw [h]⟩

/-! ## The engine calls of each handler -/

theorem engineCalls_append (a b : List Effect) :
    engineCalls (a ++ b) = engineCalls a ++ engineCalls b := by
  induction a with
  | nil => rfl
  | cons e es ih => cases e <;> simp [engineCalls, ih]

theorem engineCalls_closeConsumers (s : State) (ids : List ConsumerId) :
    engineCalls (closeConsumers s ids) =
      (ids.filterMap (fun id =>
        (s.consumers.find? (fun c => decide (c.consumer = id))).map
          (fun c => c.consumer))).map EngineCall.closeConsumer := by
  induction ids with
  | nil => rfl
  | cons id ids ih =>
    simp only [closeConsumers] at ih ⊢
    cases h : s.consumers.find? (fun c => decide (c.consumer = id)) with
    | none => simpa [List.filterMap_cons, h] using ih
    | some c => simpa [List.filterMap_cons, h, engineCalls] using ih

theorem engineCalls_closeProducers (s : State) (ids : List ProducerId) :
    engineCalls (closeProducers s ids) =
      (ids.filterMap (fun id =>
        (s.producers.find? (fun x => decide (x.producer = id))).map
          (fun x => x.producer))).map EngineCall.closeProducer := by
  induction ids with
  | nil => rfl
  | cons id ids ih =>
    simp only [closeProducers] at ih ⊢
    cases h : s.producers.find? (fun x => decide (x.producer = id)) with
    | none => simpa [List.filterMap_cons, h] using ih
    | some c => simpa [List.filterMap_cons, h, engineCalls] using ih

theorem engineCalls_closeTransports (s : State) (ids : List TransportId) :
    engineCalls (closeTransports s ids) =
      (ids.filterMap (fun id =>
        (s.transports.find? (fun t => decide (t.transport = id))).map
          (fun t => t.transport))).map EngineCall.closeTransport := by
  induction ids with
  | nil => rfl
  | cons id ids ih =>
    simp only [closeTransports] at ih ⊢
    cases h : s.transports.find? (fun t => decide (t.transport = id)) with
    | none => simpa [List.filterMap_cons, h] using ih
    | some c => simpa [List.filterMap_cons, h, engineCalls] using ih

theorem cleanupPeer_engineCalls (s : State) (p : SocketId) :
    ∃ (cs : List ConsumerId) (xs : List ProducerId) (ts : List TransportId),
      engineCalls (cleanupPeer s p).2 =
        cs.map EngineCall.closeConsumer ++ xs.map EngineCall.closeProducer ++
          ts.map EngineCall.closeTransport := by
  cases hp : dictGet s.peers p with
  | none => exact ⟨[], [], [], by simp [cleanupPeer, hp, engineCalls]⟩
  | some peer =>
    refine ⟨peer.consumers.filterMap (fun id =>
        (s.consumers.find? (fun c => decide (c.consumer = id))).map (fun c => c.consumer)),
      peer.producers.filterMap (fun id =>
        (s.producers.find? (fun x => decide (x.producer = id))).map (fun x => x.producer)),
      peer.transports.filterMap (fun id =>
        (s.transports.find? (fun t => decide (t.transport = id))).map (fun t => t.transport)),
      ?_⟩
    simp only [cleanupPeer, hp, engineCalls_append, engineCalls_closeConsumers,
      engineCalls_closeProducers, engineCalls_closeTransports]

theorem joinRoom_engineCalls (s : State) (p : SocketId) (r : RoomName)
    (created : Option RouterId) :
    engineCalls (joinRoom s p r created).2 = [] ∨
    engineCalls (joinRoom s p r created).2 = [EngineCall.createRouter] := by
  cases h : dictGet s.rooms r with
  | some room => left; rw [joinRoom_of_room s p r created room h]; rfl
  | none =>
    by_cases hk : r ∈ inheritedKeys
    · left; rw [joinRoom_of_inherited s p r created h hk]; rfl
    · cases created with
      | none => right; rw [joinRoom_of_failed s p r h hk]; rfl
      | some router => right; rw [joinRoom_of_created s p r router h hk]; rfl

theorem createWebRtcTransport_engineCalls (s : State) (p : SocketId) (c : Bool)
    (created : Option TransportId) :
    engineCalls (createWebRtcTransport s p c created).2 = [] ∨
    ∃ router, engineCalls (createWebRtcTransport s p c created).2 =
      [EngineCall.createWebRtcTransport router] := by
  cases h : dictGet s.peers p with
  | none => left; simp [createWebRtcTransport, h, engineCalls]
  | some peer =>
    cases h2 : dictGet s.rooms peer.roomName with
    | none => left; simp [createWebRtcTransport, h, h2, engineCalls]
    | some room =>
      cases created with
      | none => right; exact ⟨room.router, by simp [createWebRtcTransport, h, h2, engineCalls]⟩
      | some t =>
        right
        exact ⟨room.router, by simp [createWebRtcTransport, h, h2, addTransport, engineCalls]⟩

theorem transportProduce_engineCalls (s : State) (p : SocketId) (created : Option ProducerId) :
    engineCalls (transportProduce s p created).2 = [] ∨
    ∃ t, engineCalls (transportProduce s p created).2 = [EngineCall.produce t] := by
  cases h0 : getTransport s p with
  | none => left; simp [transportProduce, h0, engineCalls]
  | some tr =>
    cases created with
    | none => right; exact ⟨tr, by simp [transportProduce, h0, engineCalls]⟩
    | some x =>
      cases h : dictGet s.peers p with
      | none => right; exact ⟨tr, by simp [transportProduce, h0, h, engineCalls]⟩
      | some peer =>
        right
        exact ⟨tr, by simp [transportProduce, h0, h, addProducer, engineCalls, informConsumers]⟩

theorem consume_engineCalls (s : State) (p : SocketId) (pid : ProducerId) (tid : TransportId)
    (can : Option Bool) (created : Option ConsumerId) :
    engineCalls (consume s p pid tid can created).2 = [] ∨
    (∃ router, engineCalls (consume s p pid tid can created).2 =
      [EngineCall.canConsume router pid]) ∨
    (∃ router td, (dictGet s.peers p).isSome = true ∧
      s.transports.find? (fun t => t.consumer && decide (t.transport = tid)) = some td ∧
      engineCalls (consume s p pid tid can created).2 =
        [EngineCall.canConsume router pid, EngineCall.consume td.transport pid true]) := by
  cases h : dictGet s.peers p with
  | none => left; simp [consume, h, engineCalls]
  | some peer =>
    cases h2 : dictGet s.rooms peer.roomName with
    | none => left; simp [consume, h, h2, engineCalls]
    | some room =>
      cases h3 : s.transports.find? (fun t => t.consumer && decide (t.transport = tid)) with
      | none => left; simp [consume, h, h2, h3, engineCalls]
      | some td =>
        cases can with
        | none => right; left; exact ⟨room.router, by simp [consume, h, h2, h3, engineCalls]⟩
        | some b =>
          cases b with
          | false =>
            right; left; exact ⟨room.router, by simp [consume, h, h2, h3, engineCalls]⟩
          | true =>
            cases created with
            | none =>
              right; right
              exact ⟨room.router, td, by simp [h], rfl,
                by simp [consume, h, h2, h3, engineCalls]⟩
            | some c =>
              right; right
              exact ⟨room.router, td, by simp [h], rfl,
                by simp [consume, h, h2, h3, addConsumer, engineCalls]⟩

theorem consumerResume_engineCalls (s : State) (cid : ConsumerId) :
    engineCalls (consumerResume s cid).2 = [] ∨
    ∃ cd, s.consumers.find? (fun c => decide (c.consumer = cid)) = some cd ∧
      engineCalls (consumerResume s cid).2 = [EngineCall.resume cd.consumer] := by
  cases h : s.consumers.find? (fun c => decide (c.consumer = cid)) with
  | none => left; simp [consumerResume, h, engineCalls]
  | some cd => right; exact ⟨cd, rfl, by simp [consumerResume, h, engineCalls]⟩

theorem transportRecvConnect_engineCalls (s : State) (tid : TransportId) :
    engineCalls (transportRecvConnect s tid).2 = [] ∨
    ∃ td, s.transports.find? (fun t => t.consumer && decide (t.transport = tid)) = some td ∧
      engineCalls (transportRecvConnect s tid).2 = [EngineCall.connect td.transport] := by
  cases h : s.transports.find? (fun t => t.consumer && decide (t.transport = tid)) with
  | none => left; simp [transportRecvConnect, h, engineCalls]
  | some td => right; exact ⟨td, rfl, by simp [transportRecvConnect, h, engineCalls]⟩

/-! ## Paused consumers and the resume request -/

theorem find?_consuming_transport (s : State) (tid : TransportId) (td : TransportData)
    (h : s.transports.find? (fun t => t.consumer && decide (t.transport = tid)) = some td) :
    td ∈ s.transports ∧ td.consumer = true ∧ td.transport = tid := by
  have h1 := List.mem_of_find?_eq_some h
  have h2 := List.find?_some h
  simp only [Bool.and_eq_true, decide_eq_true_eq] at h2
  exact ⟨h1, h2.1, h2.2⟩

theorem find?_consumer (s : State) (cid : ConsumerId) (cd : ConsumerData)
    (h : s.consumers.find? (fun c => decide (c.consumer = cid)) = some cd) :
    cd ∈ s.consumers ∧ cd.consumer = cid := by
  have h1 := List.mem_of_find?_eq_some h
  have h2 := List.find?_some h
  simp only [decide_eq_true_eq] at h2
  exact ⟨h1, h2⟩

theorem step_engineCalls_resume (s : State) (e : Event) (c : ConsumerId)
    (h : EngineCall.resume c ∈ engineCalls (step s e).2) : ∃ q, e = Event.consumerResume q c := by
  cases e with
  | joinRoom p r created =>
    rcases joinRoom_engineCalls s p r created with h1 | h1 <;>
      simp [step, h1] at h
  | createWebRtcTransport p f created =>
    rcases createWebRtcTransport_engineCalls s p f created with h1 | ⟨router, h1⟩ <;>
      simp [step, h1] at h
  | transportConnect p =>
    simp only [step, transportConnect] at h
    split at h <;> simp [engineCalls] at h
  | transportProduce p created =>
    rcases transportProduce_engineCalls s p created with h1 | ⟨t, h1⟩ <;>
      simp [step, h1] at h
  | transportRecvConnect p t =>
    rcases transportRecvConnect_engineCalls s t with h1 | ⟨td, -, h1⟩ <;>
      simp [step, h1] at h
  | consume p pid tid can created =>
    rcases consume_engineCalls s p pid tid can created with h1 | ⟨router, h1⟩ |
      ⟨router, td, -, -, h1⟩ <;> simp [step, h1] at h
  | consumerResume p cid =>
    rcases consumerResume_engineCalls s cid with h1 | ⟨cd, hf, h1⟩
    · simp [step, h1] at h
    · simp only [step, h1, List.mem_singleton, EngineCall.resume.injEq] at h
      exact ⟨p, by rw [h, (find?_consumer s cid cd hf).2]⟩
  | getProducers p =>
    simp only [step, getProducers] at h
    split at h <;> simp [engineCalls] at h
  | disconnect p =>
    obtain ⟨cs, xs, ts, h1⟩ := cleanupPeer_engineCalls s p
    simp [step, h1] at h
  | producerclose l =>
    simp only [step] at h
    split at h <;> simp [producercloseHandler, engineCalls] at h

theorem step_engineCalls_consume (s : State) (e : Event) (t : TransportId) (pid : ProducerId)
    (b : Bool) (h : EngineCall.consume t pid b ∈ engineCalls (step s e).2) :
    b = true ∧ ∃ q can created, e = Event.consume q pid t can created := by
  cases e with
  | joinRoom p r created =>
    rcases joinRoom_engineCalls s p r created with h1 | h1 <;>
      simp [step, h1] at h
  | createWebRtcTransport p f created =>
    rcases createWebRtcTransport_engineCalls s p f created with h1 | ⟨router, h1⟩ <;>
      simp [step, h1] at h
  | transportConnect p =>
    simp only [step, transportConnect] at h
    split at h <;> simp [engineCalls] at h
  | transportProduce p created =>
    rcases transportProduce_engineCalls s p created with h1 | ⟨t, h1⟩ <;>
      simp [step, h1] at h
  | transportRecvConnect p t =>
    rcases transportRecvConnect_engineCalls s t with h1 | ⟨td, -, h1⟩ <;>
      simp [step, h1] at h
  | consume p pid1 tid can created =>
    rcases consume_engineCalls s p pid1 tid can created with h1 | ⟨router, h1⟩ |
      ⟨router, td, -, hf, h1⟩
    · simp [step, h1] at h
    · simp [step, h1] at h
    · simp only [step, h1, List.mem_cons, List.mem_singleton, EngineCall.consume.injEq,
        List.mem_nil_iff, or_false, false_or, reduceCtorEq] at h
      obtain ⟨ht, hpid, hb⟩ := h
      refine ⟨hb, p, can, created, ?_⟩
      rw [hpid, ht, (find?_consuming_transport s tid td hf).2.2]
  | consumerResume p cid =>
    rcases consumerResume_engineCalls s cid with h1 | ⟨cd, hf, h1⟩ <;>
      simp [step, h1] at h
  | getProducers p =>
    simp only [step, getProducers] at h
    split at h <;> simp [engineCalls] at h
  | disconnect p =>
    obtain ⟨cs, xs, ts, h1⟩ := cleanupPeer_engineCalls s p
    simp [step, h1] at h
  | producerclose l =>
    simp only [step] at h
    split at h <;> simp [producercloseHandler, engineCalls] at h

theorem consume_recorded (s : State) (p : SocketId) (pid : ProducerId) (tid : TransportId)
    (can : Option Bool) (created : Option ConsumerId) :
    (consume s p pid tid can created).1 = s ∨
    ∃ (peer : Peer) (c : ConsumerId), created = some c ∧
      (consume s p pid tid can created).1.consumers = s.consumers ++ [⟨p, c, peer.roomName⟩] ∧
      EngineCall.consume tid pid true ∈ engineCalls (consume s p pid tid can created).2 := by
  cases h : dictGet s.peers p with
  | none => left; simp [consume, h]
  | some peer =>
    cases h2 : dictGet s.rooms peer.roomName with
    | none => left; simp [consume, h, h2]
    | some room =>
      cases h3 : s.transports.find? (fun t => t.consumer && decide (t.transport = tid)) with
      | none => left; simp [consume, h, h2, h3]
      | some td =>
        cases can with
        | none => left; simp [consume, h, h2, h3]
        | some b =>
          cases b with
          | false => left; simp [consume, h, h2, h3]
          | true =>
            cases created with
            | none => left; simp [consume, h, h2, h3]
            | some c =>
              right
              have htd := (find?_consuming_transport s tid td h3).2.2
              exact ⟨peer, c, rfl, by simp [consume, h, h2, h3, addConsumer],
                by simp [consume, h, h2, h3, addConsumer, engineCalls, htd]⟩

theorem step_new_consumer (s : State) (e : Event) (cd : ConsumerData)
    (hnew : cd ∈ (step s e).1.consumers) (hold : cd ∉ s.consumers) :
    ∃ pid tid can, e = Event.consume cd.socketId pid tid can (some cd.consumer) ∧
      EngineCall.consume tid pid true ∈ engineCalls (step s e).2 := by
  cases e with
  | consume p pid tid can created =>
    rcases consume_recorded s p pid tid can created with h | ⟨peer, c, hc, hcons, hcall⟩
    · simp only [step] at hnew
      rw [h] at hnew
      exact absurd hnew hold
    · simp only [step] at hnew
      rw [hcons, List.mem_append, List.mem_singleton] at hnew
      rcases hnew with hnew | rfl
      · exact absurd hnew hold
      · exact ⟨pid, tid, can, by rw [hc], hcall⟩
  | _ =>
    exfalso
    apply hold
    rcases step_fst s _ with hs | ⟨p, r1, created, router, he, hs⟩ | ⟨p, peer, he, hp, hs⟩ |
      ⟨p, c, t, peer, he, hp, hs⟩ | ⟨p, x, peer, he, hp, hs⟩ |
      ⟨p, pid, tid, can, c, peer, he, hp, hs⟩ | ⟨l, he, hs⟩
    · rw [hs] at hnew; exact hnew
    · rw [hs] at hnew; exact hnew
    · rw [hs] at hnew; exact (List.mem_filter.mp hnew).1
    · rw [hs] at hnew; exact hnew
    · rw [hs] at hnew; exact hnew
    · cases he
    · rw [hs] at hnew; exact (List.mem_filter.mp hnew).1

/-- C14: every entry that an event adds to `consumers` is added by a consume request whose
handler called `transport.consume` with `paused: true`; every `transport.consume` call of
any handler has `paused: true`; and `resume()` is called on a consumer only by the handler
of a consumer-resume request that names the id of that consumer. -/
theorem consumers_start_paused_and_resume_on_request (s : State) (e : Event) :
    (∀ cd, cd ∈ (step s e).1.consumers → cd ∉ s.consumers →
      ∃ pid tid can, e = Event.consume cd.socketId pid tid can (some cd.consumer) ∧
        EngineCall.consume tid pid true ∈ engineCalls (step s e).2) ∧
    (∀ t pid b, EngineCall.consume t pid b ∈ engineCalls (step s e).2 → b = true) ∧
    (∀ c, EngineCall.resume c ∈ engineCalls (step s e).2 → ∃ q, e = Event.consumerResume q c) :=
  ⟨fun cd hnew hold => step_new_consumer s e cd hnew hold,
   fun t pid b h => (step_engineCalls_consume s e t pid b h).1,
   fun c h => step_engineCalls_resume s e c h⟩

/-- C14 at a concrete run: connection 2 consumes producer 7 as consumer 9 and later resumes
it. -/
theorem consumers_start_paused_and_resume_on_request_witness :
    ((⟨2, 9, "r"⟩ : ConsumerData) ∈ (step (run initState
        [Event.joinRoom 1 "r" (some 10), Event.joinRoom 2 "r" none,
         Event.createWebRtcTransport 1 false (some 4), Event.transportProduce 1 (some 7),
         Event.createWebRtcTransport 2 true (some 5)])
        (Event.consume 2 7 5 (some true) (some 9))).1.consumers ∧
     (⟨2, 9, "r"⟩ : ConsumerData) ∉ (run initState
        [Event.joinRoom 1 "r" (some 10), Event.joinRoom 2 "r" none,
         Event.createWebRtcTransport 1 false (some 4), Event.transportProduce 1 (some 7),
         Event.createWebRtcTransport 2 true (some 5)]).consumers) ∧
    ∃ pid tid can,
      Event.consume 2 7 5 (some true) (some 9) = Event.consume 2 pid tid can (some 9) ∧
      EngineCall.consume tid pid true ∈ engineCalls (step (run initState
        [Event.joinRoom 1 "r" (some 10), Event.joinRoom 2 "r" none,
         Event.createWebRtcTransport 1 false (some 4), Event.transportProduce 1 (some 7),
         Event.createWebRtcTransport 2 true (some 5)])
        (Event.consume 2 7 5 (some true) (some 9))).2 :=
  ⟨⟨by decide, by decide⟩,
   (consumers_start_paused_and_resume_on_request (run initState
        [Event.joinRoom 1 "r" (some 10), Event.joinRoom 2 "r" none,
         Event.createWebRtcTransport 1 false (some 4), Event.transportProduce 1 (some 7),
         Event.createWebRtcTransport 2 true (some 5)])
      (Event.consume 2 7 5 (some true) (some 9))).1 ⟨2, 9, "r"⟩ (by decide) (by decide)⟩

/-! ## Which handle a request acts on -/

/-- C16 as stated fails: connection 1 produces 7 and connection 2 owns the consuming
transport 5; connection 1 names transport 5 in a transport-recv-connect request and in a
consume request.  Both engine calls are made on transport 5, whose only registry entry has
socketId 2. -/
theorem request_acts_on_foreign_transport :
    (∀ t ∈ (run initState
        [Event.joinRoom 1 "r" (some 10), Event.joinRoom 2 "r" none,
         Event.createWebRtcTransport 1 false (some 4), Event.transportProduce 1 (some 7),
         Event.createWebRtcTransport 2 true (some 5)]).transports,
      t.transport = 5 → t.socketId ≠ 1) ∧
    engineCalls (step (run initState
        [Event.joinRoom 1 "r" (some 10), Event.joinRoom 2 "r" none,
         Event.createWebRtcTransport 1 false (some 4), Event.transportProduce 1 (some 7),
         Event.createWebRtcTransport 2 true (some 5)])
        (Event.transportRecvConnect 1 5)).2 = [EngineCall.connect 5] ∧
    engineCalls (step (run initState
        [Event.joinRoom 1 "r" (some 10), Event.joinRoom 2 "r" none,
         Event.createWebRtcTransport 1 false (some 4), Event.transportProduce 1 (some 7),
         Event.createWebRtcTransport 2 true (some 5)])
        (Event.consume 1 7 5 (some true) (some 9))).2 =
      [EngineCall.canConsume 10 7, EngineCall.consume 5 7 true] := by
  decide

/-- C16, amended: the engine call of a transport-recv-connect or consume request is made on
the transport whose id the request names, which is the handle of a `transports` entry with
a truthy consumer flag, and the `resume()` of a consumer-resume request on the consumer
whose id the request names, which is the handle of a `consumers` entry; only consume
requires the requester to be a key of `peers`, and no handler compares the socketId of the
entry with the requester. -/
theorem engine_call_on_named_entry (s : State) (q : SocketId) :
    (∀ tid h, EngineCall.connect h ∈
        engineCalls (step s (Event.transportRecvConnect q tid)).2 →
      h = tid ∧ ∃ t ∈ s.transports, t.consumer = true ∧ t.transport = tid) ∧
    (∀ pid tid can created h pid1 b, EngineCall.consume h pid1 b ∈
        engineCalls (step s (Event.consume q pid tid can created)).2 →
      h = tid ∧ (dictGet s.peers q).isSome = true ∧
        ∃ t ∈ s.transports, t.consumer = true ∧ t.transport = tid) ∧
    (∀ cid h, EngineCall.resume h ∈ engineCalls (step s (Event.consumerResume q cid)).2 →
      h = cid ∧ ∃ c ∈ s.consumers, c.consumer = cid) := by
  refine ⟨fun tid h hm => ?_, fun pid tid can created h pid1 b hm => ?_, fun cid h hm => ?_⟩
  · rcases transportRecvConnect_engineCalls s tid with h1 | ⟨td, hf, h1⟩
    · simp [step, h1] at hm
    · obtain ⟨hmem, hflag, hid⟩ := find?_consuming_transport s tid td hf
      simp only [step, h1, List.mem_singleton, EngineCall.connect.injEq] at hm
      exact ⟨by rw [hm, hid], td, hmem, hflag, hid⟩
  · rcases consume_engineCalls s q pid tid can created with h1 | ⟨router, h1⟩ |
      ⟨router, td, hreg, hf, h1⟩
    · simp [step, h1] at hm
    · simp [step, h1] at hm
    · obtain ⟨hmem, hflag, hid⟩ := find?_consuming_transport s tid td hf
      simp only [step, h1, List.mem_cons, List.mem_singleton, EngineCall.consume.injEq,
        List.mem_nil_iff, or_false, false_or, reduceCtorEq] at hm
      exact ⟨by rw [hm.1, hid], hreg, td, hmem, hflag, hid⟩
  · rcases consumerResume_engineCalls s cid with h1 | ⟨cd, hf, h1⟩
    · simp [step, h1] at hm
    · obtain ⟨hmem, hid⟩ := find?_consumer s cid cd hf
      simp only [step, h1, List.mem_singleton, EngineCall.resume.injEq] at hm
      exact ⟨by rw [hm, hid], cd, hmem, hid⟩

/-- C16, amended, at the state of the counterexample: the connect requested by connection 1
is made on transport 5, an entry of connection 2. -/
theorem engine_call_on_named_entry_witness :
    EngineCall.connect 5 ∈ engineCalls (step (run initState
        [Event.joinRoom 1 "r" (some 10), Event.joinRoom 2 "r" none,
         Event.createWebRtcTransport 2 true (some 5)])
        (Event.transportRecvConnect 1 5)).2 ∧
    ((5 : TransportId) = 5 ∧ ∃ t ∈ (run initState
        [Event.joinRoom 1 "r" (some 10), Event.joinRoom 2 "r" none,
         Event.createWebRtcTransport 2 true (some 5)]).transports,
      t.consumer = true ∧ t.transport = 5) :=
  ⟨by decide,
   (engine_call_on_named_entry (run initState
        [Event.joinRoom 1 "r" (some 10), Event.joinRoom 2 "r" none,
         Event.createWebRtcTransport 2 true (some 5)]) 1).1 5 5 (by decide)⟩

/-! ## What cleanupPeer removes and closes -/

/-- C13 as stated fails: connection 1 joins the room with the empty name; `cleanupPeer(1)`
skips the membership update because `peer.roomName` is falsy, so 1 is still listed in
`rooms[""].peers` afterwards. -/
theorem cleanupPeer_keeps_member_of_empty_name :
    (dictGet (run initState [Event.joinRoom 1 "" (some 10)]).peers 1).map Peer.roomName
      = some "" ∧
    1 ∈ members (cleanupPeer (run initState [Event.joinRoom 1 "" (some 10)]) 1).1 "" := by
  decide

/-- C13, amended: for a registered peer `p`, after `cleanupPeer(p)` the id `p` is no longer
a key of `peers`; and when the room name in the peer state of `p` is truthy (not the empty
string), `p` does not occur in the membership list of that room, however often it occurred
there before. -/
theorem cleanupPeer_removes_peer (s : State) (p : SocketId) (peer : Peer)
    (hp : dictGet s.peers p = some peer) :
    dictGet (cleanupPeer s p).1.peers p = none ∧
    (truthy peer.roomName = true → p ∉ members (cleanupPeer s p).1 peer.roomName) := by
  rw [cleanupPeer_fst_of_some s p peer hp]
  refine ⟨dictGet_dictDelete_self _ _, fun htr => ?_⟩
  cases hroom : dictGet s.rooms peer.roomName with
  | none => simp [members, htr, hroom]
  | some room =>
    simp [members, htr, hroom, dictGet_dictSet_self]

/-- C13, amended, at a concrete state: connection 1 joined room "r" twice and is listed
twice; after the cleanup it is not listed at all. -/
theorem cleanupPeer_removes_peer_witness :
    (dictGet (run initState
        [Event.joinRoom 1 "r" (some 10), Event.joinRoom 1 "r" none]).peers 1
      = some ⟨"r", [], [], []⟩ ∧
     members (run initState
        [Event.joinRoom 1 "r" (some 10), Event.joinRoom 1 "r" none]) "r" = [1, 1] ∧
     truthy "r" = true) ∧
    (dictGet (cleanupPeer (run initState
        [Event.joinRoom 1 "r" (some 10), Event.joinRoom 1 "r" none]) 1).1.peers 1 = none ∧
     1 ∉ members (cleanupPeer (run initState
        [Event.joinRoom 1 "r" (some 10), Event.joinRoom 1 "r" none]) 1).1 "r") :=
  ⟨⟨by decide, by decide, by decide⟩,
   ⟨(cleanupPeer_removes_peer (run initState
        [Event.joinRoom 1 "r" (some 10), Event.joinRoom 1 "r" none]) 1 ⟨"r", [], [], []⟩
        (by decide)).1,
    (cleanupPeer_removes_peer (run initState
        [Event.joinRoom 1 "r" (some 10), Event.joinRoom 1 "r" none]) 1 ⟨"r", [], [], []⟩
        (by decide)).2 (by decide)⟩⟩

theorem mem_filterMap_find? {α : Type} (l : List α) (key : α → Nat) (ids : List Nat) (id : Nat)
    (hid : id ∈ ids) (a : α) (ha : a ∈ l) (hkey : key a = id) :
    id ∈ ids.filterMap (fun i => (l.find? (fun b => decide (key b = i))).map key) := by
  rw [List.mem_filterMap]
  refine ⟨id, hid, ?_⟩
  cases hf : l.find? (fun b => decide (key b = id)) with
  | none =>
    have := List.find?_eq_none.mp hf a ha
    simp [hkey] at this
  | some b =>
    have := List.find?_some hf
    simp only [decide_eq_true_eq] at this
    simp [this]

theorem cleanupPeer_engineCalls_of_some (s : State) (p : SocketId) (peer : Peer)
    (hp : dictGet s.peers p = some peer) :
    engineCalls (cleanupPeer s p).2 =
      (peer.consumers.filterMap (fun id =>
        (s.consumers.find? (fun c => decide (c.consumer = id))).map
          (fun c => c.consumer))).map EngineCall.closeConsumer ++
      (peer.producers.filterMap (fun id =>
        (s.producers.find? (fun x => decide (x.producer = id))).map
          (fun x => x.producer))).map EngineCall.closeProducer ++
      (peer.transports.filterMap (fun id =>
        (s.transports.find? (fun t => decide (t.transport = id))).map
          (fun t => t.transport))).map EngineCall.closeTransport := by
  simp only [cleanupPeer, hp, engineCalls_append, engineCalls_closeConsumers,
    engineCalls_closeProducers, engineCalls_closeTransports]

/-- C11 at the failing input: connection 1 joins room "r", creates transport 4 and sends
joinRoom again, which empties `peers[1].transports`.  `cleanupPeer(1)`, whose loops are
commented "Close all consumers", "Close all producers", "Close all transports", then walks
empty id lists and makes no engine call, although the `transports` entry of transport 4
has socketId 1; the entry is dropped from the array with its handle left open. -/
theorem cleanupPeer_after_rejoin_closes_nothing :
    (dictGet (run initState
        [Event.joinRoom 1 "r" (some 10), Event.createWebRtcTransport 1 false (some 4),
         Event.joinRoom 1 "r" none]).peers 1).isSome = true ∧
    ¬ (∀ t ∈ (run initState
        [Event.joinRoom 1 "r" (some 10), Event.createWebRtcTransport 1 false (some 4),
         Event.joinRoom 1 "r" none]).transports,
      t.socketId = 1 → EngineCall.closeTransport t.transport ∈
        engineCalls (cleanupPeer (run initState
          [Event.joinRoom 1 "r" (some 10), Event.createWebRtcTransport 1 false (some 4),
           Event.joinRoom 1 "r" none]) 1).2) := by
  decide

/-! ## Room membership lists -/

/-- C17 as stated fails: connection 1 joins room "a", then room "b", and disconnects.
`cleanupPeer` only filters the membership of "b", the room its peer record names, so
`rooms["a"].peers` still lists 1, which is no longer a key of `peers`. -/
theorem room_lists_departed_connection :
    ¬ RoomsConsistent (run initState
      [Event.joinRoom 1 "a" (some 10), Event.joinRoom 1 "b" (some 11), Event.disconnect 1]) := by
  intro h
  obtain ⟨peer, hp, -⟩ := (h "a" ⟨10, [1]⟩ (by decide)).2 1 (by simp)
  have e : dictGet (run initState
      [Event.joinRoom 1 "a" (some 10), Event.joinRoom 1 "b" (some 11),
       Event.disconnect 1]).peers 1 = none := by decide
  rw [e] at hp
  cases hp

/-! ## The id lists of a peer and the entries behind them -/

theorem closedConsumers_cons (e : Event) (es : List Event) :
    closedConsumers (e :: es) = closedConsumers [e] ++ closedConsumers es := by
  cases e <;> rfl

theorem backed_mono (s : State) (K K1 : List ConsumerId) (h : Backed s K)
    (hsub : ∀ id ∈ K, id ∈ K1) : Backed s K1 := by
  intro p peer hp
  obtain ⟨h1, h2, h3⟩ := h p peer hp
  refine ⟨h1, h2, fun id hid => ?_⟩
  rcases h3 id hid with hc | hk
  · exact Or.inl hc
  · exact Or.inr (hsub id hk)

theorem backed_init : Backed initState [] := by
  intro p peer h
  simp [initState, dictGet] at h

theorem step_backed (s : State) (e : Event) (K : List ConsumerId) (h : Backed s K) :
    Backed (step s e).1 (K ++ closedConsumers [e]) := by
  have hK : ∀ id ∈ K, id ∈ K ++ closedConsumers [e] := fun id hid => List.mem_append_left _ hid
  rcases step_fst s e with hs | ⟨p, r1, created, router, -, hs⟩ | ⟨p, peer, -, hp, hs⟩ |
    ⟨p, c, t, peer, -, hp, hs⟩ | ⟨p, x, peer, -, hp, hs⟩ |
    ⟨p, pid, tid, can, c, peer, -, hp, hs⟩ | ⟨l, he, hs⟩
  · rw [hs]; exact backed_mono s _ _ h hK
  · rw [hs]
    intro q pr hq
    simp only at hq
    by_cases hqp : q = p
    · subst hqp
      rw [dictGet_dictSet_self] at hq
      cases hq
      simp
    · rw [dictGet_dictSet_of_ne _ _ _ _ hqp] at hq
      exact backed_mono s _ _ h hK q pr hq
  · rw [hs]
    intro q pr hq
    simp only at hq
    have hqp : q ≠ p := by
      intro hqp
      subst hqp
      rw [dictGet_dictDelete_self] at hq
      cases hq
    rw [dictGet_dictDelete_of_ne _ _ _ hqp] at hq
    obtain ⟨h1, h2, h3⟩ := h q pr hq
    refine ⟨fun id hid => ?_, fun id hid => ?_, fun id hid => ?_⟩
    · obtain ⟨t, ht, hts, hti⟩ := h1 id hid
      exact ⟨t, List.mem_filter.mpr ⟨ht, by simp [hts, hqp]⟩, hts, hti⟩
    · obtain ⟨t, ht, hts, hti⟩ := h2 id hid
      exact ⟨t, List.mem_filter.mpr ⟨ht, by simp [hts, hqp]⟩, hts, hti⟩
    · rcases h3 id hid with ⟨t, ht, hts, hti⟩ | hk
      · exact Or.inl ⟨t, List.mem_filter.mpr ⟨ht, by simp [hts, hqp]⟩, hts, hti⟩
      · exact Or.inr (hK id hk)
  · rw [hs]
    intro q pr hq
    simp only at hq
    obtain ⟨g1, g2, g3⟩ := h p peer hp
    by_cases hqp : q = p
    · subst hqp
      rw [dictGet_dictSet_self] at hq
      cases hq
      refine ⟨fun id hid => ?_, g2, fun id hid => ?_⟩
      · simp only [List.mem_append, List.mem_singleton] at hid
        rcases hid with hid | rfl
        · obtain ⟨t0, ht0, hts, hti⟩ := g1 id hid
          exact ⟨t0, List.mem_append_left _ ht0, hts, hti⟩
        · exact ⟨⟨q, id, peer.roomName, c⟩, by simp, rfl, rfl⟩
      · rcases g3 id hid with hc | hk
        · exact Or.inl hc
        · exact Or.inr (hK id hk)
    · rw [dictGet_dictSet_of_ne _ _ _ _ hqp] at hq
      obtain ⟨h1, h2, h3⟩ := h q pr hq
      refine ⟨fun id hid => ?_, h2, fun id hid => ?_⟩
      · obtain ⟨t0, ht0, hts, hti⟩ := h1 id hid
        exact ⟨t0, List.mem_append_left _ ht0, hts, hti⟩
      · rcases h3 id hid with hc | hk
        · exact Or.inl hc
        · exact Or.inr (hK id hk)
  · rw [hs]
    intro q pr hq
    simp only at hq
    obtain ⟨g1, g2, g3⟩ := h p peer hp
    by_cases hqp : q = p
    · subst hqp
      rw [dictGet_dictSet_self] at hq
      cases hq
      refine ⟨g1, fun id hid => ?_, fun id hid => ?_⟩
      · simp only [List.mem_append, List.mem_singleton] at hid
        rcases hid with hid | rfl
        · obtain ⟨t0, ht0, hts, hti⟩ := g2 id hid
          exact ⟨t0, List.mem_append_left _ ht0, hts, hti⟩
        · exact ⟨⟨q, id, peer.roomName⟩, by simp, rfl, rfl⟩
      · rcases g3 id hid with hc | hk
        · exact Or.inl hc
        · exact Or.inr (hK id hk)
    · rw [dictGet_dictSet_of_ne _ _ _ _ hqp] at hq
      obtain ⟨h1, h2, h3⟩ := h q pr hq
      refine ⟨h1, fun id hid => ?_, fun id hid => ?_⟩
      · obtain ⟨t0, ht0, hts, hti⟩ := h2 id hid
        exact ⟨t0, List.mem_append_left _ ht0, hts, hti⟩
      · rcases h3 id hid with hc | hk
        · exact Or.inl hc
        · exact Or.inr (hK id hk)
  · rw [hs]
    intro q pr hq
    simp only at hq
    obtain ⟨g1, g2, g3⟩ := h p peer hp
    by_cases hqp : q = p
    · subst hqp
      rw [dictGet_dictSet_self] at hq
      cases hq
      refine ⟨g1, g2, fun id hid => ?_⟩
      simp only [List.mem_append, List.mem_singleton] at hid
      rcases hid with hid | rfl
      · rcases g3 id hid with ⟨t0, ht0, hts, hti⟩ | hk
        · exact Or.inl ⟨t0, List.mem_append_left _ ht0, hts, hti⟩
        · exact Or.inr (hK id hk)
      · exact Or.inl ⟨⟨q, id, peer.roomName⟩, by simp, rfl, rfl⟩
    · rw [dictGet_dictSet_of_ne _ _ _ _ hqp] at hq
      obtain ⟨h1, h2, h3⟩ := h q pr hq
      refine ⟨h1, h2, fun id hid => ?_⟩
      rcases h3 id hid with ⟨t0, ht0, hts, hti⟩ | hk
      · exact Or.inl ⟨t0, List.mem_append_left _ ht0, hts, hti⟩
      · exact Or.inr (hK id hk)
  · subst he
    rw [hs]
    intro q pr hq
    simp only at hq
    obtain ⟨h1, h2, h3⟩ := h q pr hq
    refine ⟨h1, h2, fun id hid => ?_⟩
    rcases h3 id hid with ⟨c0, hc0, hcs, hci⟩ | hk
    · by_cases hcl : c0.consumer = l.consumer
      · right
        simp only [closedConsumers, List.mem_append, List.mem_singleton]
        exact Or.inr (by rw [← hci, hcl])
      · exact Or.inl ⟨c0, List.mem_filter.mpr ⟨hc0, by simp [hcl]⟩, hcs, hci⟩
    · exact Or.inr (hK id hk)

theorem run_backed (evs : List Event) (s : State) (K : List ConsumerId) (h : Backed s K) :
    Backed (run s evs) (K ++ closedConsumers evs) := by
  induction evs generalizing s K with
  | nil => simpa [closedConsumers, run] using h
  | cons e es ih =>
    have := ih (step s e).1 (K ++ closedConsumers [e]) (step_backed s e K h)
    rw [closedConsumers_cons e es, ← List.append_assoc]
    exact this

/-- C18 as stated fails: connection 2 consumes producer 7 of connection 1 as consumer 9,
connection 1 disconnects and the engine reports the closure to consumer 9.  The handler
removes the entry from `consumers` and leaves 9 in `peers[2].consumers`. -/
theorem producerclose_leaves_id_in_list :
    ¬ Backed (run initState
      [Event.joinRoom 1 "r" (some 10), Event.joinRoom 2 "r" none,
       Event.createWebRtcTransport 1 false (some 4), Event.transportProduce 1 (some 7),
       Event.createWebRtcTransport 2 true (some 5),
       Event.consume 2 7 5 (some true) (some 9), Event.disconnect 1,
       Event.producerclose ⟨9, 2, 7⟩]) [] := by
  intro h
  have hc : (run initState
      [Event.joinRoom 1 "r" (some 10), Event.joinRoom 2 "r" none,
       Event.createWebRtcTransport 1 false (some 4), Event.transportProduce 1 (some 7),
       Event.createWebRtcTransport 2 true (some 5),
       Event.consume 2 7 5 (some true) (some 9), Event.disconnect 1,
       Event.producerclose ⟨9, 2, 7⟩]).consumers = [] := by decide
  rcases (h 2 ⟨"r", [5], [], [9]⟩ (by decide)).2.2 9 (by simp) with ⟨c, hmem, -, -⟩ | hk
  · rw [hc] at hmem
    simp at hmem
  · simp at hk

/-- C18, amended: in every reachable state every id in `peers[p].transports` and
`peers[p].producers` is the handle id of an entry of the matching array whose socketId is
`p`, and so is every id in `peers[p].consumers` unless a producerclose event for that
consumer id has occurred; the producerclose handler removes the `consumers` entry and
leaves the id in the list. -/
theorem id_lists_backed_by_entries (evs : List Event) :
    Backed (run initState evs) (closedConsumers evs) := by
  have := run_backed evs initState [] backed_init
  simpa using this

/-- C18, amended, at the run of the counterexample: transport 5 of connection 2 is backed
by its entry, and consumer 9 is the one whose producerclose event has occurred. -/
theorem id_lists_backed_by_entries_witness :
    dictGet (run initState
      [Event.joinRoom 1 "r" (some 10), Event.joinRoom 2 "r" none,
       Event.createWebRtcTransport 1 false (some 4), Event.transportProduce 1 (some 7),
       Event.createWebRtcTransport 2 true (some 5),
       Event.consume 2 7 5 (some true) (some 9), Event.disconnect 1,
       Event.producerclose ⟨9, 2, 7⟩]).peers 2 = some ⟨"r", [5], [], [9]⟩ ∧
    ((∀ id ∈ [5], ∃ t ∈ (run initState
      [Event.joinRoom 1 "r" (some 10), Event.joinRoom 2 "r" none,
       Event.createWebRtcTransport 1 false (some 4), Event.transportProduce 1 (some 7),
       Event.createWebRtcTransport 2 true (some 5),
       Event.consume 2 7 5 (some true) (some 9), Event.disconnect 1,
       Event.producerclose ⟨9, 2, 7⟩]).transports, t.socketId = 2 ∧ t.transport = id) ∧
     (∀ id ∈ ([] : List ProducerId), ∃ x ∈ (run initState
      [Event.joinRoom 1 "r" (some 10), Event.joinRoom 2 "r" none,
       Event.createWebRtcTransport 1 false (some 4), Event.transportProduce 1 (some 7),
       Event.createWebRtcTransport 2 true (some 5),
       Event.consume 2 7 5 (some true) (some 9), Event.disconnect 1,
       Event.producerclose ⟨9, 2, 7⟩]).producers, x.socketId = 2 ∧ x.producer = id) ∧
     (∀ id ∈ [9], (∃ c ∈ (run initState
      [Event.joinRoom 1 "r" (some 10), Event.joinRoom 2 "r" none,
       Event.createWebRtcTransport 1 false (some 4), Event.transportProduce 1 (some 7),
       Event.createWebRtcTransport 2 true (some 5),
       Event.consume 2 7 5 (some true) (some 9), Event.disconnect 1,
       Event.producerclose ⟨9, 2, 7⟩]).consumers, c.socketId = 2 ∧ c.consumer = id) ∨
       id ∈ closedConsumers
      [Event.joinRoom 1 "r" (some 10), Event.joinRoom 2 "r" none,
       Event.createWebRtcTransport 1 false (some 4), Event.transportProduce 1 (some 7),
       Event.createWebRtcTransport 2 true (some 5),
       Event.consume 2 7 5 (some true) (some 9), Event.disconnect 1,
       Event.producerclose ⟨9, 2, 7⟩])) :=
  ⟨by decide,
   id_lists_backed_by_entries
      [Event.joinRoom 1 "r" (some 10), Event.joinRoom 2 "r" none,
       Event.createWebRtcTransport 1 false (some 4), Event.transportProduce 1 (some 7),
       Event.createWebRtcTransport 2 true (some 5),
       Event.consume 2 7 5 (some true) (some 9), Event.disconnect 1,
       Event.producerclose ⟨9, 2, 7⟩] 2 ⟨"r", [5], [], [9]⟩ (by decide)⟩

theorem asyncStep_failed_keeps_state (a : AsyncState) (p : SocketId) (r : RoomName) :
    (asyncStep a (AsyncEvent.createRouterSettled p r none)).1.state = a.state := by
  simp only [asyncStep]
  split <;> rfl

/-! ## One turn of the event loop -/

theorem act_moves (a : Server) (x : Action) : Moves a x (act a x).1 := by
  cases x with
  | joinRoom p r =>
    cases h : dictGet a.state.rooms r with
    | some room =>
      have e : (act a (Action.joinRoom p r)).1 =
          { a with
            state := { a.state with
              rooms := dictSet a.state.rooms r ⟨room.router, room.peers ++ [p]⟩ }
            pending := a.pending ++ [Suspended.joinTail p r room.router] } := by
        simp [act, h, createRoomStore]
      rw [e]
      exact Moves.storeExisting a p r room h
    | none =>
      by_cases hk : r ∈ inheritedKeys
      · have e : (act a (Action.joinRoom p r)).1 = a := by simp [act, h, hk]
        rw [e]
        exact Moves.same a _
      · have e : (act a (Action.joinRoom p r)).1 =
            { a with pending := a.pending ++ [Suspended.createRouter p r] } := by
          simp [act, h, hk]
        rw [e]
        exact Moves.parkRouter a p r h hk
  | createWebRtcTransport p c =>
    cases h : dictGet a.state.peers p with
    | none =>
      have e : (act a (Action.createWebRtcTransport p c)).1 = a := by
        simp [act, createTransportHead, h]
      rw [e]
      exact Moves.same a _
    | some peer =>
      cases h2 : dictGet a.state.rooms peer.roomName with
      | none =>
        have e : (act a (Action.createWebRtcTransport p c)).1 = a := by
          simp [act, createTransportHead, h, h2]
        rw [e]
        exact Moves.same a _
      | some room =>
        have e : (act a (Action.createWebRtcTransport p c)).1 =
            { a with pending := a.pending ++ [Suspended.createTransport p c peer.roomName] } := by
          simp [act, createTransportHead, h, h2]
        rw [e]
        exact Moves.parkTransport a p c peer h
  | transportConnect p => exact Moves.same a _
  | transportProduce p =>
    cases h : getTransport a.state p with
    | none =>
      have e : (act a (Action.transportProduce p)).1 = a := by
        simp [act, produceHead, h]
      rw [e]
      exact Moves.same a _
    | some tr =>
      have e : (act a (Action.transportProduce p)).1 =
          { a with pending := a.pending ++ [Suspended.produce p tr] } := by
        simp [act, produceHead, h]
      rw [e]
      exact Moves.parkProduce a p tr
  | transportRecvConnect p t => exact Moves.same a _
  | consume p pid tid can =>
    cases h : dictGet a.state.peers p with
    | none =>
      have e : (act a (Action.consume p pid tid can)).1 = a := by
        simp [act, consumeHead, h]
      rw [e]
      exact Moves.same a _
    | some peer =>
      cases h2 : dictGet a.state.rooms peer.roomName with
      | none =>
        have e : (act a (Action.consume p pid tid can)).1 = a := by
          simp [act, consumeHead, h, h2]
        rw [e]
        exact Moves.same a _
      | some room =>
        cases h3 : a.state.transports.find?
            (fun t => t.consumer && decide (t.transport = tid)) with
        | none =>
          have e : (act a (Action.consume p pid tid can)).1 = a := by
            simp [act, consumeHead, h, h2, h3]
          rw [e]
          exact Moves.same a _
        | some td =>
          cases can with
          | none =>
            have e : (act a (Action.consume p pid tid none)).1 = a := by
              simp [act, consumeHead, h, h2, h3]
            rw [e]
            exact Moves.same a _
          | some b =>
            cases b with
            | false =>
              have e : (act a (Action.consume p pid tid (some false))).1 = a := by
                simp [act, consumeHead, h, h2, h3]
              rw [e]
              exact Moves.same a _
            | true =>
              have e : (act a (Action.consume p pid tid (some true))).1 =
                  { a with pending := a.pending ++
                      [Suspended.consume p pid td.transport peer.roomName] } := by
                simp [act, consumeHead, h, h2, h3]
              rw [e]
              exact Moves.parkConsume a p pid tid td.transport (some true) peer h
  | consumerResume p c => exact Moves.same a _
  | getProducers p => exact Moves.same a _
  | disconnect p =>
    cases h : dictGet a.state.peers p with
    | none =>
      have e : (act a (Action.disconnect p)).1 = { a with gone := p :: a.gone } := by
        simp [act, cleanupPeer_of_none a.state p h]
      rw [e]
      exact Moves.absent a p h
    | some peer =>
      have e := cleanupPeer_fst_of_some a.state p peer h
      simp only [act]
      rw [e]
      exact Moves.leave a p peer h
  | producerclose l =>
    by_cases h : l ∈ a.state.listeners
    · have e : (act a (Action.producerclose l)).1 =
          { a with state := { a.state with
              consumers := a.state.consumers.filter
                (fun c => decide (c.consumer ≠ l.consumer)) } } := by
        simp [act, h, producercloseHandler]
      rw [e]
      exact Moves.close a l
    · have e : (act a (Action.producerclose l)).1 = a := by simp [act, h]
      rw [e]
      exact Moves.same a _
  | settle task o =>
    by_cases hmem : task ∈ a.pending
    · cases task with
      | createRouter p r =>
        cases o with
        | none =>
          have e : (act a (Action.settle (Suspended.createRouter p r) none)).1 =
              { a with pending := a.pending.erase (Suspended.createRouter p r) } := by
            simp [act, hmem, resume]
          rw [e]
          exact Moves.dropped a _ _ hmem (fun _ _ _ hc => by cases hc)
        | some router =>
          have e : (act a (Action.settle (Suspended.createRouter p r) (some router))).1 =
              { a with
                state := { a.state with rooms := dictSet a.state.rooms r ⟨router, [p]⟩ }
                pending := a.pending.erase (Suspended.createRouter p r)
                  ++ [Suspended.joinTail p r router] } := by
            simp [act, hmem, resume, createRoomStore]
          rw [e]
          exact Moves.routerDone a p r router hmem
      | joinTail p r router =>
        have e : (act a (Action.settle (Suspended.joinTail p r router) o)).1 =
            { a with
              state := { a.state with peers := dictSet a.state.peers p ⟨r, [], [], []⟩ }
              pending := a.pending.erase (Suspended.joinTail p r router) } := by
          simp only [act, hmem, if_true, resume, joinRoomRegister]
          split <;> rfl
        rw [e]
        exact Moves.registered a p r router o hmem
      | createTransport p c rn =>
        cases o with
        | none =>
          have e : (act a (Action.settle (Suspended.createTransport p c rn) none)).1 =
              { a with pending := a.pending.erase (Suspended.createTransport p c rn) } := by
            simp [act, hmem, resume, createTransportTail]
          rw [e]
          exact Moves.dropped a _ _ hmem (fun _ _ _ hc => by cases hc)
        | some t =>
          cases h : dictGet a.state.peers p with
          | none =>
            have e : (act a (Action.settle (Suspended.createTransport p c rn) (some t))).1 =
                { a with
                  state := { a.state with
                    transports := a.state.transports ++ [⟨p, t, rn, c⟩] }
                  pending := a.pending.erase (Suspended.createTransport p c rn) } := by
              simp [act, hmem, resume, createTransportTail, addTransport, h]
            rw [e]
            exact Moves.transportOrphaned a p c rn t hmem h
          | some peer =>
            have e : (act a (Action.settle (Suspended.createTransport p c rn) (some t))).1 =
                { a with
                  state := { a.state with
                    transports := a.state.transports ++ [⟨p, t, rn, c⟩]
                    peers := dictSet a.state.peers p
                      { peer with transports := peer.transports ++ [t] } }
                  pending := a.pending.erase (Suspended.createTransport p c rn) } := by
              simp [act, hmem, resume, createTransportTail, addTransport, h]
            rw [e]
            exact Moves.transportAdded a p c rn t peer hmem h
      | produce p tr =>
        cases o with
        | none =>
          have e : (act a (Action.settle (Suspended.produce p tr) none)).1 =
              { a with pending := a.pending.erase (Suspended.produce p tr) } := by
            simp [act, hmem, resume, produceTail]
          rw [e]
          exact Moves.dropped a _ _ hmem (fun _ _ _ hc => by cases hc)
        | some x =>
          cases h : dictGet a.state.peers p with
          | none =>
            have e : (act a (Action.settle (Suspended.produce p tr) (some x))).1 =
                { a with pending := a.pending.erase (Suspended.produce p tr) } := by
              simp [act, hmem, resume, produceTail, h]
            rw [e]
            exact Moves.dropped a _ _ hmem (fun _ _ _ hc => by cases hc)
          | some peer =>
            have e : (act a (Action.settle (Suspended.produce p tr) (some x))).1 =
                { a with
                  state := { a.state with
                    producers := a.state.producers ++ [⟨p, x, peer.roomName⟩]
                    peers := dictSet a.state.peers p
                      { peer with producers := peer.producers ++ [x] } }
                  pending := a.pending.erase (Suspended.produce p tr) } := by
              simp [act, hmem, resume, produceTail, addProducer, h]
            rw [e]
            exact Moves.producerAdded a p tr x peer hmem h
      | consume p pid tr rn =>
        cases o with
        | none =>
          have e : (act a (Action.settle (Suspended.consume p pid tr rn) none)).1 =
              { a with pending := a.pending.erase (Suspended.consume p pid tr rn) } := by
            simp [act, hmem, resume, consumeTail]
          rw [e]
          exact Moves.dropped a _ _ hmem (fun _ _ _ hc => by cases hc)
        | some c =>
          cases h : dictGet a.state.peers p with
          | none =>
            have e : (act a (Action.settle (Suspended.consume p pid tr rn) (some c))).1 =
                { a with
                  state := { a.state with
                    listeners := a.state.listeners ++ [⟨c, p, pid⟩]
                    consumers := a.state.consumers ++ [⟨p, c, rn⟩] }
                  pending := a.pending.erase (Suspended.consume p pid tr rn) } := by
              simp [act, hmem, resume, consumeTail, addConsumer, h]
            rw [e]
            exact Moves.consumerOrphaned a p pid tr rn c hmem h
          | some peer =>
            have e : (act a (Action.settle (Suspended.consume p pid tr rn) (some c))).1 =
                { a with
                  state := { a.state with
                    listeners := a.state.listeners ++ [⟨c, p, pid⟩]
                    consumers := a.state.consumers ++ [⟨p, c, rn⟩]
                    peers := dictSet a.state.peers p
                      { peer with consumers := peer.consumers ++ [c] } }
                  pending := a.pending.erase (Suspended.consume p pid tr rn) } := by
              simp [act, hmem, resume, consumeTail, addConsumer, h]
            rw [e]
            exact Moves.consumerAdded a p pid tr rn c peer hmem h
    · have e : (act a (Action.settle task o)).1 = a := by simp [act, hmem]
      rw [e]
      exact Moves.same a _

theorem play_nil (a : Server) : play a [] = (a, []) := rfl

theorem play_cons_fst (a : Server) (x : Action) (xs : List Action) :
    (play a (x :: xs)).1 = (play (act a x).1 xs).1 := rfl

/-! ## Entries of connections that have not disconnected -/

theorem ownedLive_of (a b : Server) (h : OwnedLive a)
    (hgone : ∀ p ∈ a.gone, p ∈ b.gone)
    (hpeers : ∀ p, (dictGet a.state.peers p).isSome = true →
      p ∈ b.gone ∨ (dictGet b.state.peers p).isSome = true)
    (ht : ∀ t ∈ b.state.transports, t ∈ a.state.transports ∨
      t.socketId ∈ b.gone ∨ (dictGet b.state.peers t.socketId).isSome = true)
    (hx : ∀ t ∈ b.state.producers, t ∈ a.state.producers ∨
      t.socketId ∈ b.gone ∨ (dictGet b.state.peers t.socketId).isSome = true)
    (hc : ∀ t ∈ b.state.consumers, t ∈ a.state.consumers ∨
      t.socketId ∈ b.gone ∨ (dictGet b.state.peers t.socketId).isSome = true)
    (htask : ∀ task ∈ b.pending, task ∈ a.pending ∨
      ∀ p, pusher task = some p → p ∈ b.gone ∨ (dictGet b.state.peers p).isSome = true) :
    OwnedLive b := by
  obtain ⟨h1, h2, h3, h4⟩ := h
  have keep : ∀ p, (p ∈ a.gone ∨ (dictGet a.state.peers p).isSome = true) →
      (p ∈ b.gone ∨ (dictGet b.state.peers p).isSome = true) := by
    intro p hp
    rcases hp with hp | hp
    · exact Or.inl (hgone p hp)
    · exact hpeers p hp
  refine ⟨fun t htm => ?_, fun t htm => ?_, fun t htm => ?_, fun task htm p hp => ?_⟩
  · rcases ht t htm with hold | hnew
    · exact keep _ (h1 t hold)
    · exact hnew
  · rcases hx t htm with hold | hnew
    · exact keep _ (h2 t hold)
    · exact hnew
  · rcases hc t htm with hold | hnew
    · exact keep _ (h3 t hold)
    · exact hnew
  · rcases htask task htm with hold | hnew
    · exact keep _ (h4 task hold p hp)
    · exact hnew p hp

theorem ownedLive_init : OwnedLive initServer := by
  simp [OwnedLive, initServer, initState]

theorem moves_ownedLive (a b : Server) (x : Action) (hm : Moves a x b) (h : OwnedLive a) :
    OwnedLive b := by
  cases hm with
  | same => exact h
  | parkRouter p r hr hk =>
    refine ownedLive_of a _ h (fun _ hp => hp) (fun _ hp => Or.inr hp) (fun _ ht => Or.inl ht)
      (fun _ ht => Or.inl ht) (fun _ ht => Or.inl ht) (fun task ht => ?_)
    simp only [List.mem_append, List.mem_singleton] at ht
    rcases ht with ht | rfl
    · exact Or.inl ht
    · exact Or.inr (fun p hp => by simp [pusher] at hp)
  | storeExisting p r room hr =>
    refine ownedLive_of a _ h (fun _ hp => hp) (fun _ hp => Or.inr hp) (fun _ ht => Or.inl ht)
      (fun _ ht => Or.inl ht) (fun _ ht => Or.inl ht) (fun task ht => ?_)
    simp only [List.mem_append, List.mem_singleton] at ht
    rcases ht with ht | rfl
    · exact Or.inl ht
    · exact Or.inr (fun p hp => by simp [pusher] at hp)
  | parkTransport p c peer hp =>
    refine ownedLive_of a _ h (fun _ hp => hp) (fun _ hp => Or.inr hp) (fun _ ht => Or.inl ht)
      (fun _ ht => Or.inl ht) (fun _ ht => Or.inl ht) (fun task ht => ?_)
    simp only [List.mem_append, List.mem_singleton] at ht
    rcases ht with ht | rfl
    · exact Or.inl ht
    · refine Or.inr (fun q hq => ?_)
      simp only [pusher, Option.some.injEq] at hq
      subst hq
      exact Or.inr (by simp [hp])
  | parkProduce p tr =>
    refine ownedLive_of a _ h (fun _ hp => hp) (fun _ hp => Or.inr hp) (fun _ ht => Or.inl ht)
      (fun _ ht => Or.inl ht) (fun _ ht => Or.inl ht) (fun task ht => ?_)
    simp only [List.mem_append, List.mem_singleton] at ht
    rcases ht with ht | rfl
    · exact Or.inl ht
    · exact Or.inr (fun p hp => by simp [pusher] at hp)
  | parkConsume p pid tid tr can peer hp =>
    refine ownedLive_of a _ h (fun _ hp => hp) (fun _ hp => Or.inr hp) (fun _ ht => Or.inl ht)
      (fun _ ht => Or.inl ht) (fun _ ht => Or.inl ht) (fun task ht => ?_)
    simp only [List.mem_append, List.mem_singleton] at ht
    rcases ht with ht | rfl
    · exact Or.inl ht
    · refine Or.inr (fun q hq => ?_)
      simp only [pusher, Option.some.injEq] at hq
      subst hq
      exact Or.inr (by simp [hp])
  | absent p hp =>
    exact ownedLive_of a _ h (fun _ hq => List.mem_cons_of_mem _ hq) (fun _ hq => Or.inr hq)
      (fun _ ht => Or.inl ht) (fun _ ht => Or.inl ht) (fun _ ht => Or.inl ht)
      (fun _ ht => Or.inl ht)
  | leave p peer hp =>
    refine ownedLive_of a _ h (fun _ hq => List.mem_cons_of_mem _ hq) (fun q hq => ?_)
      (fun _ ht => Or.inl (List.mem_filter.mp ht).1)
      (fun _ ht => Or.inl (List.mem_filter.mp ht).1)
      (fun _ ht => Or.inl (List.mem_filter.mp ht).1) (fun _ ht => Or.inl ht)
    by_cases hqp : q = p
    · exact Or.inl (by simp [hqp])
    · exact Or.inr (by simpa [dictGet_dictDelete_of_ne _ _ _ hqp] using hq)
  | close l =>
    exact ownedLive_of a _ h (fun _ hp => hp) (fun _ hp => Or.inr hp) (fun _ ht => Or.inl ht)
      (fun _ ht => Or.inl ht) (fun _ ht => Or.inl (List.mem_filter.mp ht).1)
      (fun _ ht => Or.inl ht)
  | dropped task o hmem hnt =>
    exact ownedLive_of a _ h (fun _ hp => hp) (fun _ hp => Or.inr hp) (fun _ ht => Or.inl ht)
      (fun _ ht => Or.inl ht) (fun _ ht => Or.inl ht)
      (fun _ ht => Or.inl (List.mem_of_mem_erase ht))
  | routerDone p r router hmem =>
    refine ownedLive_of a _ h (fun _ hp => hp) (fun _ hp => Or.inr hp) (fun _ ht => Or.inl ht)
      (fun _ ht => Or.inl ht) (fun _ ht => Or.inl ht) (fun task ht => ?_)
    simp only [List.mem_append, List.mem_singleton] at ht
    rcases ht with ht | rfl
    · exact Or.inl (List.mem_of_mem_erase ht)
    · exact Or.inr (fun p hp => by simp [pusher] at hp)
  | registered p r router o hmem =>
    exact ownedLive_of a _ h (fun _ hp => hp)
      (fun q hq => Or.inr (isSome_dictGet_dictSet _ _ _ _ hq)) (fun _ ht => Or.inl ht)
      (fun _ ht => Or.inl ht) (fun _ ht => Or.inl ht)
      (fun _ ht => Or.inl (List.mem_of_mem_erase ht))
  | transportAdded p c rn t peer hmem hp =>
    refine ownedLive_of a _ h (fun _ hp => hp)
      (fun q hq => Or.inr (isSome_dictGet_dictSet _ _ _ _ hq)) (fun t0 ht => ?_)
      (fun _ ht => Or.inl ht) (fun _ ht => Or.inl ht)
      (fun _ ht => Or.inl (List.mem_of_mem_erase ht))
    simp only [List.mem_append, List.mem_singleton] at ht
    rcases ht with ht | rfl
    · exact Or.inl ht
    · exact Or.inr (Or.inr (by simp [dictGet_dictSet_self]))
  | transportOrphaned p c rn t hmem hp =>
    refine ownedLive_of a _ h (fun _ hp => hp) (fun _ hq => Or.inr hq) (fun t0 ht => ?_)
      (fun _ ht => Or.inl ht) (fun _ ht => Or.inl ht)
      (fun _ ht => Or.inl (List.mem_of_mem_erase ht))
    simp only [List.mem_append, List.mem_singleton] at ht
    rcases ht with ht | rfl
    · exact Or.inl ht
    · rcases h.2.2.2 _ hmem p rfl with hg | hs
      · exact Or.inr (Or.inl hg)
      · simp [hp] at hs
  | producerAdded p tr x peer hmem hp =>
    refine ownedLive_of a _ h (fun _ hp => hp)
      (fun q hq => Or.inr (isSome_dictGet_dictSet _ _ _ _ hq)) (fun _ ht => Or.inl ht)
      (fun t0 ht => ?_) (fun _ ht => Or.inl ht)
      (fun _ ht => Or.inl (List.mem_of_mem_erase ht))
    simp only [List.mem_append, List.mem_singleton] at ht
    rcases ht with ht | rfl
    · exact Or.inl ht
    · exact Or.inr (Or.inr (by simp [dictGet_dictSet_self]))
  | consumerAdded p pid tr rn c peer hmem hp =>
    refine ownedLive_of a _ h (fun _ hp => hp)
      (fun q hq => Or.inr (isSome_dictGet_dictSet _ _ _ _ hq)) (fun _ ht => Or.inl ht)
      (fun _ ht => Or.inl ht) (fun t0 ht => ?_)
      (fun _ ht => Or.inl (List.mem_of_mem_erase ht))
    simp only [List.mem_append, List.mem_singleton] at ht
    rcases ht with ht | rfl
    · exact Or.inl ht
    · exact Or.inr (Or.inr (by simp [dictGet_dictSet_self]))
  | consumerOrphaned p pid tr rn c hmem hp =>
    refine ownedLive_of a _ h (fun _ hp => hp) (fun _ hq => Or.inr hq)
      (fun _ ht => Or.inl ht) (fun _ ht => Or.inl ht) (fun t0 ht => ?_)
      (fun _ ht => Or.inl (List.mem_of_mem_erase ht))
    simp only [List.mem_append, List.mem_singleton] at ht
    rcases ht with ht | rfl
    · exact Or.inl ht
    · rcases h.2.2.2 _ hmem p rfl with hg | hs
      · exact Or.inr (Or.inl hg)
      · simp [hp] at hs

theorem play_ownedLive (acts : List Action) (a : Server) (h : OwnedLive a) :
    OwnedLive (play a acts).1 := by
  induction acts generalizing a with
  | nil => exact h
  | cons x xs ih =>
    rw [play_cons_fst]
    exact ih _ (moves_ownedLive a _ x (act_moves a x) h)

theorem linkedOf_of_record (s s1 : State) (q : SocketId)
    (hrec : ∀ peer, dictGet s.peers q = some peer →
      ∃ peer1, dictGet s1.peers q = some peer1 ∧
        (∀ i ∈ peer.transports, i ∈ peer1.transports) ∧
        (∀ i ∈ peer.producers, i ∈ peer1.producers) ∧
        (∀ i ∈ peer.consumers, i ∈ peer1.consumers))
    (ht : ∀ t ∈ s1.transports, t.socketId = q → t ∈ s.transports ∨
      ∃ peer, dictGet s1.peers q = some peer ∧ t.transport ∈ peer.transports)
    (hx : ∀ x ∈ s1.producers, x.socketId = q → x ∈ s.producers ∨
      ∃ peer, dictGet s1.peers q = some peer ∧ x.producer ∈ peer.producers)
    (hc : ∀ c ∈ s1.consumers, c.socketId = q → c ∈ s.consumers ∨
      ∃ peer, dictGet s1.peers q = some peer ∧ c.consumer ∈ peer.consumers)
    (h : LinkedOf s q) : LinkedOf s1 q := by
  obtain ⟨h1, h2, h3⟩ := h
  refine ⟨fun t htm htq => ?_, fun t htm htq => ?_, fun t htm htq => ?_⟩
  · rcases ht t htm htq with hold | hnew
    · obtain ⟨peer, hp, hi⟩ := h1 t hold htq
      obtain ⟨peer1, hp1, g1, -, -⟩ := hrec peer hp
      exact ⟨peer1, hp1, g1 _ hi⟩
    · exact hnew
  · rcases hx t htm htq with hold | hnew
    · obtain ⟨peer, hp, hi⟩ := h2 t hold htq
      obtain ⟨peer1, hp1, -, g2, -⟩ := hrec peer hp
      exact ⟨peer1, hp1, g2 _ hi⟩
    · exact hnew
  · rcases hc t htm htq with hold | hnew
    · obtain ⟨peer, hp, hi⟩ := h3 t hold htq
      obtain ⟨peer1, hp1, -, -, g3⟩ := hrec peer hp
      exact ⟨peer1, hp1, g3 _ hi⟩
    · exact hnew

theorem record_kept (d : List (SocketId × Peer)) (q : SocketId) (peer : Peer)
    (h : dictGet d q = some peer) :
    ∃ peer1, dictGet d q = some peer1 ∧
      (∀ i ∈ peer.transports, i ∈ peer1.transports) ∧
      (∀ i ∈ peer.producers, i ∈ peer1.producers) ∧
      (∀ i ∈ peer.consumers, i ∈ peer1.consumers) :=
  ⟨peer, h, fun _ hi => hi, fun _ hi => hi, fun _ hi => hi⟩

theorem record_grown (d : List (SocketId × Peer)) (p q : SocketId) (old new peer : Peer)
    (hold : dictGet d p = some old)
    (g1 : ∀ i ∈ old.transports, i ∈ new.transports)
    (g2 : ∀ i ∈ old.producers, i ∈ new.producers)
    (g3 : ∀ i ∈ old.consumers, i ∈ new.consumers)
    (h : dictGet d q = some peer) :
    ∃ peer1, dictGet (dictSet d p new) q = some peer1 ∧
      (∀ i ∈ peer.transports, i ∈ peer1.transports) ∧
      (∀ i ∈ peer.producers, i ∈ peer1.producers) ∧
      (∀ i ∈ peer.consumers, i ∈ peer1.consumers) := by
  by_cases hqp : q = p
  · subst hqp
    rw [hold] at h
    cases h
    exact ⟨new, dictGet_dictSet_self _ _ _, g1, g2, g3⟩
  · exact ⟨peer, by rw [dictGet_dictSet_of_ne _ _ _ _ hqp]; exact h,
      fun _ hi => hi, fun _ hi => hi, fun _ hi => hi⟩

theorem linkedOf_of_ownsNothing (s : State) (q : SocketId)
    (h : ownsNothing s q = true) (s1 : State)
    (ht : s1.transports = s.transports) (hx : s1.producers = s.producers)
    (hc : s1.consumers = s.consumers) : LinkedOf s1 q := by
  have hown : (∀ t ∈ s.transports, t.socketId ≠ q) ∧ (∀ x ∈ s.producers, x.socketId ≠ q) ∧
      (∀ c ∈ s.consumers, c.socketId ≠ q) := by
    simpa [ownsNothing, and_assoc] using h
  refine ⟨fun t htm htq => ?_, fun t htm htq => ?_, fun t htm htq => ?_⟩
  · rw [ht] at htm; exact absurd htq (hown.1 t htm)
  · rw [hx] at htm; exact absurd htq (hown.2.1 t htm)
  · rw [hc] at htm; exact absurd htq (hown.2.2 t htm)

theorem moves_linkedOf (a b : Server) (x : Action) (q : SocketId) (hm : Moves a x b)
    (hown : OwnedLive a) (hkeep : replacesRecord a q x = false)
    (h : q ∈ a.gone ∨ LinkedOf a.state q) : q ∈ b.gone ∨ LinkedOf b.state q := by
  cases hm with
  | same => exact h
  | parkRouter p r hr hk => exact h
  | storeExisting p r room hr => exact h
  | parkTransport p c peer hp => exact h
  | parkProduce p tr => exact h
  | parkConsume p pid tid tr can peer hp => exact h
  | absent p hp =>
    rcases h with h | h
    · exact Or.inl (List.mem_cons_of_mem _ h)
    · exact Or.inr h
  | leave p peer hp =>
    by_cases hqp : q = p
    · exact Or.inl (by simp [hqp])
    · rcases h with h | h
      · exact Or.inl (List.mem_cons_of_mem _ h)
      · refine Or.inr (linkedOf_of_record a.state _ q (fun pr hpr => ?_)
          (fun t ht _ => Or.inl (List.mem_filter.mp ht).1)
          (fun t ht _ => Or.inl (List.mem_filter.mp ht).1)
          (fun t ht _ => Or.inl (List.mem_filter.mp ht).1) h)
        exact ⟨pr, by simpa [dictGet_dictDelete_of_ne _ _ _ hqp] using hpr,
          fun _ hi => hi, fun _ hi => hi, fun _ hi => hi⟩
  | close l =>
    rcases h with h | h
    · exact Or.inl h
    · exact Or.inr (linkedOf_of_record a.state _ q (fun pr hpr => record_kept _ q pr hpr)
        (fun t ht _ => Or.inl ht) (fun t ht _ => Or.inl ht)
        (fun t ht _ => Or.inl (List.mem_filter.mp ht).1) h)
  | dropped task o hmem hnt => exact h
  | routerDone p r router hmem => exact h
  | registered p r router o hmem =>
    rcases h with h | h
    · exact Or.inl h
    · by_cases hpq : p = q
      · subst hpq
        have hnothing : ownsNothing a.state p = true := by
          simpa [replacesRecord, hmem] using hkeep
        exact Or.inr (linkedOf_of_ownsNothing a.state p hnothing _ rfl rfl rfl)
      · refine Or.inr (linkedOf_of_record a.state _ q (fun pr hpr => ?_)
          (fun t ht _ => Or.inl ht) (fun t ht _ => Or.inl ht) (fun t ht _ => Or.inl ht) h)
        exact ⟨pr, by
          simp only
          rw [dictGet_dictSet_of_ne _ _ _ _ (Ne.symm hpq)]
          exact hpr, fun _ hi => hi, fun _ hi => hi, fun _ hi => hi⟩
  | transportAdded p c rn t peer hmem hp =>
    rcases h with h | h
    · exact Or.inl h
    · refine Or.inr (linkedOf_of_record a.state _ q
        (fun pr hpr => record_grown _ p q peer _ pr hp
          (fun _ hi => List.mem_append_left _ hi) (fun _ hi => hi) (fun _ hi => hi) hpr)
        (fun t0 ht htq => ?_) (fun t ht _ => Or.inl ht) (fun t ht _ => Or.inl ht) h)
      simp only [List.mem_append, List.mem_singleton] at ht
      rcases ht with ht | rfl
      · exact Or.inl ht
      · simp only at htq
        subst htq
        exact Or.inr ⟨_, dictGet_dictSet_self _ _ _, by simp⟩
  | transportOrphaned p c rn t hmem hp =>
    rcases h with h | h
    · exact Or.inl h
    · by_cases hpq : p = q
      · subst hpq
        rcases hown.2.2.2 _ hmem p rfl with hg | hs
        · exact Or.inl hg
        · simp [hp] at hs
      · refine Or.inr (linkedOf_of_record a.state _ q (fun pr hpr => record_kept _ q pr hpr)
          (fun t0 ht htq => ?_) (fun t ht _ => Or.inl ht) (fun t ht _ => Or.inl ht) h)
        simp only [List.mem_append, List.mem_singleton] at ht
        rcases ht with ht | rfl
        · exact Or.inl ht
        · exact absurd htq hpq
  | producerAdded p tr x peer hmem hp =>
    rcases h with h | h
    · exact Or.inl h
    · refine Or.inr (linkedOf_of_record a.state _ q
        (fun pr hpr => record_grown _ p q peer _ pr hp
          (fun _ hi => hi) (fun _ hi => List.mem_append_left _ hi) (fun _ hi => hi) hpr)
        (fun t ht _ => Or.inl ht) (fun t0 ht htq => ?_) (fun t ht _ => Or.inl ht) h)
      simp only [List.mem_append, List.mem_singleton] at ht
      rcases ht with ht | rfl
      · exact Or.inl ht
      · simp only at htq
        subst htq
        exact Or.inr ⟨_, dictGet_dictSet_self _ _ _, by simp⟩
  | consumerAdded p pid tr rn c peer hmem hp =>
    rcases h with h | h
    · exact Or.inl h
    · refine Or.inr (linkedOf_of_record a.state _ q
        (fun pr hpr => record_grown _ p q peer _ pr hp
          (fun _ hi => hi) (fun _ hi => hi) (fun _ hi => List.mem_append_left _ hi) hpr)
        (fun t ht _ => Or.inl ht) (fun t ht _ => Or.inl ht) (fun t0 ht htq => ?_) h)
      simp only [List.mem_append, List.mem_singleton] at ht
      rcases ht with ht | rfl
      · exact Or.inl ht
      · simp only at htq
        subst htq
        exact Or.inr ⟨_, dictGet_dictSet_self _ _ _, by simp⟩
  | consumerOrphaned p pid tr rn c hmem hp =>
    rcases h with h | h
    · exact Or.inl h
    · by_cases hpq : p = q
      · subst hpq
        rcases hown.2.2.2 _ hmem p rfl with hg | hs
        · exact Or.inl hg
        · simp [hp] at hs
      · refine Or.inr (linkedOf_of_record a.state _ q (fun pr hpr => record_kept _ q pr hpr)
          (fun t ht _ => Or.inl ht) (fun t ht _ => Or.inl ht) (fun t0 ht htq => ?_) h)
        simp only [List.mem_append, List.mem_singleton] at ht
        rcases ht with ht | rfl
        · exact Or.inl ht
        · exact absurd htq hpq

theorem play_linkedOf (acts : List Action) (a : Server) (q : SocketId) (hown : OwnedLive a)
    (hkeep : keepsRecord q a acts = true) (h : q ∈ a.gone ∨ LinkedOf a.state q) :
    q ∈ (play a acts).1.gone ∨ LinkedOf (play a acts).1.state q := by
  induction acts generalizing a with
  | nil => exact h
  | cons x xs ih =>
    simp only [keepsRecord, Bool.and_eq_true, Bool.not_eq_true'] at hkeep
    rw [play_cons_fst]
    exact ih _ (moves_ownedLive a _ x (act_moves a x) hown) hkeep.2
      (moves_linkedOf a _ x q (act_moves a x) hown hkeep.1 h)

/-- C3, amended: in every state that the server reaches, with requests, disconnects and
the continuations of suspended handlers interleaved in any order, every entry of
`transports`, `producers` and `consumers` whose connection has not disconnected has a
socketId that is a key of `peers`; and for every such connection whose peer record the
joinRoom handler has not replaced while an array entry carried its socketId, that record's
id list contains the id of the handle of each of its entries. -/
theorem entries_owned_and_linked (acts : List Action) :
    (∀ t ∈ (play initServer acts).1.state.transports,
      t.socketId ∉ (play initServer acts).1.gone →
      (dictGet (play initServer acts).1.state.peers t.socketId).isSome = true) ∧
    (∀ x ∈ (play initServer acts).1.state.producers,
      x.socketId ∉ (play initServer acts).1.gone →
      (dictGet (play initServer acts).1.state.peers x.socketId).isSome = true) ∧
    (∀ c ∈ (play initServer acts).1.state.consumers,
      c.socketId ∉ (play initServer acts).1.gone →
      (dictGet (play initServer acts).1.state.peers c.socketId).isSome = true) ∧
    (∀ q, keepsRecord q initServer acts = true → q ∉ (play initServer acts).1.gone →
      LinkedOf (play initServer acts).1.state q) := by
  obtain ⟨h1, h2, h3, -⟩ := play_ownedLive acts initServer ownedLive_init
  refine ⟨fun t ht hg => (h1 t ht).resolve_left hg, fun t ht hg => (h2 t ht).resolve_left hg,
    fun t ht hg => (h3 t ht).resolve_left hg, fun q hkeep hg => ?_⟩
  have hinit : q ∈ initServer.gone ∨ LinkedOf initServer.state q :=
    Or.inr (by simp [LinkedOf, initServer, initState])
  exact (play_linkedOf acts initServer q ownedLive_init hkeep hinit).resolve_left hg

/-- C3, amended, at a concrete run: connection 1 sends joinRoom again while it owns
transport 4, and connection 2 sends a joinRoom that fails; the record of connection 2 was
never replaced while it owned an entry, and it names transport 5. -/
theorem entries_owned_and_linked_witness :
    (keepsRecord 2 initServer
      [Action.joinRoom 1 "r", Action.settle (Suspended.createRouter 1 "r") (some 10),
       Action.settle (Suspended.joinTail 1 "r" 10) none,
       Action.joinRoom 2 "r", Action.settle (Suspended.joinTail 2 "r" 10) none,
       Action.createWebRtcTransport 1 false,
       Action.settle (Suspended.createTransport 1 false "r") (some 4),
       Action.createWebRtcTransport 2 true,
       Action.settle (Suspended.createTransport 2 true "r") (some 5),
       Action.joinRoom 1 "r", Action.settle (Suspended.joinTail 1 "r" 10) none,
       Action.joinRoom 2 "constructor"] = true ∧
     2 ∉ (play initServer
      [Action.joinRoom 1 "r", Action.settle (Suspended.createRouter 1 "r") (some 10),
       Action.settle (Suspended.joinTail 1 "r" 10) none,
       Action.joinRoom 2 "r", Action.settle (Suspended.joinTail 2 "r" 10) none,
       Action.createWebRtcTransport 1 false,
       Action.settle (Suspended.createTransport 1 false "r") (some 4),
       Action.createWebRtcTransport 2 true,
       Action.settle (Suspended.createTransport 2 true "r") (some 5),
       Action.joinRoom 1 "r", Action.settle (Suspended.joinTail 1 "r" 10) none,
       Action.joinRoom 2 "constructor"]).1.gone) ∧
    LinkedOf (play initServer
      [Action.joinRoom 1 "r", Action.settle (Suspended.createRouter 1 "r") (some 10),
       Action.settle (Suspended.joinTail 1 "r" 10) none,
       Action.joinRoom 2 "r", Action.settle (Suspended.joinTail 2 "r" 10) none,
       Action.createWebRtcTransport 1 false,
       Action.settle (Suspended.createTransport 1 false "r") (some 4),
       Action.createWebRtcTransport 2 true,
       Action.settle (Suspended.createTransport 2 true "r") (some 5),
       Action.joinRoom 1 "r", Action.settle (Suspended.joinTail 1 "r" 10) none,
       Action.joinRoom 2 "constructor"]).1.state 2 :=
  ⟨⟨by decide, by decide⟩,
   (entries_owned_and_linked
      [Action.joinRoom 1 "r", Action.settle (Suspended.createRouter 1 "r") (some 10),
       Action.settle (Suspended.joinTail 1 "r" 10) none,
       Action.joinRoom 2 "r", Action.settle (Suspended.joinTail 2 "r" 10) none,
       Action.createWebRtcTransport 1 false,
       Action.settle (Suspended.createTransport 1 false "r") (some 4),
       Action.createWebRtcTransport 2 true,
       Action.settle (Suspended.createTransport 2 true "r") (some 5),
       Action.joinRoom 1 "r", Action.settle (Suspended.joinTail 1 "r" 10) none,
       Action.joinRoom 2 "constructor"]).2.2.2 2 (by decide) (by decide)⟩

/-- A disconnect that is handled while createWebRtcTransport awaits the engine: when the
promise settles, `addTransport` pushes the entry of transport 4 and then throws at
`peers[socket.id].transports`, so the entry stays with a socketId that is not a key of
`peers`.  This is why the amended C3 speaks of connections that have not disconnected. -/
theorem disconnect_during_await_leaves_entry :
    (play initServer
      [Action.joinRoom 1 "r", Action.settle (Suspended.createRouter 1 "r") (some 10),
       Action.settle (Suspended.joinTail 1 "r" 10) none,
       Action.createWebRtcTransport 1 false, Action.disconnect 1,
       Action.settle (Suspended.createTransport 1 false "r") (some 4)]).1.state.transports
      = [⟨1, 4, "r", false⟩] ∧
    dictGet (play initServer
      [Action.joinRoom 1 "r", Action.settle (Suspended.createRouter 1 "r") (some 10),
       Action.settle (Suspended.joinTail 1 "r" 10) none,
       Action.createWebRtcTransport 1 false, Action.disconnect 1,
       Action.settle (Suspended.createTransport 1 false "r") (some 4)]).1.state.peers 1
      = none ∧
    responses (play initServer
      [Action.joinRoom 1 "r", Action.settle (Suspended.createRouter 1 "r") (some 10),
       Action.settle (Suspended.joinTail 1 "r" 10) none,
       Action.createWebRtcTransport 1 false, Action.disconnect 1,
       Action.settle (Suspended.createTransport 1 false "r") (some 4)]).2
      = [(1, Response.joined 10 []), (1, Response.error ErrorMessage.typeError)] := by
  decide


/-! ## A joinRoom request from a connection that is already in a room -/

/-- C4, amended: a joinRoom request for `r2` from a connection `p` that is registered in
another room `r1` is not refused.  If `rooms[r2]` exists, `p` is appended to its member
list when the request arrives; if `rooms[r2]` is undefined, `worker.createRouter` is called
and, once it resolves, `rooms[r2]` is stored with `p` as its only member.  Neither turn
answers anything, touches `peers` or changes `rooms[r1]`, so `p` stays listed in `r1`.  The
rest of the handler then replaces `peers[p]` by a fresh record that names `r2` and has
empty id lists, leaves `rooms` alone, and answers with the router and the members of `r2`
other than `p`. -/
theorem joinRoom_other_room_joins (a : Server) (p : SocketId) (r1 r2 : RoomName) (peer : Peer)
    (hp : dictGet a.state.peers p = some peer) (hr : peer.roomName = r1) (hne : r2 ≠ r1) :
    (∀ room, dictGet a.state.rooms r2 = some room →
      responses (act a (Action.joinRoom p r2)).2 = [] ∧
      members (act a (Action.joinRoom p r2)).1.state r2 = room.peers ++ [p] ∧
      dictGet (act a (Action.joinRoom p r2)).1.state.rooms r1 = dictGet a.state.rooms r1 ∧
      (act a (Action.joinRoom p r2)).1.state.peers = a.state.peers ∧
      (act a (Action.joinRoom p r2)).1.pending
        = a.pending ++ [Suspended.joinTail p r2 room.router]) ∧
    (dictGet a.state.rooms r2 = none → r2 ∉ inheritedKeys →
      act a (Action.joinRoom p r2)
        = ({ a with pending := a.pending ++ [Suspended.createRouter p r2] },
           [Effect.engine EngineCall.createRouter])) ∧
    (∀ router, Suspended.createRouter p r2 ∈ a.pending →
      responses (act a (Action.settle (Suspended.createRouter p r2) (some router))).2 = [] ∧
      members (act a (Action.settle (Suspended.createRouter p r2) (some router))).1.state r2
        = [p] ∧
      dictGet (act a (Action.settle (Suspended.createRouter p r2) (some router))).1.state.rooms
        r1 = dictGet a.state.rooms r1 ∧
      (act a (Action.settle (Suspended.createRouter p r2) (some router))).1.state.peers
        = a.state.peers ∧
      Suspended.joinTail p r2 router
        ∈ (act a (Action.settle (Suspended.createRouter p r2) (some router))).1.pending) ∧
    (∀ router outcome room, Suspended.joinTail p r2 router ∈ a.pending →
      dictGet a.state.rooms r2 = some room →
      responses (act a (Action.settle (Suspended.joinTail p r2 router) outcome)).2
        = [(p, Response.joined router (room.peers.filter (fun id => decide (id ≠ p))))] ∧
      dictGet (act a (Action.settle (Suspended.joinTail p r2 router) outcome)).1.state.peers p
        = some ⟨r2, [], [], []⟩ ∧
      (act a (Action.settle (Suspended.joinTail p r2 router) outcome)).1.state.peers
        ≠ a.state.peers ∧
      (act a (Action.settle (Suspended.joinTail p r2 router) outcome)).1.state.rooms
        = a.state.rooms) := by
  refine ⟨?_, ?_, ?_, ?_⟩
  · intro room hroom
    simp only [act, hroom, createRoomStore, members, dictGet_dictSet_self, responses]
    exact ⟨by trivial, by trivial, dictGet_dictSet_of_ne _ _ _ _ (Ne.symm hne), by trivial, by trivial⟩
  · intro hnone hk
    simp only [act, hnone, if_neg hk]
  · intro router hmem
    simp only [act, if_pos hmem, resume, createRoomStore, members, dictGet_dictSet_self,
      responses]
    exact ⟨by trivial, by simp, dictGet_dictSet_of_ne _ _ _ _ (Ne.symm hne), by trivial,
      List.mem_append_right _ (List.mem_singleton.mpr rfl)⟩
  · intro router outcome room hmem hroom
    simp only [act, if_pos hmem, resume, joinRoomRegister, hroom, responses,
      dictGet_dictSet_self]
    refine ⟨by trivial, by trivial, ?_, by trivial⟩
    intro h
    have h1 : dictGet (dictSet a.state.peers p (⟨r2, [], [], []⟩ : Peer)) p = some peer := by
      rw [h]; exact hp
    rw [dictGet_dictSet_self] at h1
    have h2 : r2 = peer.roomName := by
      have := Option.some.inj h1
      rw [← this]
    exact hne (h2.trans hr)

/-- C4, amended, at a concrete server: connection 1 is registered in room "a", room "b"
was created by connection 2, and connection 1 asks to join "b". -/
theorem joinRoom_other_room_joins_witness :
    (dictGet (play initServer
        [Action.joinRoom 1 "a", Action.settle (Suspended.createRouter 1 "a") (some 10),
         Action.settle (Suspended.joinTail 1 "a" 10) none,
         Action.joinRoom 2 "b", Action.settle (Suspended.createRouter 2 "b") (some 20),
         Action.settle (Suspended.joinTail 2 "b" 20) none]).1.state.peers 1
        = some ⟨"a", [], [], []⟩ ∧
      ("b" : RoomName) ≠ "a" ∧
      dictGet (play initServer
        [Action.joinRoom 1 "a", Action.settle (Suspended.createRouter 1 "a") (some 10),
         Action.settle (Suspended.joinTail 1 "a" 10) none,
         Action.joinRoom 2 "b", Action.settle (Suspended.createRouter 2 "b") (some 20),
         Action.settle (Suspended.joinTail 2 "b" 20) none]).1.state.rooms "b"
        = some ⟨20, [2]⟩) ∧
    members (act (play initServer
        [Action.joinRoom 1 "a", Action.settle (Suspended.createRouter 1 "a") (some 10),
         Action.settle (Suspended.joinTail 1 "a" 10) none,
         Action.joinRoom 2 "b", Action.settle (Suspended.createRouter 2 "b") (some 20),
         Action.settle (Suspended.joinTail 2 "b" 20) none]).1
        (Action.joinRoom 1 "b")).1.state "b" = [2, 1] :=
  ⟨⟨by decide, by decide, by decide⟩,
   ((joinRoom_other_room_joins
      (play initServer
        [Action.joinRoom 1 "a", Action.settle (Suspended.createRouter 1 "a") (some 10),
         Action.settle (Suspended.joinTail 1 "a" 10) none,
         Action.joinRoom 2 "b", Action.settle (Suspended.createRouter 2 "b") (some 20),
         Action.settle (Suspended.joinTail 2 "b" 20) none]).1
      1 "a" "b" ⟨"a", [], [], []⟩ (by decide) rfl (by decide)).1
      ⟨20, [2]⟩ (by decide)).2.1⟩

/-- The whole of such a request in one run: connection 1, registered in "a", joins "b";
afterwards it is listed in both rooms and its peer record names "b". -/
theorem joinRoom_other_room_listed_twice :
    responses (play initServer
      [Action.joinRoom 1 "a", Action.settle (Suspended.createRouter 1 "a") (some 10),
       Action.settle (Suspended.joinTail 1 "a" 10) none,
       Action.joinRoom 1 "b", Action.settle (Suspended.createRouter 1 "b") (some 20),
       Action.settle (Suspended.joinTail 1 "b" 20) none]).2
      = [(1, Response.joined 10 []), (1, Response.joined 20 [])] ∧
    (play initServer
      [Action.joinRoom 1 "a", Action.settle (Suspended.createRouter 1 "a") (some 10),
       Action.settle (Suspended.joinTail 1 "a" 10) none,
       Action.joinRoom 1 "b", Action.settle (Suspended.createRouter 1 "b") (some 20),
       Action.settle (Suspended.joinTail 1 "b" 20) none]).1.state.rooms
      = [("a", ⟨10, [1]⟩), ("b", ⟨20, [1]⟩)] ∧
    (play initServer
      [Action.joinRoom 1 "a", Action.settle (Suspended.createRouter 1 "a") (some 10),
       Action.settle (Suspended.joinTail 1 "a" 10) none,
       Action.joinRoom 1 "b", Action.settle (Suspended.createRouter 1 "b") (some 20),
       Action.settle (Suspended.joinTail 1 "b" 20) none]).1.state.peers
      = [(1, ⟨"b", [], [], []⟩)] := by
  decide

/-- A name that the object `rooms` inherits is refused, whoever asks: `createRoom` throws
before it stores anything, and the handler answers with the error. -/
theorem joinRoom_inherited_name_refused (a : Server) (p : SocketId) (r : RoomName)
    (h : dictGet a.state.rooms r = none) (hk : r ∈ inheritedKeys) :
    act a (Action.joinRoom p r)
      = (a, [Effect.callback p (Response.error ErrorMessage.typeError)]) := by
  simp only [act, h, if_pos hk]


/-! ## The peer list of a joinRoom response when two joins race -/

/-- C10 at the failing input: connections 1 and 2 ask for the new room "r" before either
`worker.createRouter` promise settles; both are answered with success and neither
disconnects.  Connection 3 then joins "r" and is told `[2]`: the second resumption of
`createRoom` stored `peers: [2]` over `peers: [1]`. -/
theorem joinRoom_after_race_omits_first_member :
    responses (play initServer
      [Action.joinRoom 1 "r", Action.joinRoom 2 "r",
       Action.settle (Suspended.createRouter 1 "r") (some 10),
       Action.settle (Suspended.joinTail 1 "r" 10) none,
       Action.settle (Suspended.createRouter 2 "r") (some 20),
       Action.settle (Suspended.joinTail 2 "r" 20) none,
       Action.joinRoom 3 "r", Action.settle (Suspended.joinTail 3 "r" 20) none]).2
      = [(1, Response.joined 10 []), (2, Response.joined 20 []),
         (3, Response.joined 20 [2])] ∧
    (play initServer
      [Action.joinRoom 1 "r", Action.joinRoom 2 "r",
       Action.settle (Suspended.createRouter 1 "r") (some 10),
       Action.settle (Suspended.joinTail 1 "r" 10) none,
       Action.settle (Suspended.createRouter 2 "r") (some 20),
       Action.settle (Suspended.joinTail 2 "r" 20) none,
       Action.joinRoom 3 "r", Action.settle (Suspended.joinTail 3 "r" 20) none]).1.gone = [] ∧
    (dictGet (play initServer
      [Action.joinRoom 1 "r", Action.joinRoom 2 "r",
       Action.settle (Suspended.createRouter 1 "r") (some 10),
       Action.settle (Suspended.joinTail 1 "r" 10) none,
       Action.settle (Suspended.createRouter 2 "r") (some 20),
       Action.settle (Suspended.joinTail 2 "r" 20) none,
       Action.joinRoom 3 "r",
       Action.settle (Suspended.joinTail 3 "r" 20) none]).1.state.peers 1).map Peer.roomName
      = some "r" := by
  decide

/-! ## What cleanupPeer closes -/

/-- When the id lists of `peers[p]` name the handle of every array entry of `p`,
`cleanupPeer(p)` closes each of these handles. -/
theorem cleanupPeer_closes_listed (s : State) (p : SocketId) (hl : LinkedOf s p) :
    (∀ c ∈ s.consumers, c.socketId = p →
      EngineCall.closeConsumer c.consumer ∈ engineCalls (cleanupPeer s p).2) ∧
    (∀ x ∈ s.producers, x.socketId = p →
      EngineCall.closeProducer x.producer ∈ engineCalls (cleanupPeer s p).2) ∧
    (∀ t ∈ s.transports, t.socketId = p →
      EngineCall.closeTransport t.transport ∈ engineCalls (cleanupPeer s p).2) := by
  obtain ⟨ht, hx, hc⟩ := hl
  refine ⟨fun c hc1 hc2 => ?_, fun x hx1 hx2 => ?_, fun t ht1 ht2 => ?_⟩
  · obtain ⟨peer, hp, hmem⟩ := hc c hc1 hc2
    rw [cleanupPeer_engineCalls_of_some s p peer hp]
    refine List.mem_append_left _ (List.mem_append_left _ (List.mem_map.mpr ⟨c.consumer, ?_, rfl⟩))
    exact mem_filterMap_find? s.consumers (fun c => c.consumer) peer.consumers c.consumer hmem
      c hc1 rfl
  · obtain ⟨peer, hp, hmem⟩ := hx x hx1 hx2
    rw [cleanupPeer_engineCalls_of_some s p peer hp]
    refine List.mem_append_left _ (List.mem_append_right _ (List.mem_map.mpr ⟨x.producer, ?_, rfl⟩))
    exact mem_filterMap_find? s.producers (fun x => x.producer) peer.producers x.producer hmem
      x hx1 rfl
  · obtain ⟨peer, hp, hmem⟩ := ht t ht1 ht2
    rw [cleanupPeer_engineCalls_of_some s p peer hp]
    refine List.mem_append_right _ (List.mem_map.mpr ⟨t.transport, ?_, rfl⟩)
    exact mem_filterMap_find? s.transports (fun t => t.transport) peer.transports t.transport hmem
      t ht1 rfl


/-! ## Room membership lists under interleaving -/

theorem mem_of_dictGet {κ ν : Type} [DecidableEq κ] (d : List (κ × ν)) (k : κ) (v : ν)
    (h : dictGet d k = some v) : (k, v) ∈ d := by
  induction d with
  | nil => simp [dictGet] at h
  | cons kv rest ih =>
    obtain ⟨a, b⟩ := kv
    simp only [dictGet] at h
    by_cases hk : a = k
    · rw [if_pos hk] at h
      cases h
      subst hk
      exact List.mem_cons_self _ _
    · rw [if_neg hk] at h
      exact List.mem_cons_of_mem _ (ih h)

theorem members_dictSet_of_ne (s : State) (rooms : List (RoomName × Room)) (r r1 : RoomName)
    (room : Room) (h : r1 ≠ r) (hs : rooms = dictSet s.rooms r room) :
    members { s with rooms := rooms } r1 = members s r1 := by
  subst hs
  simp only [members]
  rw [dictGet_dictSet_of_ne _ _ _ _ h]

theorem not_listed (s : State) (q : SocketId) (h : listed s q = false) (r : RoomName) :
    q ∉ members s r := by
  intro hm
  simp only [members] at hm
  cases hr : dictGet s.rooms r with
  | none => rw [hr] at hm; simp at hm
  | some room =>
    rw [hr] at hm
    have hin : (r, room) ∈ s.rooms := mem_of_dictGet _ _ _ hr
    have : listed s q = true := by
      simp only [listed, List.any_eq_true]
      exact ⟨(r, room), hin, by simpa using hm⟩
    rw [h] at this
    cases this

theorem waiting_pos (a : Server) (q : SocketId) (r : RoomName) (router : RouterId)
    (h : Suspended.joinTail q r router ∈ a.pending) : 0 < waiting a q := by
  simp only [waiting]
  exact List.countP_pos_iff.mpr ⟨_, h, by simp [isTailOf]⟩

theorem countP_erase_of_mem {α : Type} [DecidableEq α] (f : α → Bool) (l : List α) (t : α)
    (ht : t ∈ l) (hf : f t = true) : (l.erase t).countP f + 1 = l.countP f := by
  induction l with
  | nil => simp at ht
  | cons x xs ih =>
    by_cases hx : x = t
    · subst hx
      simp [List.countP_cons, hf]
    · have ht1 : t ∈ xs := by
        rcases List.mem_cons.mp ht with h | h
        · exact absurd h.symm hx
        · exact h
      have hne : (x == t) = false := by simpa using hx
      rw [List.erase_cons, hne]
      simp only [Bool.false_eq_true, if_false, List.countP_cons]
      have := ih ht1
      omega

theorem countP_erase_le {α : Type} [DecidableEq α] (f : α → Bool) (l : List α) (t : α) :
    (l.erase t).countP f ≤ l.countP f :=
  List.Sublist.countP_le f (List.erase_sublist t l)

theorem tail_unique (a : Server) (q : SocketId) (r r1 : RoomName) (router router1 : RouterId)
    (hw : waiting a q ≤ 1) (h : Suspended.joinTail q r router ∈ a.pending)
    (h1 : Suspended.joinTail q r1 router1 ∈ a.pending) : r1 = r := by
  by_contra hne
  have hne1 : Suspended.joinTail q r1 router1 ≠ Suspended.joinTail q r router := by
    intro e
    injection e with _ e2 _
    exact hne e2
  have hmem : Suspended.joinTail q r1 router1 ∈ a.pending.erase (Suspended.joinTail q r router) :=
    (List.mem_erase_of_ne hne1).mpr h1
  have hpos : 0 < (a.pending.erase (Suspended.joinTail q r router)).countP (isTailOf q) :=
    List.countP_pos_iff.mpr ⟨_, hmem, by simp [isTailOf]⟩
  have := countP_erase_of_mem (isTailOf q) a.pending (Suspended.joinTail q r router) h
    (by simp [isTailOf])
  simp only [waiting] at hw
  omega

theorem listedOnce_of (a b : Server) (q : SocketId) (h : ListedOnce a q)
    (hg : q ∈ b.gone → q ∈ a.gone)
    (hm : ∀ r, (members b.state r).count q ≤ (members a.state r).count q)
    (hp : ∀ peer, dictGet a.state.peers q = some peer →
      ∃ peer1, dictGet b.state.peers q = some peer1 ∧ peer1.roomName = peer.roomName)
    (hw : waiting b q ≤ waiting a q)
    (ht : ∀ r router, Suspended.joinTail q r router ∈ a.pending →
      Suspended.joinTail q r router ∈ b.pending) :
    ListedOnce b q := by
  obtain ⟨h1, h3, h5⟩ := h
  have hmem : ∀ r, q ∈ members b.state r → q ∈ members a.state r := by
    intro r hr
    have := List.count_pos_iff.mpr hr
    exact List.count_pos_iff.mp (lt_of_lt_of_le this (hm r))
  refine ⟨le_trans hw h1, ?_, ?_⟩
  · intro r hr
    obtain ⟨hc, htr, hd⟩ := h3 r (hmem r hr)
    refine ⟨?_, htr, ?_⟩
    · have := List.count_pos_iff.mpr hr
      have := hm r
      omega
    · rcases hd with ⟨hw0, peer, hpeer, hrn⟩ | ⟨router, hpend⟩
      · obtain ⟨peer1, hp1, hr1⟩ := hp peer hpeer
        exact Or.inl ⟨by omega, peer1, hp1, hr1.trans hrn⟩
      · exact Or.inr ⟨router, ht r router hpend⟩
  · intro hgone
    obtain ⟨hw0, hn⟩ := h5 (hg hgone)
    exact ⟨by omega, fun r hr => hn r (hmem r hr)⟩

theorem listedOnce_init (q : SocketId) : ListedOnce initServer q := by
  refine ⟨by simp [waiting, initServer], ?_, ?_⟩
  · intro r hr
    simp [members, initServer, initState, dictGet] at hr
  · intro hg
    simp [initServer] at hg

theorem listedOnce_unlisted (b : Server) (q : SocketId) (hw : waiting b q ≤ 1)
    (hw0 : q ∈ b.gone → waiting b q = 0) (hn : ∀ r, q ∉ members b.state r) :
    ListedOnce b q :=
  ⟨hw, fun r hr => absurd hr (hn r), fun hg => ⟨hw0 hg, hn⟩⟩

theorem roomName_kept (d : List (SocketId × Peer)) (p q : SocketId) (old new peer : Peer)
    (hold : dictGet d p = some old) (hrn : new.roomName = old.roomName)
    (h : dictGet d q = some peer) :
    ∃ peer1, dictGet (dictSet d p new) q = some peer1 ∧ peer1.roomName = peer.roomName := by
  by_cases hqp : q = p
  · subst hqp
    rw [hold] at h
    cases h
    exact ⟨new, dictGet_dictSet_self _ _ _, hrn⟩
  · exact ⟨peer, by rw [dictGet_dictSet_of_ne _ _ _ _ hqp]; exact h, rfl⟩

theorem members_after_leave (s s1 : State) (p : SocketId) (rn : RoomName)
    (hs : s1.rooms =
      if truthy rn then
        match dictGet s.rooms rn with
        | some room =>
          dictSet s.rooms rn { room with peers := room.peers.filter (fun id => decide (id ≠ p)) }
        | none => s.rooms
      else s.rooms) (r1 : RoomName) :
    members s1 r1 =
      if truthy rn = true ∧ r1 = rn then (members s r1).filter (fun id => decide (id ≠ p))
      else members s r1 := by
  simp only [members, hs]
  by_cases htr : truthy rn = true
  · simp only [htr, if_true, true_and]
    cases hr : dictGet s.rooms rn with
    | none =>
      simp only
      by_cases h1 : r1 = rn
      · subst h1
        simp [hr]
      · simp [h1]
    | some room =>
      simp only
      by_cases h1 : r1 = rn
      · subst h1
        simp [hr, dictGet_dictSet_self]
      · simp [h1, dictGet_dictSet_of_ne _ _ _ _ h1]
  · simp [htr]

theorem moves_listedOnce_join (a : Server) (q : SocketId) (r : RoomName) (router : RouterId)
    (older : List SocketId) (pend : List Suspended)
    (hl : listed a.state q = false) (hw : waiting a q = 0) (hg : q ∉ a.gone)
    (htr : truthy r = true) (hq : q ∉ older) (hpend : pend.countP (isTailOf q) ≤ waiting a q) :
    ListedOnce
      { a with
        state := { a.state with rooms := dictSet a.state.rooms r ⟨router, older ++ [q]⟩ }
        pending := pend ++ [Suspended.joinTail q r router] } q := by
  refine ⟨?_, ?_, fun hgone => absurd hgone hg⟩
  · have hp0 : pend.countP (isTailOf q) = 0 := by omega
    simp only [waiting, List.countP_append, hp0]
    simp [isTailOf]
  · intro r1 hr1
    by_cases h1 : r1 = r
    · subst h1
      simp only [members, dictGet_dictSet_self]
      refine ⟨?_, htr, Or.inr ⟨router, List.mem_append_right _ (List.mem_singleton.mpr rfl)⟩⟩
      rw [List.count_append, List.count_eq_zero_of_not_mem hq]
      simp
    · exfalso
      simp only [members, dictGet_dictSet_of_ne _ _ _ _ h1] at hr1
      exact not_listed a.state q hl r1 hr1

theorem moves_listedOnce (a b : Server) (x : Action) (q : SocketId) (hm : Moves a x b)
    (ho : orderly a q x = true) (h : ListedOnce a q) : ListedOnce b q := by
  have hpark : ∀ task : Suspended, isTailOf q task = false →
      ListedOnce { a with pending := a.pending ++ [task] } q := fun task htask =>
    listedOnce_of a _ q h (fun hg => hg) (fun _ => le_refl _) (fun peer hp => ⟨peer, hp, rfl⟩)
      (by simp [waiting, List.countP_append, htask])
      (fun _ _ ht => List.mem_append_left _ ht)
  cases hm with
  | same => exact h
  | parkRouter p r hr hk => exact hpark _ rfl
  | storeExisting p r room hr =>
    by_cases hpq : p = q
    · subst hpq
      simp only [orderly, listsConnection, hr, Option.isSome_some, and_self, if_true,
        Bool.and_eq_true, Bool.not_eq_true', decide_eq_true_eq, Bool.and_true] at ho
      obtain ⟨⟨⟨hl, hw⟩, hg⟩, htr⟩ := ho
      refine moves_listedOnce_join a p r room.router room.peers a.pending hl hw hg htr ?_
        (le_refl _)
      have := not_listed a.state p hl r
      simpa [members, hr] using this
    · refine listedOnce_of a _ q h (fun hg => hg) (fun r1 => ?_)
        (fun peer hp => ⟨peer, hp, rfl⟩)
        (by simp [waiting, List.countP_append, isTailOf, hpq])
        (fun _ _ ht => List.mem_append_left _ ht)
      by_cases h1 : r1 = r
      · subst h1
        simp only [members, dictGet_dictSet_self, hr]
        rw [List.count_append]
        have : List.count q [p] = 0 :=
          List.count_eq_zero_of_not_mem (by simpa using Ne.symm hpq)
        omega
      · simp only [members, dictGet_dictSet_of_ne _ _ _ _ h1]
        exact le_refl _
  | parkTransport p c peer hp => exact hpark _ rfl
  | parkProduce p tr => exact hpark _ rfl
  | parkConsume p pid tid tr can peer hp => exact hpark _ rfl
  | absent p hp =>
    by_cases hpq : p = q
    · subst hpq
      have hw : waiting a p = 0 := by simpa [orderly, listsConnection] using ho
      refine listedOnce_unlisted _ p h.1 (fun _ => hw) (fun r hr => ?_)
      obtain ⟨-, -, hd⟩ := h.2.1 r hr
      rcases hd with ⟨-, peer, hpeer, -⟩ | ⟨router, hpend⟩
      · rw [hp] at hpeer
        cases hpeer
      · have := waiting_pos a p r router hpend
        omega
    · refine listedOnce_of a _ q h (fun hg => ?_) (fun _ => le_refl _)
        (fun peer hp => ⟨peer, hp, rfl⟩) (le_refl _) (fun _ _ ht => ht)
      rcases List.mem_cons.mp hg with hg | hg
      · exact absurd hg.symm hpq
      · exact hg
  | leave p peer hp =>
    have hmem := members_after_leave a.state
      { a.state with
        consumers := a.state.consumers.filter (fun c => decide (c.socketId ≠ p))
        producers := a.state.producers.filter (fun x => decide (x.socketId ≠ p))
        transports := a.state.transports.filter (fun t => decide (t.socketId ≠ p))
        rooms :=
          if truthy peer.roomName then
            match dictGet a.state.rooms peer.roomName with
            | some room =>
              dictSet a.state.rooms peer.roomName
                { room with peers := room.peers.filter (fun id => decide (id ≠ p)) }
            | none => a.state.rooms
          else a.state.rooms
        peers := dictDelete a.state.peers p } p peer.roomName rfl
    by_cases hpq : p = q
    · subst hpq
      have hw : waiting a p = 0 := by simpa [orderly, listsConnection] using ho
      refine listedOnce_unlisted _ p h.1 (fun _ => hw) (fun r hr => ?_)
      rw [hmem r] at hr
      by_cases hc : truthy peer.roomName = true ∧ r = peer.roomName
      · rw [if_pos hc] at hr
        simp at hr
      · rw [if_neg hc] at hr
        obtain ⟨-, htr, hd⟩ := h.2.1 r hr
        rcases hd with ⟨-, peer1, hpeer, hrn⟩ | ⟨router, hpend⟩
        · rw [hp] at hpeer
          cases hpeer
          exact hc ⟨hrn ▸ htr, hrn.symm⟩
        · have := waiting_pos a p r router hpend
          omega
    · refine listedOnce_of a _ q h (fun hg => ?_) (fun r1 => ?_) (fun pr hpr => ⟨pr, ?_, rfl⟩)
        (le_refl _) (fun _ _ ht => ht)
      · rcases List.mem_cons.mp hg with hg | hg
        · exact absurd hg.symm hpq
        · exact hg
      · rw [hmem r1]
        by_cases hc : truthy peer.roomName = true ∧ r1 = peer.roomName
        · rw [if_pos hc]
          exact List.Sublist.count_le (List.filter_sublist _) q
        · rw [if_neg hc]
      · simp only
        rw [dictGet_dictDelete_of_ne _ _ _ (Ne.symm hpq)]
        exact hpr
  | close l =>
    exact listedOnce_of a _ q h (fun hg => hg) (fun _ => le_refl _)
      (fun peer hp => ⟨peer, hp, rfl⟩) (le_refl _) (fun _ _ ht => ht)
  | dropped task o hmem hnt =>
    exact listedOnce_of a _ q h (fun hg => hg) (fun _ => le_refl _)
      (fun peer hp => ⟨peer, hp, rfl⟩) (countP_erase_le _ _ _)
      (fun r router ht => (List.mem_erase_of_ne (Ne.symm (hnt q r router))).mpr ht)
  | routerDone p r router hmem =>
    by_cases hpq : p = q
    · subst hpq
      simp only [orderly, listsConnection, hmem, and_self, if_true,
        Bool.and_eq_true, Bool.not_eq_true', decide_eq_true_eq, Bool.and_true] at ho
      obtain ⟨⟨⟨hl, hw⟩, hg⟩, htr⟩ := ho
      exact moves_listedOnce_join a p r router [] _ hl hw hg htr (by simp)
        (countP_erase_le _ _ _)
    · refine listedOnce_of a _ q h (fun hg => hg) (fun r1 => ?_)
        (fun peer hp => ⟨peer, hp, rfl⟩) ?_
        (fun r1 router1 ht => List.mem_append_left _
          ((List.mem_erase_of_ne (by simp)).mpr ht))
      · by_cases h1 : r1 = r
        · subst h1
          simp only [members, dictGet_dictSet_self]
          have : List.count q [p] = 0 :=
            List.count_eq_zero_of_not_mem (by simpa using Ne.symm hpq)
          omega
        · simp only [members, dictGet_dictSet_of_ne _ _ _ _ h1]
          exact le_refl _
      · have := countP_erase_le (isTailOf q) a.pending (Suspended.createRouter p r)
        simp only [waiting, List.countP_append]
        simp only [waiting] at this
        simp [isTailOf, hpq]
        exact this
  | registered p r router o hmem =>
    by_cases hpq : p = q
    · subst hpq
      have hpos := waiting_pos a p r router hmem
      have hcount := countP_erase_of_mem (isTailOf p) a.pending (Suspended.joinTail p r router)
        hmem (by simp [isTailOf])
      have hw1 := h.1
      have hw0 : (a.pending.erase (Suspended.joinTail p r router)).countP (isTailOf p) = 0 := by
        simp only [waiting] at hw1
        omega
      refine ⟨?_, ?_, ?_⟩
      · simp only [waiting, hw0]
        exact Nat.zero_le _
      · intro r1 hr1
        have hr1a : p ∈ members a.state r1 := hr1
        obtain ⟨hc, htr, hd⟩ := h.2.1 r1 hr1a
        refine ⟨hc, htr, Or.inl ⟨hw0, ⟨r, [], [], []⟩, dictGet_dictSet_self _ _ _, ?_⟩⟩
        rcases hd with ⟨hz, -⟩ | ⟨router1, hpend⟩
        · omega
        · exact (tail_unique a p r r1 router router1 hw1 hmem hpend).symm
      · intro hg
        have := (h.2.2 hg).1
        omega
    · refine listedOnce_of a _ q h (fun hg => hg) (fun _ => le_refl _)
        (fun peer hp => ⟨peer, ?_, rfl⟩) (countP_erase_le _ _ _)
        (fun r1 router1 ht => (List.mem_erase_of_ne
          (by intro e; injection e with e1 _ _; exact hpq e1.symm)).mpr ht)
      simp only
      rw [dictGet_dictSet_of_ne _ _ _ _ (Ne.symm hpq)]
      exact hp
  | transportAdded p c rn t peer hmem hp =>
    exact listedOnce_of a _ q h (fun hg => hg) (fun _ => le_refl _)
      (fun pr hpr => roomName_kept _ p q peer _ pr hp rfl hpr) (countP_erase_le _ _ _)
      (fun r1 router1 ht => (List.mem_erase_of_ne (by simp)).mpr ht)
  | transportOrphaned p c rn t hmem hp =>
    exact listedOnce_of a _ q h (fun hg => hg) (fun _ => le_refl _)
      (fun pr hpr => ⟨pr, hpr, rfl⟩) (countP_erase_le _ _ _)
      (fun r1 router1 ht => (List.mem_erase_of_ne (by simp)).mpr ht)
  | producerAdded p tr x peer hmem hp =>
    exact listedOnce_of a _ q h (fun hg => hg) (fun _ => le_refl _)
      (fun pr hpr => roomName_kept _ p q peer _ pr hp rfl hpr) (countP_erase_le _ _ _)
      (fun r1 router1 ht => (List.mem_erase_of_ne (by simp)).mpr ht)
  | consumerAdded p pid tr rn c peer hmem hp =>
    exact listedOnce_of a _ q h (fun hg => hg) (fun _ => le_refl _)
      (fun pr hpr => roomName_kept _ p q peer _ pr hp rfl hpr) (countP_erase_le _ _ _)
      (fun r1 router1 ht => (List.mem_erase_of_ne (by simp)).mpr ht)
  | consumerOrphaned p pid tr rn c hmem hp =>
    exact listedOnce_of a _ q h (fun hg => hg) (fun _ => le_refl _)
      (fun pr hpr => ⟨pr, hpr, rfl⟩) (countP_erase_le _ _ _)
      (fun r1 router1 ht => (List.mem_erase_of_ne (by simp)).mpr ht)

theorem play_listedOnce (acts : List Action) (a : Server) (q : SocketId)
    (ho : joinsOrderly q a acts = true) (h : ListedOnce a q) :
    ListedOnce (play a acts).1 q := by
  induction acts generalizing a with
  | nil => exact h
  | cons x xs ih =>
    simp only [joinsOrderly, Bool.and_eq_true] at ho
    rw [play_cons_fst]
    exact ih _ ho.2 (moves_listedOnce a _ x q (act_moves a x) ho.1 h)

/-- C17, amended: let `q` be a connection such that, in a run of the server with requests,
disconnects and the continuations of suspended handlers interleaved in any order, every
turn in which `createRoom` stores `q` in a member list finds `q` in no list, with no
joinRoom handler of `q` suspended after `createRoom`, with `q` not disconnected and with a
non-empty room name, and such that the disconnect of `q` is not handled while a joinRoom
handler of `q` is suspended after `createRoom`.  Then in the state reached, a list
`rooms[r].peers` that holds `q` holds it exactly once, and either `q` is a key of `peers`
whose roomName is `r` or the joinRoom handler that will write that record is still
suspended; no two rooms list `q`; and if `q` has disconnected, no room lists it. -/
theorem rooms_list_registered_peers_once (acts : List Action) (q : SocketId)
    (ho : joinsOrderly q initServer acts = true) :
    (∀ r, q ∈ members (play initServer acts).1.state r →
      (members (play initServer acts).1.state r).count q = 1 ∧
      ((∃ peer, dictGet (play initServer acts).1.state.peers q = some peer ∧
          peer.roomName = r) ∨
        ∃ router, Suspended.joinTail q r router ∈ (play initServer acts).1.pending)) ∧
    (∀ r r1, q ∈ members (play initServer acts).1.state r →
      q ∈ members (play initServer acts).1.state r1 → r1 = r) ∧
    (q ∈ (play initServer acts).1.gone →
      ∀ r, q ∉ members (play initServer acts).1.state r) := by
  obtain ⟨h1, h3, h5⟩ := play_listedOnce acts initServer q ho (listedOnce_init q)
  refine ⟨fun r hr => ?_, fun r r1 hr hr1 => ?_, fun hg => (h5 hg).2⟩
  · obtain ⟨hc, -, hd⟩ := h3 r hr
    refine ⟨hc, ?_⟩
    rcases hd with ⟨-, peer, hp, hrn⟩ | hd
    · exact Or.inl ⟨peer, hp, hrn⟩
    · exact Or.inr hd
  · obtain ⟨-, -, hd⟩ := h3 r hr
    obtain ⟨-, -, hd1⟩ := h3 r1 hr1
    rcases hd with ⟨hw, peer, hp, hrn⟩ | ⟨router, hpend⟩
    · rcases hd1 with ⟨-, peer1, hp1, hrn1⟩ | ⟨router1, hpend1⟩
      · rw [hp] at hp1
        cases hp1
        exact hrn1.symm.trans hrn
      · have := waiting_pos _ q r1 router1 hpend1
        omega
    · rcases hd1 with ⟨hw1, -⟩ | ⟨router1, hpend1⟩
      · have := waiting_pos _ q r router hpend
        omega
      · exact tail_unique _ q r r1 router router1 h1 hpend hpend1

/-- C17, amended, at a concrete run: connection 1 joins "r" and then joins it again, so it
is listed twice, while connection 2 joins "r" once and stays; the run is orderly for
connection 2, which is listed once and registered in "r". -/
theorem rooms_list_registered_peers_once_witness :
    (joinsOrderly 2 initServer
      [Action.joinRoom 1 "r", Action.settle (Suspended.createRouter 1 "r") (some 10),
       Action.settle (Suspended.joinTail 1 "r" 10) none,
       Action.joinRoom 2 "r", Action.settle (Suspended.joinTail 2 "r" 10) none,
       Action.joinRoom 1 "r", Action.settle (Suspended.joinTail 1 "r" 10) none,
       Action.joinRoom 2 "constructor"] = true ∧
     2 ∈ members (play initServer
      [Action.joinRoom 1 "r", Action.settle (Suspended.createRouter 1 "r") (some 10),
       Action.settle (Suspended.joinTail 1 "r" 10) none,
       Action.joinRoom 2 "r", Action.settle (Suspended.joinTail 2 "r" 10) none,
       Action.joinRoom 1 "r", Action.settle (Suspended.joinTail 1 "r" 10) none,
       Action.joinRoom 2 "constructor"]).1.state "r") ∧
    (members (play initServer
      [Action.joinRoom 1 "r", Action.settle (Suspended.createRouter 1 "r") (some 10),
       Action.settle (Suspended.joinTail 1 "r" 10) none,
       Action.joinRoom 2 "r", Action.settle (Suspended.joinTail 2 "r" 10) none,
       Action.joinRoom 1 "r", Action.settle (Suspended.joinTail 1 "r" 10) none,
       Action.joinRoom 2 "constructor"]).1.state "r").count 2 = 1 :=
  ⟨⟨by decide, by decide⟩,
   ((rooms_list_registered_peers_once
      [Action.joinRoom 1 "r", Action.settle (Suspended.createRouter 1 "r") (some 10),
       Action.settle (Suspended.joinTail 1 "r" 10) none,
       Action.joinRoom 2 "r", Action.settle (Suspended.joinTail 2 "r" 10) none,
       Action.joinRoom 1 "r", Action.settle (Suspended.joinTail 1 "r" 10) none,
       Action.joinRoom 2 "constructor"] 2 (by decide)).1 "r" (by decide)).1⟩

/-- A disconnect that is handled while joinRoom awaits `worker.createRouter` finds no peer
record and returns; the resumed handler then stores connection 1 in the member list and
registers it, so the room lists a connection that has disconnected.  The amended C17
excludes this run: the store happens after the disconnect of connection 1. -/
theorem disconnect_during_createRouter_lists_connection :
    members (play initServer
      [Action.joinRoom 1 "r", Action.disconnect 1,
       Action.settle (Suspended.createRouter 1 "r") (some 10),
       Action.settle (Suspended.joinTail 1 "r" 10) none]).1.state "r" = [1] ∧
    (play initServer
      [Action.joinRoom 1 "r", Action.disconnect 1,
       Action.settle (Suspended.createRouter 1 "r") (some 10),
       Action.settle (Suspended.joinTail 1 "r" 10) none]).1.gone = [1] ∧
    joinsOrderly 1 initServer
      [Action.joinRoom 1 "r", Action.disconnect 1,
       Action.settle (Suspended.createRouter 1 "r") (some 10),
       Action.settle (Suspended.joinTail 1 "r" 10) none] = false := by
  decide

/-- A run in which connection 1 re-joins while it is registered but the re-join fails
(`worker.createRouter` rejects) is orderly: nothing is stored for connection 1. -/
theorem failed_rejoin_is_orderly :
    joinsOrderly 1 initServer
      [Action.joinRoom 1 "r", Action.settle (Suspended.createRouter 1 "r") (some 10),
       Action.settle (Suspended.joinTail 1 "r" 10) none,
       Action.joinRoom 1 "s", Action.settle (Suspended.createRouter 1 "s") none,
       Action.joinRoom 1 "constructor", Action.disconnect 1] = true ∧
    keepsRecord 1 initServer
      [Action.joinRoom 1 "r", Action.settle (Suspended.createRouter 1 "r") (some 10),
       Action.settle (Suspended.joinTail 1 "r" 10) none,
       Action.joinRoom 1 "s", Action.settle (Suspended.createRouter 1 "s") none,
       Action.joinRoom 1 "constructor", Action.disconnect 1] = true := by
  decide


/-! ## Requests handled one at a time are runs of the event loop -/

theorem play_append (a : Server) (xs ys : List Action) :
    play a (xs ++ ys)
      = ((play (play a xs).1 ys).1, (play a xs).2 ++ (play (play a xs).1 ys).2) := by
  induction xs generalizing a with
  | nil => simp [play]
  | cons x xs ih =>
    show play a (x :: (xs ++ ys)) = _
    simp only [play, ih, List.append_assoc]

/-- A request that `step` handles to completion is the run of the event loop in which the
head of the handler and its continuations follow each other directly. -/
theorem step_is_a_play (s : State) (gone : List SocketId) (e : Event) :
    (play ⟨s, [], gone⟩ (uninterrupted s e)).1.state = (step s e).1 ∧
    (play ⟨s, [], gone⟩ (uninterrupted s e)).1.pending = [] ∧
    (play ⟨s, [], gone⟩ (uninterrupted s e)).2 = (step s e).2 := by
  cases e with
  | joinRoom p r created =>
    simp only [uninterrupted, step, joinRoom, createRoom]
    cases hr : dictGet s.rooms r with
    | some room => simp [play, act, resume, hr, createRoomStore]
    | none =>
      by_cases hk : r ∈ inheritedKeys
      · simp [play, act, hr, hk]
      · cases created with
        | none => simp [play, act, resume, hr, hk]
        | some router => simp [play, act, resume, hr, hk, createRoomStore]
  | createWebRtcTransport p c created =>
    simp only [uninterrupted, step, createWebRtcTransport, createTransportHead]
    cases hp : dictGet s.peers p with
    | none => simp [play, act, createTransportHead, hp]
    | some peer =>
      cases hr : dictGet s.rooms peer.roomName with
      | none => simp [play, act, createTransportHead, hp, hr]
      | some room =>
        cases created with
        | none => simp [play, act, resume, createTransportHead, createTransportTail, hp, hr]
        | some t =>
          simp only [play, act, resume, createTransportHead, createTransportTail, hp, hr]
          cases ha : addTransport s p t peer.roomName c <;> simp [ha]
  | transportConnect p =>
    simp only [uninterrupted, step, play, act, transportConnect]
    cases getTransport s p <;> simp
  | transportProduce p created =>
    simp only [uninterrupted, step, transportProduce, produceHead]
    cases ht : getTransport s p with
    | none => simp [play, act, produceHead, ht]
    | some tr =>
      cases created with
      | none => simp [play, act, resume, produceHead, produceTail, ht]
      | some x =>
        simp only [play, act, resume, produceHead, produceTail, ht]
        cases hp : dictGet s.peers p with
        | none => simp [hp]
        | some peer =>
          cases ha : addProducer s p x peer.roomName <;> simp [hp, ha]
  | transportRecvConnect p t =>
    simp only [uninterrupted, step, play, act, transportRecvConnect]
    cases s.transports.find? (fun t1 => t1.consumer && decide (t1.transport = t)) <;> simp
  | consume p pid t can created =>
    simp only [uninterrupted, step, consume, consumeHead]
    cases hp : dictGet s.peers p with
    | none => simp [play, act, consumeHead, hp]
    | some peer =>
      cases hr : dictGet s.rooms peer.roomName with
      | none => simp [play, act, consumeHead, hp, hr]
      | some room =>
        cases hf : s.transports.find? (fun t1 => t1.consumer && decide (t1.transport = t)) with
        | none => simp [play, act, consumeHead, hp, hr, hf]
        | some td =>
          cases can with
          | none => simp [play, act, consumeHead, hp, hr, hf]
          | some b =>
            cases b with
            | false => simp [play, act, consumeHead, hp, hr, hf]
            | true =>
              cases created with
              | none => simp [play, act, resume, consumeHead, consumeTail, hp, hr, hf]
              | some c =>
                simp only [play, act, resume, consumeHead, consumeTail, hp, hr, hf]
                cases ha : addConsumer
                  { s with listeners := s.listeners ++ [⟨c, p, pid⟩] } p c peer.roomName <;>
                  simp [ha]
  | consumerResume p c =>
    simp only [uninterrupted, step, play, act, consumerResume]
    cases s.consumers.find? (fun c1 => decide (c1.consumer = c)) <;> simp
  | getProducers p =>
    simp only [uninterrupted, step, play, act, getProducers]
    cases dictGet s.peers p <;> simp
  | disconnect p => simp [uninterrupted, step, play, act]
  | producerclose l =>
    by_cases hl : l ∈ s.listeners <;> simp [uninterrupted, step, play, act, hl]

/-- Every state that `run` reaches is reached by the event loop with no handler left
suspended. -/
theorem run_is_a_play (evs : List Event) (s : State) (gone : List SocketId) :
    ∃ acts, (play ⟨s, [], gone⟩ acts).1.state = run s evs ∧
      (play ⟨s, [], gone⟩ acts).1.pending = [] := by
  induction evs generalizing s gone with
  | nil => exact ⟨[], rfl, rfl⟩
  | cons e es ih =>
    obtain ⟨h1, h2, -⟩ := step_is_a_play s gone e
    obtain ⟨acts, ha1, ha2⟩ := ih (step s e).1 (play ⟨s, [], gone⟩ (uninterrupted s e)).1.gone
    refine ⟨uninterrupted s e ++ acts, ?_⟩
    rw [play_append]
    have hb : (play ⟨s, [], gone⟩ (uninterrupted s e)).1
        = ⟨(step s e).1, [], (play ⟨s, [], gone⟩ (uninterrupted s e)).1.gone⟩ := by
      cases hx : (play ⟨s, [], gone⟩ (uninterrupted s e)).1 with
      | mk st pd gn =>
        rw [hx] at h1 h2
        simp only at h1 h2
        rw [h1, h2]
    simp only
    rw [hb]
    exact ⟨ha1, ha2⟩

/-- For a connection whose peer record was never replaced while an array entry carried its
socketId, the disconnect handler closes the handle of every entry of that connection, in
whatever order requests, disconnects and continuations were interleaved before. -/
theorem disconnect_closes_entries_of_kept_record (acts : List Action) (q : SocketId)
    (hkeep : keepsRecord q initServer acts = true)
    (hg : q ∉ (play initServer acts).1.gone) :
    (∀ c ∈ (play initServer acts).1.state.consumers, c.socketId = q →
      EngineCall.closeConsumer c.consumer
        ∈ engineCalls (act (play initServer acts).1 (Action.disconnect q)).2) ∧
    (∀ x ∈ (play initServer acts).1.state.producers, x.socketId = q →
      EngineCall.closeProducer x.producer
        ∈ engineCalls (act (play initServer acts).1 (Action.disconnect q)).2) ∧
    (∀ t ∈ (play initServer acts).1.state.transports, t.socketId = q →
      EngineCall.closeTransport t.transport
        ∈ engineCalls (act (play initServer acts).1 (Action.disconnect q)).2) := by
  have hinit : q ∈ initServer.gone ∨ LinkedOf initServer.state q :=
    Or.inr (by simp [LinkedOf, initServer, initState])
  have hl := (play_linkedOf acts initServer q ownedLive_init hkeep hinit).resolve_left hg
  exact cleanupPeer_closes_listed _ q hl


/-- An empty room name: `cleanupPeer` skips the membership update behind
`peer.roomName && ...`, so the room "" keeps listing connection 1 after its disconnect.
The amended C17 excludes this run: the name stored under is empty. -/
theorem empty_room_name_stays_listed :
    members (play initServer
      [Action.joinRoom 1 "", Action.settle (Suspended.createRouter 1 "") (some 10),
       Action.settle (Suspended.joinTail 1 "" 10) none, Action.disconnect 1]).1.state ""
      = [1] ∧
    joinsOrderly 1 initServer
      [Action.joinRoom 1 "", Action.settle (Suspended.createRouter 1 "") (some 10),
       Action.settle (Suspended.joinTail 1 "" 10) none, Action.disconnect 1] = false := by
  decide

/-- A disconnect handled between the store of `createRoom` and the assignment of
`peers[socket.id]`: `cleanupPeer` finds no record and returns, and the handler then
registers the connection it has listed.  The amended C17 excludes this run: the
disconnect is handled while the joinRoom handler is suspended after `createRoom`. -/
theorem disconnect_before_registration_lists_connection :
    members (play initServer
      [Action.joinRoom 1 "r", Action.settle (Suspended.createRouter 1 "r") (some 10),
       Action.disconnect 1, Action.settle (Suspended.joinTail 1 "r" 10) none]).1.state "r"
      = [1] ∧
    (play initServer
      [Action.joinRoom 1 "r", Action.settle (Suspended.createRouter 1 "r") (some 10),
       Action.disconnect 1, Action.settle (Suspended.joinTail 1 "r" 10) none]).1.gone = [1] ∧
    joinsOrderly 1 initServer
      [Action.joinRoom 1 "r", Action.settle (Suspended.createRouter 1 "r") (some 10),
       Action.disconnect 1, Action.settle (Suspended.joinTail 1 "r" 10) none] = false := by
  decide

/-- The run of C11's failing input with the second joinRoom sent while
createWebRtcTransport is suspended: the transport entry is pushed after the peer record
was replaced, `peers[1].transports` names it, and the disconnect closes it.  With the two
continuations in the other order the record is replaced last and nothing is closed. -/
theorem rejoin_during_createTransport :
    engineCalls (play initServer
      [Action.joinRoom 1 "r", Action.settle (Suspended.createRouter 1 "r") (some 10),
       Action.settle (Suspended.joinTail 1 "r" 10) none,
       Action.createWebRtcTransport 1 false, Action.joinRoom 1 "r",
       Action.settle (Suspended.joinTail 1 "r" 10) none,
       Action.settle (Suspended.createTransport 1 false "r") (some 4),
       Action.disconnect 1]).2
      = [EngineCall.createRouter, EngineCall.createWebRtcTransport 10,
         EngineCall.closeTransport 4] ∧
    engineCalls (play initServer
      [Action.joinRoom 1 "r", Action.settle (Suspended.createRouter 1 "r") (some 10),
       Action.settle (Suspended.joinTail 1 "r" 10) none,
       Action.createWebRtcTransport 1 false, Action.joinRoom 1 "r",
       Action.settle (Suspended.createTransport 1 false "r") (some 4),
       Action.settle (Suspended.joinTail 1 "r" 10) none,
       Action.disconnect 1]).2
      = [EngineCall.createRouter, EngineCall.createWebRtcTransport 10] := by
  decide


/-- The same race with both `worker.createRouter` promises settled before either handler
answers: both stores of `createRoom` run first, and connection 1, which found the room
empty, is answered with the peer list `[2]`. -/
theorem joinRoom_race_settled_together :
    responses (play initServer
      [Action.joinRoom 1 "r", Action.joinRoom 2 "r",
       Action.settle (Suspended.createRouter 1 "r") (some 10),
       Action.settle (Suspended.createRouter 2 "r") (some 20),
       Action.settle (Suspended.joinTail 1 "r" 10) none,
       Action.settle (Suspended.joinTail 2 "r" 20) none]).2
      = [(1, Response.joined 10 [2]), (2, Response.joined 20 [])] ∧
    (play initServer
      [Action.joinRoom 1 "r", Action.joinRoom 2 "r",
       Action.settle (Suspended.createRouter 1 "r") (some 10),
       Action.settle (Suspended.createRouter 2 "r") (some 20),
       Action.settle (Suspended.joinTail 1 "r" 10) none,
       Action.settle (Suspended.joinTail 2 "r" 20) none]).1.state.rooms
      = [("r", ⟨20, [2]⟩)] := by
  decide

end Mediasoup
